import Mathlib

/-!
# Cedana checkpoint engine: a shallow embedding

The definitions below embed `container/checkpoint.go`: the dump orchestrator
`RuncCheckpoint` and the CRIU RPC engine `criuSwrk`.  Operating-system calls
(mkdir, open, the socket transport, the `criu swrk` child) are answered by an
explicit `World` value, and every effect the functions have is recorded in the
`World` they return.

They go on with the two builders of container descriptors in the same file
(`getContainerFromDocker`, `getContainerFromRunc`), the adopted init process
`nonChildProcess`, the restore functions of `cmd/client-restore.go` over an
explicit file system, the root probing of `cmd/runc.go`, and `pullGPUBinary`
of `cmd/client-daemon.go`.  A call that ends
the process (a message logged at fatal level, a nil dereference) is an
`Outcome` of its own, apart from a returned error.
-/

namespace Cedana

/-! ## Library types (go-criu `rpc` package, `os`, `path/filepath`) -/

namespace criurpc

/-- The `criu_req_type` enumeration of the CRIU RPC protocol. -/
inductive CriuReqType where
  | EMPTY
  | DUMP
  | RESTORE
  | CHECK
  | PRE_DUMP
  | PAGE_SERVER
  | NOTIFY
  | CPUINFO_DUMP
  | CPUINFO_CHECK
  | FEATURE_CHECK
  | VERSION
  | WAIT_PID
  | PAGE_SERVER_CHLD
  deriving DecidableEq, Repr

/-- The name printed by `CriuReqType.String()`. -/
def CriuReqType.String : CriuReqType → String
  | .EMPTY => "EMPTY"
  | .DUMP => "DUMP"
  | .RESTORE => "RESTORE"
  | .CHECK => "CHECK"
  | .PRE_DUMP => "PRE_DUMP"
  | .PAGE_SERVER => "PAGE_SERVER"
  | .NOTIFY => "NOTIFY"
  | .CPUINFO_DUMP => "CPUINFO_DUMP"
  | .CPUINFO_CHECK => "CPUINFO_CHECK"
  | .FEATURE_CHECK => "FEATURE_CHECK"
  | .VERSION => "VERSION"
  | .WAIT_PID => "WAIT_PID"
  | .PAGE_SERVER_CHLD => "PAGE_SERVER_CHLD"

/-- The `criu_features` message; every field is optional on the wire. -/
structure CriuFeatures where
  MemTrack : Option Bool := none
  LazyPages : Option Bool := none
  PidfdStore : Option Bool := none
  deriving DecidableEq, Repr

/-- The fields of the `criu_opts` message that `checkpoint.go` reads or writes.
A field that was never assigned is `none`. -/
structure CriuOpts where
  ImagesDirFd : Option Int := none
  LogLevel : Option Int := none
  LogFile : Option String := none
  Root : Option String := none
  ManageCgroups : Option Bool := none
  NotifyScripts : Option Bool := none
  Pid : Option Int := none
  ShellJob : Option Bool := none
  LeaveRunning : Option Bool := none
  TcpEstablished : Option Bool := none
  ExtUnixSk : Option Bool := none
  FileLocks : Option Bool := none
  EmptyNs : Option Nat := none
  OrphanPtsMaster : Option Bool := none
  AutoDedup : Option Bool := none
  LazyPages : Option Bool := none
  WorkDirFd : Option Int := none
  FreezeCgroup : Option String := none
  ParentImg : Option String := none
  TrackMem : Option Bool := none
  ManageCgroupsMode : Option Nat := none
  StatusFd : Option Int := none
  deriving DecidableEq, Repr

/-- Getter `GetLogFile`: the empty string when the field is unset. -/
def CriuOpts.GetLogFile (o : CriuOpts) : String := o.LogFile.getD ""

/-- The `criu_req` message.  `type` is a required field of the protocol, so a
request that can be marshalled always has one. -/
structure CriuReq where
  Type_ : CriuReqType
  Opts : Option CriuOpts := none
  Features : Option CriuFeatures := none
  deriving DecidableEq, Repr

def CriuReq.GetType (r : CriuReq) : CriuReqType := r.Type_

/-- Getter chain `req.GetOpts().GetLogFile()`: empty when `Opts` is nil. -/
def CriuReq.GetLogFile (r : CriuReq) : String :=
  match r.Opts with
  | some o => o.GetLogFile
  | none => ""

/-- The `criu_resp` message.  `type` and `success` are required fields, so a
datagram that unmarshals has both. -/
structure CriuResp where
  Type_ : CriuReqType
  Success : Bool
  CrErrno : Option Int := none
  Features : Option CriuFeatures := none
  deriving DecidableEq, Repr

def CriuResp.GetSuccess (r : CriuResp) : Bool := r.Success

def CriuResp.GetType (r : CriuResp) : CriuReqType := r.Type_

/-- Getter `GetCrErrno`: zero when the field is unset. -/
def CriuResp.GetCrErrno (r : CriuResp) : Int := r.CrErrno.getD 0

def CriuResp.GetFeatures (r : CriuResp) : Option CriuFeatures := r.Features

end criurpc

open criurpc (CriuReqType)

/-- Error numbers reported by the operating system. -/
inductive Errno where
  | EEXIST
  | ENOTEMPTY
  | ENOENT
  | EACCES
  | ENOTDIR
  | EIO
  | ECHILD
  | ECONNRESET
  | EMFILE
  deriving DecidableEq, Repr

/-- Go's `os.IsExist`: true for `EEXIST` and `ENOTEMPTY`. -/
def osIsExist (e : Errno) : Bool :=
  match e with
  | .EEXIST => true
  | .ENOTEMPTY => true
  | _ => false

/-- Conversion `int32(x)` of a Go `int`: wraps modulo `2^32` into the signed
32-bit range. -/
def toInt32 (x : Int) : Int := (x + 2147483648) % 4294967296 - 2147483648

/-! ### `filepath.Join` -/

/-- Split a character list at every `/`. -/
def splitSlash : List Char → List (List Char)
  | [] => [[]]
  | c :: cs =>
    match splitSlash cs with
    | [] => [[c]]
    | seg :: rest => if c = '/' then [] :: seg :: rest else (c :: seg) :: rest

/-- One step of `filepath.Clean` over the components kept so far (most recent
first): empty and `.` components vanish, `..` removes the previous component
when there is one to remove, is dropped at the root, and is kept otherwise. -/
def cleanStep (rooted : Bool) (acc : List (List Char)) (seg : List Char) : List (List Char) :=
  if seg = [] ∨ seg = ['.'] then acc
  else if seg = ['.', '.'] then
    match acc with
    | [] => if rooted then [] else [seg]
    | h :: t => if h = ['.', '.'] then seg :: acc else t
  else seg :: acc

/-- Go's `filepath.Clean` on a Unix path. -/
def filepathClean (path : String) : String :=
  match path.data with
  | [] => "."
  | c :: cs =>
    let rooted := decide (c = '/')
    let kept := ((splitSlash (c :: cs)).foldl (cleanStep rooted) []).reverse
    let body := String.mk (List.intercalate ['/'] kept)
    if rooted then "/" ++ body else if body = "" then "." else body

/-- Go's `filepath.Join` of two elements: empty leading elements are skipped,
the rest is joined with `/` and cleaned; all-empty input gives `""`. -/
def filepathJoin (a b : String) : String :=
  if a ≠ "" then filepathClean (a ++ "/" ++ b)
  else if b ≠ "" then filepathClean b
  else ""

/-! ## Errors -/

/-- The errors `checkpoint.go` returns.  Go builds them as strings; the
constructors keep the values that go into each string. -/
inductive Error where
  /-- Returned by `checkCriuVersion` when the installed CRIU is older than the minimum. -/
  | criuTooOld (version min : Int)
  /-- The error `errors.New("invalid directory to save checkpoint")`. -/
  | invalidDirectory
  /-- An error of a system call or library call, passed on unchanged. -/
  | os (e : Errno)
  /-- Returned by `checkCriuFeatures`. -/
  | missingMemTrack
  /-- The error of `criuApplyCgroups`, passed on unchanged. -/
  | applyCgroups
  /-- The error of `proto.Marshal`, passed on unchanged. -/
  | marshal
  /-- The error `io.EOF`, which a read on a closed connection returns. -/
  | eof
  /-- The error `errors.New("unexpected EOF")`. -/
  | unexpectedEOF
  /-- The error `errors.New("buffer is too small")`. -/
  | bufferTooSmall
  /-- The error of `proto.Unmarshal`, passed on unchanged. -/
  | unmarshal
  /-- The error `fmt.Errorf("criu failed: type %s errno %d\nlog file: %s", ...)`. -/
  | criuFailed (typ : CriuReqType) (errno : Int) (logPath : String)
  /-- The error `fmt.Errorf("unable to parse the response %s", resp.String())`. -/
  | unableToParse (resp : criurpc.CriuResp)
  /-- The error `fmt.Errorf("criu failed: %s\nlog file: %s", criuProcessState.String(), logPath)`. -/
  | criuProcessFailed (state : String) (logPath : String)
  deriving DecidableEq, Repr


/-! ## The environment -/

/-- Size of the response buffer: `make([]byte, 10*4096)`. -/
def bufSize : Nat := 10 * 4096

/-- One datagram sent by the CRIU child, as the transport delivers it. -/
structure ReadMsg where
  /-- Length in bytes of the datagram CRIU sent. -/
  size : Nat
  /-- Transport error that the `recvmsg` call behind `ReadMsgUnix` meets, if any. -/
  err : Option Errno := none
  /-- Result of `proto.Unmarshal` on the bytes received; `none` is a decoding error. -/
  resp : Option criurpc.CriuResp := none
  deriving DecidableEq, Repr

/-- The byte count `n` that `ReadMsgUnix` returns: a datagram longer than the
buffer is truncated to the buffer. -/
def ReadMsg.n (m : ReadMsg) : Nat := min m.size bufSize

/-- The pair `(n, err)` that `ReadMsgUnix` hands back.  A transport error is
passed on.  The connection is the `SOCK_SEQPACKET` socket pair of line 535,
and for every socket type other than `SOCK_DGRAM` and `SOCK_RAW` Go reports a
read of zero bytes that met no error as `io.EOF`: the pair `(0, nil)` is never
handed back. -/
def ReadMsg.result (m : ReadMsg) : Nat × Option Error :=
  match m.err with
  | some e => (m.n, some (Error.os e))
  | none => if m.n = 0 then (0, some Error.eof) else (m.n, none)

/-- What `recvmsg` delivers once the peer has closed the socket: zero bytes.
`ReadMsgUnix` hands them back as `(0, io.EOF)`, see `ReadMsg.result`. -/
def eofMsg : ReadMsg := { size := 0 }

/-- Behaviour of one `criu swrk` child and of the socket pair set up for it. -/
structure CriuSession where
  socketpairErr : Option Errno := none
  fileConnErr : Option Errno := none
  startErr : Option Errno := none
  /-- Whether `criuApplyCgroups` (not part of `checkpoint.go`) reports an error. -/
  applyCgroupsFails : Bool := false
  marshalFails : Bool := false
  writeErr : Option Errno := none
  /-- Datagrams the child sends, in order. -/
  reads : List ReadMsg := []
  waitErr : Option Errno := none
  /-- Value of `criuProcessState.Success()`. -/
  exitSuccess : Bool := true
  /-- Value of `criuProcessState.String()`. -/
  exitString : String := "exit status 0"

/-- The state of the machine around the program, together with a record of
what the program did to it. -/
structure World where
  /-- Paths that exist in the file system. -/
  paths : List String := []
  /-- Failure, other than "already exists", that `os.Mkdir` meets at a path. -/
  mkdirFault : String → Option Errno := fun _ => none
  /-- Failure that `os.Open` meets at an existing path. -/
  openFault : String → Option Errno := fun _ => none
  /-- Next free file descriptor number. -/
  nextFd : Nat := 3
  /-- Value of `cgroups.IsCgroup2UnifiedMode()`. -/
  cgroup2Unified : Bool := true
  /-- Behaviour of the k-th invocation of the RPC engine. -/
  criu : Nat → CriuSession := fun _ => {}
  /-- Requests handed to `criuSwrk` so far, oldest first. -/
  calls : List criurpc.CriuReq := []
  /-- Number of `criu swrk` children started so far. -/
  started : Nat := 0
  /-- Directories created by `os.Mkdir` so far, oldest first. -/
  created : List String := []
  /-- Number of datagrams read from CRIU so far. -/
  readCount : Nat := 0
  /-- Number of calls of `proto.Unmarshal` so far. -/
  unmarshalCount : Nat := 0
  /-- File descriptors closed through `unix.Close`, most recent first. -/
  closedFds : List Int := []
  /-- The package-level variable `criuFeatures`. -/
  criuFeatures : Option criurpc.CriuFeatures := none

/-- The system call behind `os.Mkdir(path, 0o700)`. -/
def osMkdir (w : World) (path : String) : Option Errno × World :=
  if path ∈ w.paths then (some Errno.EEXIST, w)
  else
    match w.mkdirFault path with
    | some e => (some e, w)
    | none => (none, { w with paths := path :: w.paths, created := w.created ++ [path] })

/-- The system call behind `os.Open(path)`: the new descriptor, or an error. -/
def osOpen (w : World) (path : String) : Except Errno Nat × World :=
  if path ∈ w.paths then
    match w.openFault path with
    | some e => (Except.error e, w)
    | none => (Except.ok w.nextFd, { w with nextFd := w.nextFd + 1 })
  else (Except.error Errno.ENOENT, w)

/-! ## Data model of `checkpoint.go` -/

structure VethPairName where
  ContainerInterfaceName : String
  HostInterfaceName : String
  deriving DecidableEq, Repr

/-- Higher level options that turn the flags passed to CRIU on and off. -/
structure CriuOpts where
  ImagesDirectory : String := ""
  WorkDirectory : String := ""
  ParentImage : String := ""
  LeaveRunning : Bool := false
  TcpEstablished : Bool := false
  ExternalUnixConnections : Bool := false
  ShellJob : Bool := false
  FileLocks : Bool := false
  PreDump : Bool := false
  VethPairs : List VethPairName := []
  ManageCgroupsMode : Nat := 0
  EmptyNs : Nat := 0
  AutoDedup : Bool := false
  LazyPages : Bool := false
  StatusFd : Int := 0
  LsmProfile : String := ""
  LsmMountContext : String := ""
  deriving DecidableEq, Repr

/-- The part of `configs.Config` that the dump reads. -/
structure Config where
  Rootfs : String := ""
  deriving DecidableEq, Repr

/-- The container descriptor.  `cgroupManager` is the `Path` method of the
cgroup manager: subsystem name to cgroup path. -/
structure RuncContainer where
  id : String := ""
  root : String := ""
  pid : Int := 0
  config : Config := {}
  cgroupManager : String → String := fun _ => ""
  initProcessStartTime : Nat := 0
  criuVersion : Int := 0


/-! ## The CRIU RPC engine: `criuSwrk` -/

/-- How one pass through the body of the response loop ends. -/
inductive LoopCtl where
  /-- The function returns this error. -/
  | ret (e : Error)
  /-- The loop is left through `break`. -/
  | brk
  /-- The loop goes on to its next pass. -/
  | next
  deriving DecidableEq, Repr

/-- Closing of the status descriptor after a read (lines 633-641): when the
request carries one, it is closed and the field is cleared. -/
def closeStatusFd (w : World) (req : criurpc.CriuReq) : criurpc.CriuReq × World :=
  match req.Opts with
  | none => (req, w)
  | some o =>
    match o.StatusFd with
    | none => (req, w)
    | some fd =>
      ({ req with Opts := some { o with StatusFd := none } },
       { w with closedFds := fd :: w.closedFds })

/-- The `switch` on the response type (lines 662-674): the error it returns,
if any, and the world after it. -/
def dispatch (w : World) (resp : criurpc.CriuResp) : Option Error × World :=
  match resp.GetType with
  | .FEATURE_CHECK => (none, { w with criuFeatures := resp.GetFeatures })
  | .NOTIFY => (none, w)
  | .RESTORE => (none, w)
  | .DUMP => (none, w)
  | .PRE_DUMP => (none, w)
  | _ => (some (Error.unableToParse resp), w)

/-- The handling of a frame that passed the length checks (lines 652-676):
it is unmarshalled, a negative response becomes an error, and a positive one
is dispatched on its type; after the `switch` comes the `break`. -/
def handleFrame (logPath : String) (w : World) (req : criurpc.CriuReq)
    (decoded : Option criurpc.CriuResp) : LoopCtl × criurpc.CriuReq × World :=
  let w1 := { w with unmarshalCount := w.unmarshalCount + 1 }
  match decoded with
  | none => (LoopCtl.ret Error.unmarshal, req, w1)
  | some resp =>
    if !resp.GetSuccess then
      (LoopCtl.ret (Error.criuFailed req.GetType resp.GetCrErrno logPath), req, w1)
    else
      match dispatch w1 resp with
      | (some e, w2) => (LoopCtl.ret e, req, w2)
      | (none, w2) => (LoopCtl.brk, req, w2)

/-- The rest of the loop body after the read and the closing of the status
descriptor (lines 642-676), as a function of the pair `(n, err)` that
`ReadMsgUnix` handed back and of what `proto.Unmarshal` makes of the bytes. -/
def checkRead (logPath : String) (w : World) (req : criurpc.CriuReq) (n : Nat)
    (err : Option Error) (decoded : Option criurpc.CriuResp) :
    LoopCtl × criurpc.CriuReq × World :=
  match err with
  | some e => (LoopCtl.ret e, req, w)
  | none =>
    if n = 0 then (LoopCtl.ret Error.unexpectedEOF, req, w)
    else if n = bufSize then (LoopCtl.ret Error.bufferTooSmall, req, w)
    else handleFrame logPath w req decoded

/-- One pass through the body of the response loop (lines 632-676) on the
datagram `m`. -/
def respIter (logPath : String) (w : World) (req : criurpc.CriuReq) (m : ReadMsg) :
    LoopCtl × criurpc.CriuReq × World :=
  match closeStatusFd { w with readCount := w.readCount + 1 } req with
  | (req1, w1) => checkRead logPath w1 req1 m.result.1 m.result.2 m.resp

/-- The response loop `for { ... }` over the datagrams still to come.  Once the
child has sent everything, a read finds the socket closed. -/
def respLoop (logPath : String) :
    List ReadMsg → World → criurpc.CriuReq → Option Error × criurpc.CriuReq × World
  | [], w, req =>
    match respIter logPath w req eofMsg with
    | (LoopCtl.ret e, req1, w1) => (some e, req1, w1)
    | (LoopCtl.brk, req1, w1) => (none, req1, w1)
    | (LoopCtl.next, req1, w1) => (some Error.eof, req1, w1)
  | m :: rest, w, req =>
    match respIter logPath w req m with
    | (LoopCtl.ret e, req1, w1) => (some e, req1, w1)
    | (LoopCtl.brk, req1, w1) => (none, req1, w1)
    | (LoopCtl.next, req1, w1) => respLoop logPath rest w1 req1

/-- The log path computed at lines 540-547. -/
def swrkLogPath (req : criurpc.CriuReq) (opts : Option CriuOpts) : String :=
  match opts with
  | some o => filepathJoin o.WorkDirectory req.GetLogFile
  | none => ""

/-- The end of `criuSwrk` (lines 679-697): wait for the child and judge its
exit status. -/
def waitChild (s : CriuSession) (logPath : String) (req : criurpc.CriuReq) : Option Error :=
  match s.waitErr with
  | some e => some (Error.os e)
  | none =>
    if !s.exitSuccess && req.Type_ ≠ CriuReqType.PRE_DUMP then
      some (Error.criuProcessFailed s.exitString logPath)
    else none

/-- The method `criuSwrk`: one request/response session with a `criu swrk`
child.  Returns the error (if any), the request as the call leaves it, and the
world afterwards.  Logging and the forwarding of standard streams and extra
files to the child are left out. -/
def criuSwrk (w : World) (req : criurpc.CriuReq) (opts : Option CriuOpts) :
    Option Error × criurpc.CriuReq × World :=
  let s := w.criu w.calls.length
  let w0 := { w with calls := w.calls ++ [req] }
  match s.socketpairErr with
  | some e => (some (Error.os e), req, w0)
  | none =>
    let logPath := swrkLogPath req opts
    match s.fileConnErr with
    | some e => (some (Error.os e), req, w0)
    | none =>
      match s.startErr with
      | some e => (some (Error.os e), req, w0)
      | none =>
        let w1 := { w0 with started := w0.started + 1 }
        if s.applyCgroupsFails then (some Error.applyCgroups, req, w1)
        else if s.marshalFails then (some Error.marshal, req, w1)
        else
          match s.writeErr with
          | some e => (some (Error.os e), req, w1)
          | none =>
            match respLoop logPath s.reads w1 req with
            | (some e, req1, w2) => (some e, req1, w2)
            | (none, req1, w2) => (waitChild s logPath req1, req1, w2)

/-! ## The dump orchestrator: `RuncCheckpoint` -/

/-- Modelled from the spec: `checkCriuVersion` is a method of the container
descriptor that `checkpoint.go` calls and does not define.  The spec's words:
the gate requires `criu_version ≥ 30000`, otherwise `CriuTooOld`; the freezer
is selected when CRIU ≥ 31400. -/
def checkCriuVersion (c : RuncContainer) (minVersion : Int) : Option Error :=
  if minVersion ≤ c.criuVersion then none
  else some (Error.criuTooOld c.criuVersion minVersion)

/-- Modelled from the spec: `checkCriuFeatures` is a method of the container
descriptor that `checkpoint.go` calls and does not define.  The spec's words:
issue a `FEATURE_CHECK` with the wanted features and fail `MissingMemTrack` on
a negative response.  The request goes through `criuSwrk`; an error of that
session is passed on. -/
def checkCriuFeatures (w : World) (criuOpts : CriuOpts) (rpcOpts : criurpc.CriuOpts)
    (feat : criurpc.CriuFeatures) : Option Error × criurpc.CriuOpts × World :=
  let req : criurpc.CriuReq :=
    { Type_ := CriuReqType.FEATURE_CHECK, Opts := some rpcOpts, Features := some feat }
  match criuSwrk w req (some criuOpts) with
  | (some e, req1, w1) => (some e, req1.Opts.getD rpcOpts, w1)
  | (none, req1, w1) =>
    let reported := (w1.criuFeatures.getD {}).MemTrack
    if feat.MemTrack = some true ∧ reported ≠ some true then
      (some Error.missingMemTrack, req1.Opts.getD rpcOpts, w1)
    else (none, req1.Opts.getD rpcOpts, w1)

/-- The statement `if err := os.Mkdir(dir, 0o700); err != nil && !os.IsExist(err)
{ return err }`: the error to return, if any. -/
def mkdirUnlessExists (w : World) (dir : String) : Option Error × World :=
  match osMkdir w dir with
  | (none, w1) => (none, w1)
  | (some e, w1) => if !osIsExist e then (some (Error.os e), w1) else (none, w1)

/-- The options composed at lines 454-471. -/
def dumpRpcOpts (c : RuncContainer) (criuOpts : CriuOpts) (pid : Int) (imageDirFd : Nat) :
    criurpc.CriuOpts :=
  { ImagesDirFd := some (toInt32 imageDirFd)
    LogLevel := some 4
    LogFile := some "dump.log"
    Root := some c.config.Rootfs
    ManageCgroups := some true
    NotifyScripts := some false
    Pid := some (toInt32 pid)
    ShellJob := some criuOpts.ShellJob
    LeaveRunning := some criuOpts.LeaveRunning
    TcpEstablished := some criuOpts.TcpEstablished
    ExtUnixSk := some criuOpts.ExternalUnixConnections
    FileLocks := some criuOpts.FileLocks
    EmptyNs := some criuOpts.EmptyNs
    OrphanPtsMaster := some true
    AutoDedup := some criuOpts.AutoDedup
    LazyPages := some criuOpts.LazyPages }

/-- The work directory block (lines 474-484). -/
def openWorkDir (w : World) (criuOpts : CriuOpts) (rpcOpts : criurpc.CriuOpts) :
    Option Error × criurpc.CriuOpts × World :=
  if criuOpts.WorkDirectory ≠ "" then
    match mkdirUnlessExists w criuOpts.WorkDirectory with
    | (some err, w1) => (some err, rpcOpts, w1)
    | (none, w1) =>
      match osOpen w1 criuOpts.WorkDirectory with
      | (Except.error e, w2) => (some (Error.os e), rpcOpts, w2)
      | (Except.ok fd, w2) => (none, { rpcOpts with WorkDirFd := some (toInt32 fd) }, w2)
  else (none, rpcOpts, w)

/-- The freezer block (lines 489-493). -/
def freezerOpts (w : World) (c : RuncContainer) (rpcOpts : criurpc.CriuOpts) :
    criurpc.CriuOpts :=
  if !w.cgroup2Unified || (checkCriuVersion c 31400).isNone then
    let fcg := c.cgroupManager "freezer"
    if fcg ≠ "" then { rpcOpts with FreezeCgroup := some fcg } else rpcOpts
  else rpcOpts

/-- The parent image block (lines 496-499). -/
def parentImageOpts (criuOpts : CriuOpts) (rpcOpts : criurpc.CriuOpts) : criurpc.CriuOpts :=
  if criuOpts.ParentImage ≠ "" then
    { rpcOpts with ParentImg := some criuOpts.ParentImage, TrackMem := some true }
  else rpcOpts

/-- The cgroups mode block (lines 502-505). -/
def cgroupsModeOpts (criuOpts : CriuOpts) (rpcOpts : criurpc.CriuOpts) : criurpc.CriuOpts :=
  if criuOpts.ManageCgroupsMode ≠ 0 then
    { rpcOpts with ManageCgroupsMode := some criuOpts.ManageCgroupsMode }
  else rpcOpts

/-- The choice of request type (lines 507-520), with the feature check that
precedes a pre-dump: the error to return, or the type, and the options and
world afterwards. -/
def chooseReqType (w : World) (criuOpts : CriuOpts) (rpcOpts : criurpc.CriuOpts) :
    Except Error CriuReqType × criurpc.CriuOpts × World :=
  if criuOpts.PreDump then
    let feat : criurpc.CriuFeatures := { MemTrack := some true }
    match checkCriuFeatures w criuOpts rpcOpts feat with
    | (some err, rpcOpts1, w1) => (Except.error err, rpcOpts1, w1)
    | (none, rpcOpts1, w1) => (Except.ok CriuReqType.PRE_DUMP, rpcOpts1, w1)
  else (Except.ok CriuReqType.DUMP, rpcOpts, w)

/-- The method `RuncCheckpoint`: the error it returns, if any, and the world
afterwards. -/
def RuncCheckpoint (w : World) (c : RuncContainer) (criuOpts : CriuOpts) (pid : Int) :
    Option Error × World :=
  match checkCriuVersion c 30000 with
  | some err => (some err, w)
  | none =>
    if criuOpts.ImagesDirectory = "" then (some Error.invalidDirectory, w)
    else
      match mkdirUnlessExists w criuOpts.ImagesDirectory with
      | (some err, w1) => (some err, w1)
      | (none, w1) =>
        match osOpen w1 criuOpts.ImagesDirectory with
        | (Except.error e, w2) => (some (Error.os e), w2)
        | (Except.ok imageDir, w2) =>
          let rpcOpts := dumpRpcOpts c criuOpts pid imageDir
          match openWorkDir w2 criuOpts rpcOpts with
          | (some err, _, w3) => (some err, w3)
          | (none, rpcOpts1, w3) =>
            let rpcOpts2 := freezerOpts w3 c rpcOpts1
            let rpcOpts3 := parentImageOpts criuOpts rpcOpts2
            let rpcOpts4 := cgroupsModeOpts criuOpts rpcOpts3
            match chooseReqType w3 criuOpts rpcOpts4 with
            | (Except.error err, _, w4) => (some err, w4)
            | (Except.ok t, rpcOpts5, w4) =>
              let req : criurpc.CriuReq := { Type_ := t, Opts := some rpcOpts5 }
              match criuSwrk w4 req (some criuOpts) with
              | (some err, _, w5) => (some err, w5)
              | (none, _, w5) => (none, w5)

/-- The function `Dump`, applied to the descriptor that `getContainerFromRunc`
built for the container. -/
def Dump (w : World) (c : RuncContainer) (dir : String) : Option Error × World :=
  let opts : CriuOpts := { ImagesDirectory := dir, LeaveRunning := true }
  RuncCheckpoint w c opts c.pid


/-! ## Vocabulary of the statements -/

/-- The session gets as far as the response loop: the socket pair, the child
and the request datagram were all set up without error. -/
def CriuSession.reachesLoop (s : CriuSession) : Prop :=
  s.socketpairErr = none ∧ s.fileConnErr = none ∧ s.startErr = none ∧
  s.applyCgroupsFails = false ∧ s.marshalFails = false ∧ s.writeErr = none

instance (s : CriuSession) : Decidable s.reachesLoop := by
  unfold CriuSession.reachesLoop
  infer_instance

/-- The first datagram a read delivers in a session. -/
def CriuSession.firstRead (s : CriuSession) : ReadMsg := s.reads.headD eofMsg

/-- The session that the next call of `criuSwrk` talks to. -/
def World.session (w : World) : CriuSession := w.criu w.calls.length

/-- The world in which the response loop of a call starts. -/
def loopStart (w : World) (req : criurpc.CriuReq) : World :=
  { w with calls := w.calls ++ [req], started := w.started + 1 }

/-- Two worlds that differ at most in what the RPC engine records: reads,
decodings, closed descriptors, started children and the feature cache. -/
def World.sameMachine (w w1 : World) : Prop :=
  w1.paths = w.paths ∧ w1.mkdirFault = w.mkdirFault ∧ w1.openFault = w.openFault ∧
  w1.nextFd = w.nextFd ∧ w1.cgroup2Unified = w.cgroup2Unified ∧ w1.criu = w.criu ∧
  w1.created = w.created ∧ w1.calls = w.calls

/-- The response types the `switch` of `criuSwrk` has a case for. -/
def acceptedRespTypes : List CriuReqType :=
  [CriuReqType.FEATURE_CHECK, CriuReqType.NOTIFY, CriuReqType.DUMP, CriuReqType.RESTORE,
   CriuReqType.PRE_DUMP]

/-- The session reaches the response loop and CRIU answers with the positive
response `resp` of a type the `switch` has a case for, in a frame of admissible
length, and then exits with status zero. -/
def CriuSession.answersWith (s : CriuSession) (resp : criurpc.CriuResp) : Prop :=
  s.reachesLoop ∧ s.firstRead.err = none ∧ 0 < s.firstRead.n ∧ s.firstRead.n < 40960 ∧
  s.firstRead.resp = some resp ∧ resp.Success = true ∧ resp.Type_ ∈ acceptedRespTypes ∧
  s.waitErr = none ∧ s.exitSuccess = true

instance (s : CriuSession) (resp : criurpc.CriuResp) : Decidable (s.answersWith resp) := by
  unfold CriuSession.answersWith
  infer_instance

/-- The world once `os.Mkdir` has created `dir`. -/
def World.withDir (w : World) (dir : String) : World :=
  { w with paths := dir :: w.paths, created := w.created ++ [dir] }

/-! ## Vocabulary of the proofs and sample inputs -/

/-- Whether an error is the one of the version gate. -/
def Error.isTooOld : Error → Bool
  | Error.criuTooOld _ _ => true
  | _ => false

/-- A world in which every CRIU session behaves as `s`. -/
def worldOf (s : CriuSession) : World := { criu := fun _ => s }

/-- A DUMP request whose log file is `dump.log`. -/
def dumpReq : criurpc.CriuReq :=
  { Type_ := CriuReqType.DUMP, Opts := some { LogFile := some "dump.log" } }

/-- A positive response of the given type. -/
def okResp (t : CriuReqType) : criurpc.CriuResp := { Type_ := t, Success := true }

/-- A negative response of the given type carrying an errno. -/
def failResp (t : CriuReqType) (errno : Int) : criurpc.CriuResp :=
  { Type_ := t, Success := false, CrErrno := some errno }

/-- A session in which CRIU first sends a positive NOTIFY and then a negative
DUMP response. -/
def notifyThenFail : CriuSession :=
  { reads := [{ size := 16, resp := some (okResp CriuReqType.NOTIFY) },
              { size := 16, resp := some (failResp CriuReqType.DUMP 22) }] }

/-- A session in which CRIU answers a pre-dump positively and is then killed. -/
def killedAfterPreDump : CriuSession :=
  { reads := [{ size := 16, resp := some (okResp CriuReqType.PRE_DUMP) }]
    exitSuccess := false
    exitString := "signal: killed" }

/-- What the file-system steps of a dump leave untouched, and that paths are
only ever added. -/
def World.fsGrows (w w1 : World) : Prop :=
  w1.mkdirFault = w.mkdirFault ∧ w1.openFault = w.openFault ∧
  w1.cgroup2Unified = w.cgroup2Unified ∧ w1.criu = w.criu ∧ w1.calls = w.calls ∧
  w1.criuFeatures = w.criuFeatures ∧ w1.started = w.started ∧ w.paths ⊆ w1.paths

/-- The end of `RuncCheckpoint` (lines 507-531): choice of the request type
and the call of the RPC engine. -/
def dumpTail (w : World) (criuOpts : CriuOpts) (rpcOpts : criurpc.CriuOpts) :
    Option Error × World :=
  match chooseReqType w criuOpts rpcOpts with
  | (Except.error err, _, w4) => (some err, w4)
  | (Except.ok t, rpcOpts5, w4) =>
    match criuSwrk w4 { Type_ := t, Opts := some rpcOpts5 } (some criuOpts) with
    | (some err, _, w5) => (some err, w5)
    | (none, _, w5) => (none, w5)

/-- The options `RuncCheckpoint` has composed when it chooses the request
type, given the descriptors of the images and work directories. -/
def composedOpts (w : World) (c : RuncContainer) (criuOpts : CriuOpts) (pid : Int)
    (imageDirFd : Nat) (workDirFd : Option Int) : criurpc.CriuOpts :=
  cgroupsModeOpts criuOpts (parentImageOpts criuOpts
    (freezerOpts w c { dumpRpcOpts c criuOpts pid imageDirFd with WorkDirFd := workDirFd }))

/-- The FEATURE_CHECK request that precedes a pre-dump. -/
def featureCheckReq (rpcOpts : criurpc.CriuOpts) : criurpc.CriuReq :=
  { Type_ := CriuReqType.FEATURE_CHECK, Opts := some rpcOpts,
    Features := some { MemTrack := some true } }

/-- The fields of the options that the later blocks of `RuncCheckpoint` never
assign. -/
def payloadFields (ro : criurpc.CriuOpts) :=
  (ro.LogLevel, ro.LogFile, ro.Root, ro.ManageCgroups, ro.NotifyScripts, ro.Pid,
   ro.OrphanPtsMaster, ro.ShellJob, ro.LeaveRunning, ro.TcpEstablished, ro.ExtUnixSk,
   ro.FileLocks, ro.EmptyNs, ro.AutoDedup, ro.LazyPages, ro.StatusFd)

/-- A container with CRIU 3.16, pid 42 and a freezer cgroup. -/
def sampleContainer : RuncContainer :=
  { id := "c1"
    pid := 42
    criuVersion := 31600
    config := { Rootfs := "/run/rootfs" }
    cgroupManager := fun s => if s = "freezer" then "/sys/fs/cgroup/freezer/c1" else "" }

/-- A world where `/img` exists and CRIU answers every request with one
positive DUMP response. -/
def sampleWorld : World :=
  { paths := ["/img"]
    criu := fun _ => { reads := [{ size := 16, resp := some (okResp CriuReqType.DUMP) }] } }

/-- A world where nothing exists yet and CRIU answers every request with one
positive DUMP response. -/
def emptyWorld : World :=
  { criu := fun _ => { reads := [{ size := 16, resp := some (okResp CriuReqType.DUMP) }] } }

/-- A world where `/img` exists and CRIU answers the feature check with a
feature set that lacks memory tracking. -/
def noMemTrackWorld : World :=
  { paths := ["/img"]
    criu := fun _ =>
      { reads := [{ size := 16,
                    resp := some { Type_ := CriuReqType.FEATURE_CHECK, Success := true,
                                   Features := some { MemTrack := some false } } }] } }

/-! ## Process outcomes and string library functions -/

/-- How a call ends: it returns a value, or the process is gone.  The fatal
level of the logger (`logger.Fatal()...Msg(...)`) ends the process with exit
status 1; a nil dereference ends it with a panic. -/
inductive Outcome (α : Type) where
  | returned (a : α)
  | exited (code : Nat)
  | panicked
  deriving DecidableEq, Repr

/-- The effect of a message logged at fatal level. -/
def fatal {α : Type} : Outcome α := Outcome.exited 1

/-- Whether the second list is a prefix of the first. -/
def hasPrefixChars : List Char → List Char → Bool
  | _, [] => true
  | [], _ :: _ => false
  | c :: cs, p :: ps => decide (c = p) && hasPrefixChars cs ps

/-- Whether the second list occurs in the first as a contiguous run. -/
def containsChars : List Char → List Char → Bool
  | [], sub => hasPrefixChars [] sub
  | c :: cs, sub => hasPrefixChars (c :: cs) sub || containsChars cs sub

/-- The library function `strings.Contains`. -/
def stringsContains (s substr : String) : Bool := containsChars s.data substr.data

/-- The library function `strings.HasSuffix`. -/
def stringsHasSuffix (s suffix : String) : Bool :=
  hasPrefixChars s.data.reverse suffix.data.reverse

/-- The library function `strings.Split(s, "/")`. -/
def stringsSplitSlash (s : String) : List String := (splitSlash s.data).map String.mk

/-- The library function `filepath.Base`. -/
def filepathBase (path : String) : String :=
  if path = "" then "."
  else
    let stripped := (path.data.reverse.dropWhile (fun c => decide (c = '/'))).reverse
    let base := (splitSlash stripped).getLastD []
    if base = [] then "/" else String.mk base

/-- The library function `filepath.Dir`: everything up to the last separator,
cleaned. -/
def filepathDir (path : String) : String :=
  filepathClean (String.mk (path.data.reverse.dropWhile (fun c => decide (c ≠ '/'))).reverse)

/-! ## The adopted init process: `nonChildProcess` -/

/-- The Go type `os.ProcessState`, of which no value is ever built here. -/
structure ProcessState where
  exitCode : Int
  deriving DecidableEq, Repr

structure nonChildProcess where
  processPid : Int
  processStartTime : Nat
  fds : List String
  deriving DecidableEq, Repr

/-- Method `start`: the error, and the receiver afterwards. -/
def nonChildProcess.start (p : nonChildProcess) : Option String × nonChildProcess :=
  (some "restored process cannot be started", p)

/-- Method `pid`. -/
def nonChildProcess.pid (p : nonChildProcess) : Int := p.processPid

/-- Method `terminate`: the error, and the receiver afterwards. -/
def nonChildProcess.terminate (p : nonChildProcess) : Option String × nonChildProcess :=
  (some "restored process cannot be terminated", p)

/-- Method `wait`: the process state, the error, and the receiver afterwards. -/
def nonChildProcess.wait (p : nonChildProcess) :
    Option ProcessState × Option String × nonChildProcess :=
  (none, some "restored process cannot be waited on", p)

/-- Method `startTime`: the start time and the error. -/
def nonChildProcess.startTime (p : nonChildProcess) : Nat × Option String :=
  (p.processStartTime, none)

/-- Method `externalDescriptors`. -/
def nonChildProcess.externalDescriptors (p : nonChildProcess) : List String := p.fds

/-- Method `setExternalDescriptors`: the receiver afterwards. -/
def nonChildProcess.setExternalDescriptors (p : nonChildProcess) (newFds : List String) :
    nonChildProcess :=
  { p with fds := newFds }

/-! ## The Docker path: `getContainerFromDocker` -/

/-- The fields of `configs.Cgroup` that the Docker path sets. -/
structure Cgroup where
  Parent : String := ""
  Name : String := ""
  Path : String := ""
  Systemd : Bool := false
  deriving DecidableEq, Repr

/-- What `ContainerInspect` reports, as far as the Docker path reads it. -/
structure DockerInspect where
  /-- Field `State.Pid`. -/
  Pid : Int
  /-- Entry `GraphDriver.Data["MergedDir"]`. -/
  MergedDir : String := ""
  /-- Field `Config.WorkingDir`. -/
  WorkingDir : String := ""
  deriving DecidableEq, Repr

/-- The services the Docker path calls. -/
structure DockerEnv where
  /-- Whether `NewClientWithOpts` fails. -/
  clientFails : Bool := false
  /-- Result of `ContainerInspect`; `none` is an error. -/
  inspect : String → Option DockerInspect := fun _ => none
  /-- Result of `GetCriuVersion`; `none` is an error. -/
  criuVersion : Option Int := none
  /-- Result of `cgroups.ParseCgroupFile("/proc/<pid>/cgroup")`: controller
  list to path, or `none` for an error. -/
  cgroupFile : Int → Option (List (String × String)) := fun _ => none
  /-- Result of `manager.New`: the `Path` method of the manager, or `none` for
  an error. -/
  managerNew : Option Cgroup → Option (String → String) := fun _ => none

/-- Lookup in a Go map of strings: the empty string for a missing key. -/
def mapGet (m : List (String × String)) (key : String) : String :=
  match m with
  | [] => ""
  | (k, v) :: rest => if k = key then v else mapGet rest key

/-- The cgroup configuration synthesized from the unified cgroup path
(lines 327-350). -/
def dockerCgroup (path : String) : Outcome Cgroup :=
  let cgroupParts := stringsSplitSlash path
  if cgroupParts.length < 3 then fatal
  else
    let name := cgroupParts.getD 2 ""
    let parent := cgroupParts.getD 1 ""
    let cgpath := "/" ++ parent ++ "/" ++ name
    let isSystemd := if stringsContains path ".slice" then true else false
    Outcome.returned { Parent := parent, Name := name, Path := cgpath, Systemd := isSystemd }

/-- The descriptor the Docker path builds, with the cgroup configuration its
manager was made from. -/
structure DockerDescriptor where
  container : RuncContainer
  cgroupsConf : Option Cgroup

/-- The end of `getContainerFromDocker` (lines 354-370). -/
def dockerFinish (env : DockerEnv) (containerID : String) (info : DockerInspect)
    (criuVersion : Int) (cgroupsConf : Option Cgroup) : Outcome DockerDescriptor :=
  match env.managerNew cgroupsConf with
  | none => fatal
  | some cgroupManager =>
    Outcome.returned
      { container :=
          { id := containerID
            root := info.WorkingDir
            criuVersion := criuVersion
            cgroupManager := cgroupManager
            config := { Rootfs := info.MergedDir }
            pid := info.Pid }
        cgroupsConf := cgroupsConf }

/-- The function `getContainerFromDocker`. -/
def getContainerFromDocker (env : DockerEnv) (containerID : String) :
    Outcome DockerDescriptor :=
  if env.clientFails then fatal
  else
    match env.inspect containerID with
    | none => fatal
    | some container =>
      match env.criuVersion with
      | none => fatal
      | some criuVersion =>
        if container.Pid ≠ 0 then
          match env.cgroupFile container.Pid with
          | none => fatal
          | some cgroupsPaths =>
            match dockerCgroup (mapGet cgroupsPaths "") with
            | Outcome.returned conf =>
              dockerFinish env containerID container criuVersion (some conf)
            | Outcome.exited code => Outcome.exited code
            | Outcome.panicked => Outcome.panicked
        else dockerFinish env containerID container criuVersion none

/-- The cgroup configuration of the descriptor a call produced, if it
produced one with a configuration. -/
def producedCgroup (o : Outcome DockerDescriptor) : Option Cgroup :=
  match o with
  | Outcome.returned d => d.cgroupsConf
  | _ => none

/-- A `manager.New` as libcontainer has it on a host that runs systemd with
the unified hierarchy: no manager without a configuration; none for a
configuration that is not a systemd one and sets `Path` together with `Name`
or `Parent`; and none for a systemd one whose parent is no slice name (a name
that ends in `.slice`). -/
def systemdHostManagerNew (conf : Option Cgroup) : Option (String → String) :=
  match conf with
  | none => none
  | some c =>
    if c.Systemd then
      if c.Parent = "" ∨ stringsHasSuffix c.Parent ".slice" then
        some (fun _ => "/sys/fs/cgroup" ++ c.Path)
      else none
    else if (c.Name ≠ "" ∨ c.Parent ≠ "") ∧ c.Path ≠ "" then none
    else some (fun _ => "/sys/fs/cgroup" ++ c.Path)

/-- A Docker engine with one running container `c1` whose unified cgroup path
is given, on a host that runs systemd. -/
def dockerEnvWith (path : String) : DockerEnv :=
  { inspect := fun id => if id = "c1" then some { Pid := 4242, MergedDir := "/merged" } else none
    criuVersion := some 31600
    cgroupFile := fun _ => some [("", path)]
    managerNew := systemdHostManagerNew }

/-! ## The restore side: file system -/

/-- What a path names: a directory, or a regular file with its bytes. -/
inductive Node where
  | dir
  | file (bytes : List Nat)
  deriving DecidableEq, Repr

/-- The file system the restore works on: what each path names, and the
failure, if any, that creating a directory at a path meets. -/
structure FileSys where
  node : String → Option Node := fun _ => none
  mkdirFault : String → Option Errno := fun _ => none

/-- The file system with one path renamed or removed. -/
def FileSys.set (fs : FileSys) (p : String) (n : Option Node) : FileSys :=
  { fs with node := fun q => if q = p then n else fs.node q }

/-- The system call behind `os.Mkdir`. -/
def mkdirOne (fs : FileSys) (p : String) : Except Errno FileSys :=
  match fs.node p with
  | some _ => Except.error Errno.EEXIST
  | none =>
    match fs.mkdirFault p with
    | some e => Except.error e
    | none => Except.ok (fs.set p (some Node.dir))

/-- The library function `os.MkdirAll` on a path followed by its ancestors,
nearest first: a directory is accepted as it is, a regular file is an error,
and a missing path is made after its ancestors. -/
def mkdirAllChain (fs : FileSys) : List String → Except Errno FileSys
  | [] => Except.ok fs
  | p :: ups =>
    match fs.node p with
    | some Node.dir => Except.ok fs
    | some (Node.file _) => Except.error Errno.ENOTDIR
    | none =>
      match mkdirAllChain fs ups with
      | Except.error e => Except.error e
      | Except.ok fs1 =>
        match mkdirOne fs1 p with
        | Except.ok fs2 => Except.ok fs2
        | Except.error e => if fs1.node p = some Node.dir then Except.ok fs1 else Except.error e

/-- The paths `prefix/c1`, `prefix/c1/c2`, ... for the components given. -/
def chainAsc (pre : List Char) : List (List Char) → List String
  | [] => []
  | c :: cs => String.mk (pre ++ c) :: chainAsc (pre ++ c ++ ['/']) cs

/-- The ancestors of a path that `os.MkdirAll` visits, nearest first: every
proper ancestor except the root. -/
def parentChain (p : String) : List String :=
  let comps := (splitSlash p.data).filter (fun c => decide (c ≠ []))
  let pre := if p.data.head? = some '/' then ['/'] else []
  (chainAsc pre comps.dropLast).reverse

/-- The library function `os.MkdirAll`. -/
def osMkdirAll (fs : FileSys) (p : String) : Except Errno FileSys :=
  mkdirAllChain fs (p :: parentChain p)

/-- Whether path `p` lies beneath directory `d`. -/
def isBeneath (d p : String) : Bool := hasPrefixChars p.data (d.data ++ ['/'])

/-- The library function `os.RemoveAll`: the path and everything beneath it
is gone. -/
def osRemoveAll (fs : FileSys) (d : String) : FileSys :=
  { fs with node := fun q => if q = d ∨ isBeneath d q = true then none else fs.node q }

/-- The text of a path with the given components, most recent first, as
`filepath.Clean` writes it. -/
def renderPath (rooted : Bool) (kept : List (List Char)) : String :=
  let body := String.mk (List.intercalate ['/'] kept.reverse)
  if rooted then "/" ++ body else if body = "" then "." else body

/-- Path resolution over the components of a directory path, in a file system
without symbolic links in which every directory has its ancestors: empty and
`.` components are passed over, a name is entered, and a `..` can only be
followed out of a directory that exists.  The result is the components of the
directory arrived at, most recent first; `none` when the path cannot be
followed. -/
def resolveComps (fs : FileSys) (rooted : Bool) :
    List (List Char) → List (List Char) → Option (List (List Char))
  | acc, [] => some acc
  | acc, seg :: rest =>
    if seg = ['.', '.'] ∧ fs.node (renderPath rooted acc) ≠ some Node.dir then none
    else resolveComps fs rooted (cleanStep rooted acc seg) rest

/-- Where the system call behind `os.Create(dst)` puts the file: the
components before the last have to lead to a directory that exists, and the
last component has to be a name.  `none` when the file cannot be created. -/
def createTarget (fs : FileSys) (dst : String) : Option String :=
  match dst.data with
  | [] => none
  | c :: cs =>
    let rooted := decide (c = '/')
    let comps := splitSlash (c :: cs)
    let last := comps.getLastD []
    if last = [] ∨ last = ['.'] ∨ last = ['.', '.'] then none
    else
      match resolveComps fs rooted [] comps.dropLast with
      | none => none
      | some acc =>
        if fs.node (renderPath rooted acc) = some Node.dir then
          some (renderPath rooted (last :: acc))
        else none

/-! ## The restore side: manifest and environment -/

/-- One entry of `open_fds`. -/
structure OpenFd where
  Path : String
  Fd : Nat := 0
  deriving DecidableEq, Repr

structure ProcessInfo where
  OpenFds : List OpenFd := []
  OpenWriteOnlyFilePaths : List String := []
  deriving DecidableEq, Repr

structure ClientState where
  ProcessInfo : ProcessInfo := {}
  deriving DecidableEq, Repr

inductive CheckpointType where
  | CRIU
  | Pytorch
  deriving DecidableEq, Repr

/-- The manifest `checkpoint_state.json`. -/
structure CedanaCheckpoint where
  ClientState : ClientState := {}
  CheckpointPath : String := ""
  CheckpointType : CheckpointType := CheckpointType.CRIU
  deriving DecidableEq, Repr

structure ServerCommand where
  CedanaCheckpoint : CedanaCheckpoint
  deriving DecidableEq, Repr

/-- One call of the function given to `filepath.Walk`: the path, what it is
(the bytes of a regular file, `none` for a directory), and the error handed
over with it.  The name of the entry is the base name of the path. -/
structure WalkEntry where
  path : String
  content : Option (List Nat) := none
  err : Option Errno := none
  deriving DecidableEq, Repr

/-- The result of `info.Name()`. -/
def WalkEntry.name (e : WalkEntry) : String := filepathBase e.path

/-- The errors the restore functions return. -/
inductive RestoreError where
  /-- An error of a system call, passed on unchanged. -/
  | os (e : Errno)
  /-- The error of `getCheckpointFile`, passed on unchanged. -/
  | checkpointFile
  /-- The error of the CRIU restore, passed on unchanged. -/
  | criu (msg : String)
  deriving DecidableEq, Repr

/-- The services the restore calls. -/
structure RestoreEnv where
  /-- Modelled from the spec: `utils.UnzipFolder` is not among the available
  sources; it decompresses the archive into the directory.  This is its
  effect on the file system. -/
  unzip : String → String → FileSys → FileSys := fun _ _ fs => fs
  /-- Failure of `os.ReadFile` on an existing regular file. -/
  readFault : String → Option Errno := fun _ => none
  /-- Result of `json.Unmarshal` into a manifest; `none` is an error. -/
  unmarshal : List Nat → Option CedanaCheckpoint := fun _ => none
  /-- The calls `filepath.Walk` makes from an existing root, in order.  The
  paths written during the walk are taken to lie outside the tree walked. -/
  walk : String → List WalkEntry := fun _ => []
  /-- Result of `getCheckpointFile`: the local path of the fetched archive,
  or `none` for an error. -/
  getCheckpointFile : String → Option String := fun _ => none
  /-- Failure of `os.Remove`. -/
  removeFault : String → Option Errno := fun _ => none
  /-- Failure of `os.Open` on an existing path. -/
  openFault : String → Option Errno := fun _ => none
  /-- Result of `c.CRIU.Restore`. -/
  criuRestoreErr : Option String := none
  /-- Failure of `os.RemoveAll`. -/
  removeAllFault : String → Option Errno := fun _ => none
  /-- Failure that a copy to a destination meets on its own account (no
  permission, a full disk). -/
  copyFault : String → Option Errno := fun _ => none

/-- The library function `os.ReadFile`. -/
def osReadFile (env : RestoreEnv) (fs : FileSys) (p : String) : Except Errno (List Nat) :=
  match fs.node p with
  | none => Except.error Errno.ENOENT
  | some Node.dir => Except.error Errno.EIO
  | some (Node.file bytes) =>
    match env.readFault p with
    | some e => Except.error e
    | none => Except.ok bytes

/-- Modelled from the spec: `utils.CopyFile` is a function of this repository
that `client-restore.go` calls and does not define.  The spec's words: "copy
the file contents".  The file the destination resolves to becomes a regular
file with the bytes of the source.  A copy that cannot be made leaves the file
system as it is: the source is no regular file, the copy meets a failure of
its own, the destination cannot be created (a directory on its way is
missing, or it names a directory).  The caller looks at no result. -/
def copyFile (env : RestoreEnv) (fs : FileSys) (src : Option (List Nat)) (dst : String) :
    FileSys :=
  match src with
  | none => fs
  | some bytes =>
    match env.copyFault dst with
    | some _ => fs
    | none =>
      match createTarget fs dst with
      | none => fs
      | some p =>
        match fs.node p with
        | some Node.dir => fs
        | _ => fs.set p (some (Node.file bytes))

/-! ## The restore side: `client-restore.go` -/

/-- The temporary directory both restore paths decompress into. -/
def tmpdir : String := "cedana_restore"

/-- The loop over `open_fds` (lines 86-92 and 137-145): true as soon as a
path contains `pts`. -/
def scanShellJob : List OpenFd → Bool
  | [] => false
  | f :: rest => if stringsContains f.Path "pts" then true else scanShellJob rest

/-- The loop over `OpenWriteOnlyFilePaths` inside the walk function
(lines 114-124) for one entry. -/
def copyMatches (env : RestoreEnv) (fs : FileSys) (entry : WalkEntry) :
    List String → Except Errno FileSys
  | [] => Except.ok fs
  | f :: rest =>
    if entry.name = filepathBase f then
      match osMkdirAll fs (filepathDir f) with
      | Except.error e => Except.error e
      | Except.ok fs1 => copyMatches env (copyFile env fs1 entry.content f) entry rest
    else copyMatches env fs entry rest

/-- The function handed to `filepath.Walk` (lines 110-126). -/
def walkFn (env : RestoreEnv) (fs : FileSys) (cc : CedanaCheckpoint) (entry : WalkEntry) :
    Except Errno FileSys :=
  match entry.err with
  | some e => Except.error e
  | none => copyMatches env fs entry cc.ClientState.ProcessInfo.OpenWriteOnlyFilePaths

/-- The library function `filepath.Walk` over the calls it makes: it stops at
the first error the function returns. -/
def walkAll (env : RestoreEnv) (fs : FileSys) (cc : CedanaCheckpoint) :
    List WalkEntry → Except Errno FileSys
  | [] => Except.ok fs
  | entry :: rest =>
    match walkFn env fs cc entry with
    | Except.error e => Except.error e
    | Except.ok fs1 => walkAll env fs1 cc rest

/-- The method `restoreFiles`: the file system it leaves when it returns. -/
def restoreFiles (env : RestoreEnv) (fs : FileSys) (cc : CedanaCheckpoint) (dir : String) :
    Outcome FileSys :=
  match fs.node (filepathJoin dir "openFds") with
  | none => Outcome.returned fs
  | some _ =>
    match walkAll env fs cc (env.walk (filepathJoin dir "openFds")) with
    | Except.error _ => fatal
    | Except.ok fs1 => Outcome.returned fs1

/-- What a prepare function hands back: the directory, the error, and the
options and file system as it leaves them. -/
structure Prepared where
  dir : Option String
  err : Option RestoreError
  opts : criurpc.CriuOpts
  fs : FileSys

/-- The method `prepareRestore`. -/
def prepareRestore (env : RestoreEnv) (fs : FileSys) (opts : criurpc.CriuOpts)
    (checkpointPath : String) : Outcome Prepared :=
  match mkdirOne fs tmpdir with
  | Except.error e => Outcome.returned { dir := none, err := some (RestoreError.os e), opts, fs }
  | Except.ok fs1 =>
    let fs2 := env.unzip checkpointPath tmpdir fs1
    match fs2.node (filepathJoin tmpdir "checkpoint_state.json") with
    | none => fatal
    | some _ =>
      match osReadFile env fs2 (filepathJoin tmpdir "checkpoint_state.json") with
      | Except.error _ => fatal
      | Except.ok data =>
        match env.unmarshal data with
        | none => fatal
        | some cedanaCheckpoint =>
          let isShellJob := scanShellJob cedanaCheckpoint.ClientState.ProcessInfo.OpenFds
          let opts1 := { opts with ShellJob := some isShellJob }
          match restoreFiles env fs2 cedanaCheckpoint tmpdir with
          | Outcome.returned fs3 =>
            Outcome.returned { dir := some tmpdir, err := none, opts := opts1, fs := fs3 }
          | Outcome.exited code => Outcome.exited code
          | Outcome.panicked => Outcome.panicked

/-- The method `prepareManagedRestore`.  The archive file that
`getCheckpointFile` fetched is not kept in the file system model; its removal
can fail through `removeFault`. -/
def prepareManagedRestore (env : RestoreEnv) (fs : FileSys) (opts : criurpc.CriuOpts)
    (cmd : ServerCommand) : Outcome Prepared :=
  let checkpoint := cmd.CedanaCheckpoint
  let isShellJob := scanShellJob checkpoint.ClientState.ProcessInfo.OpenFds
  let opts1 := { opts with ShellJob := some isShellJob }
  match env.getCheckpointFile checkpoint.CheckpointPath with
  | none =>
    Outcome.returned { dir := none, err := some RestoreError.checkpointFile, opts := opts1, fs }
  | some file =>
    match mkdirOne fs tmpdir with
    | Except.error e =>
      Outcome.returned { dir := none, err := some (RestoreError.os e), opts := opts1, fs }
    | Except.ok fs1 =>
      let fs2 := env.unzip file tmpdir fs1
      match env.removeFault file with
      | some e =>
        Outcome.returned { dir := none, err := some (RestoreError.os e), opts := opts1, fs := fs2 }
      | none =>
        Outcome.returned
          { dir := some tmpdir, err := none, opts := opts1, fs := fs2.set file none }

/-- The method `prepareRestoreOpts`. -/
def prepareRestoreOpts : criurpc.CriuOpts :=
  { LogLevel := some 4, LogFile := some "restore.log", TcpEstablished := some true }

/-- What `criuRestore` hands back: the error, and the options and file
system as it leaves them. -/
structure Restored where
  err : Option RestoreError
  opts : criurpc.CriuOpts
  fs : FileSys

/-- The method `criuRestore`.  The descriptor number of the opened directory
is not modelled, and neither is what the CRIU process itself writes. -/
def criuRestore (env : RestoreEnv) (fs : FileSys) (opts : criurpc.CriuOpts) (dir : String) :
    Outcome Restored :=
  match fs.node dir with
  | none => fatal
  | some _ =>
    match env.openFault dir with
    | some _ => fatal
    | none =>
      let opts1 := { opts with ImagesDirFd := some 3 }
      match env.criuRestoreErr with
      | some msg =>
        Outcome.returned { err := some (RestoreError.criu msg), opts := opts1, fs }
      | none =>
        match env.removeAllFault dir with
        | some _ => fatal
        | none => Outcome.returned { err := none, opts := opts1, fs := osRemoveAll fs dir }

/-- The method `restore`: the error it returns and the file system it
leaves. -/
def restore (env : RestoreEnv) (fs : FileSys) (cmd : Option ServerCommand)
    (path : Option String) : Outcome (Option RestoreError × FileSys) :=
  let opts := prepareRestoreOpts
  match cmd with
  | some cmd =>
    match cmd.CedanaCheckpoint.CheckpointType with
    | CheckpointType.CRIU =>
      match prepareManagedRestore env fs opts cmd with
      | Outcome.exited code => Outcome.exited code
      | Outcome.panicked => Outcome.panicked
      | Outcome.returned p =>
        match p.err, p.dir with
        | some err, _ => Outcome.returned (some err, p.fs)
        | none, none => Outcome.panicked
        | none, some dir =>
          match criuRestore env p.fs p.opts dir with
          | Outcome.exited code => Outcome.exited code
          | Outcome.panicked => Outcome.panicked
          | Outcome.returned r => Outcome.returned (r.err, r.fs)
    | CheckpointType.Pytorch => Outcome.returned (none, fs)
  | none =>
    match path with
    | none => Outcome.returned (none, fs)
    | some path =>
      match prepareRestore env fs opts path with
      | Outcome.exited code => Outcome.exited code
      | Outcome.panicked => Outcome.panicked
      | Outcome.returned p =>
        match p.err, p.dir with
        | some err, _ => Outcome.returned (some err, p.fs)
        | none, none => Outcome.panicked
        | none, some dir =>
          match criuRestore env p.fs p.opts dir with
          | Outcome.exited code => Outcome.exited code
          | Outcome.panicked => Outcome.panicked
          | Outcome.returned r => Outcome.returned (r.err, r.fs)

/-! ## Sample inputs of the restore side -/

/-- The option `shell_job` a prepare call leaves, when it returns. -/
def preparedShellJob (o : Outcome Prepared) : Option Bool :=
  match o with
  | Outcome.returned p => p.opts.ShellJob
  | _ => none

/-- What a path names after a restore call, when it returns. -/
def restoredNode (o : Outcome (Option RestoreError × FileSys)) (p : String) : Option Node :=
  match o with
  | Outcome.returned r => r.2.node p
  | _ => none

/-- The error a restore call returns; `none` also when it does not return. -/
def restoredErr (o : Outcome (Option RestoreError × FileSys)) : Option RestoreError :=
  match o with
  | Outcome.returned r => r.1
  | _ => none

/-- A file system with the root directory only. -/
def rootOnly : FileSys := { node := fun p => if p = "/" then some Node.dir else none }

/-- An environment whose archive holds a manifest that parses to `cc` and an
`openFds` directory walked as `walk`; the managed archive is fetched to
`/tmp/ckpt.tar`. -/
def restoreEnvWith (cc : CedanaCheckpoint) (walk : List WalkEntry) : RestoreEnv :=
  { unzip := fun _ dir fs =>
      (fs.set (filepathJoin dir "checkpoint_state.json") (some (Node.file [123, 125]))).set
        (filepathJoin dir "openFds") (some Node.dir)
    unmarshal := fun _ => some cc
    walk := fun _ => walk
    getCheckpointFile := fun _ => some "/tmp/ckpt.tar" }

/-- A manifest whose only open file is `/tmp/excerpts.txt`. -/
def excerptsManifest : CedanaCheckpoint :=
  { ClientState := { ProcessInfo := { OpenFds := [{ Path := "/tmp/excerpts.txt", Fd := 3 }] } } }

/-- A manifest that lists `/var/log/app.log` as open for writing, and a
terminal among its open files. -/
def appLogManifest : CedanaCheckpoint :=
  { ClientState :=
      { ProcessInfo :=
          { OpenFds := [{ Path := "/dev/pts/0", Fd := 0 }, { Path := "/var/log/app.log", Fd := 3 }]
            OpenWriteOnlyFilePaths := ["/var/log/app.log"] } } }

/-- The walk of an `openFds` directory that holds `app.log` with three bytes. -/
def appLogWalk : List WalkEntry :=
  [{ path := "cedana_restore/openFds" },
   { path := "cedana_restore/openFds/app.log", content := some [104, 105, 10] }]

/-- The bytes of the last regular file of the given name that a walk meets. -/
def lastFileNamed : List WalkEntry → String → Option (List Nat)
  | [], _ => none
  | e :: rest, name =>
    match lastFileNamed rest name with
    | some b => some b
    | none => if e.name = name then e.content else none

/-- Whether a path has a `..` component. -/
def hasDotDot (p : String) : Bool :=
  (splitSlash p.data).any (fun c => decide (c = ['.', '.']))

/-- The directory and the path that `createTarget` arrives at for a path
without `..`, where nothing depends on the file system: the directory that has
to exist, and the path of the file. -/
def lexicalTarget (dst : String) : Option (String × String) :=
  match dst.data with
  | [] => none
  | c :: cs =>
    let rooted := decide (c = '/')
    let comps := splitSlash (c :: cs)
    let last := comps.getLastD []
    if last = [] ∨ last = ['.'] ∨ last = ['.', '.'] then none
    else
      some (renderPath rooted (comps.dropLast.foldl (cleanStep rooted) []),
            renderPath rooted (last :: comps.dropLast.foldl (cleanStep rooted) []))

/-- A clean file path: it has no `..` component, and a file created at it
lies in the directory `filepath.Dir` gives for it, under the very path.  A
path with a `..`, a `.` or an empty component, or one that ends in a
separator, is not clean. -/
def isCleanFilePath (f : String) : Bool :=
  !hasDotDot f && decide (lexicalTarget f = some (filepathDir f, f))

/-- The second file system has everything the first has, and besides that at
most new directories. -/
def FileSys.grows (fs fs1 : FileSys) : Prop :=
  ∀ q, fs1.node q = fs.node q ∨ (fs.node q = none ∧ fs1.node q = some Node.dir)

/-- The walk of an `openFds` directory that holds `a.log` and, in a
subdirectory `z`, a second file `a.log`. -/
def nestedWalk : List WalkEntry :=
  [{ path := "cedana_restore/openFds" },
   { path := "cedana_restore/openFds/a.log", content := some [1] },
   { path := "cedana_restore/openFds/z" },
   { path := "cedana_restore/openFds/z/a.log", content := some [2] }]

/-- A manifest that lists a path with a `..` as open for writing. -/
def dotDotManifest : CedanaCheckpoint :=
  { ClientState := { ProcessInfo := { OpenWriteOnlyFilePaths := ["/mnt/a/b/../c/app.log"] } } }

/-- A manifest that lists `/var/log/a.log` as open for writing. -/
def aLogManifest : CedanaCheckpoint :=
  { ClientState := { ProcessInfo := { OpenWriteOnlyFilePaths := ["/var/log/a.log"] } } }

/-- A file system with the root and an `openFds` directory in the temporary
directory. -/
def extractedFs : FileSys :=
  { node := fun p =>
      if p = "/" ∨ p = "cedana_restore" ∨ p = "cedana_restore/openFds" then some Node.dir
      else none }

/-- What a path names after `restoreFiles`, when it returns. -/
def restoredFile (o : Outcome FileSys) (p : String) : Option Node :=
  match o with
  | Outcome.returned fs => fs.node p
  | _ => none

/-- The file system a call of `restoreFiles` returned; the empty file system
when it did not return. -/
def returnedFs (o : Outcome FileSys) : FileSys :=
  match o with
  | Outcome.returned fs => fs
  | _ => {}

/-! ## The runc path: `runcDumpCmd`, `loadState`, `getContainerFromRunc` -/

/-- The fields of `task.CriuOpts` that the dump command sets. -/
structure TaskCriuOpts where
  ImagesDirectory : String := ""
  WorkDirectory : String := ""
  LeaveRunning : Bool := false
  TcpEstablished : Bool := false
  deriving DecidableEq, Repr

/-- The message `task.RuncDumpArgs`. -/
structure RuncDumpArgs where
  Root : String
  CheckpointPath : String
  ContainerId : String
  CriuOpts : TaskCriuOpts
  deriving DecidableEq, Repr

/-- What the dump command finds around it: the flags, and the answers of the
calls it makes. -/
structure CliEnv where
  /-- Error of `NewCLI`, if any. -/
  newCLIErr : Option String := none
  /-- Whether `os.Stat` succeeds on a path. -/
  statOk : String → Bool := fun _ => false
  /-- Answer of `CheckpointRunc`: the message of the response (`none` for a
  nil response) and the error. -/
  checkpointRunc : RuncDumpArgs → Option String × Option String := fun _ => (some "ok", none)
  runcPath : String := ""
  workPath : String := ""
  checkpointPath : String := ""
  containerId : String := ""
  tcpEstablished : Bool := false

/-- The probing of the runc root (lines 60-64). -/
def probeRuncRoot (env : CliEnv) : String :=
  let root := "/var/run/runc"
  if !env.statOk root then "/host/run/containerd/runc/k8s.io" else root

/-- The function `RunE` of `runcDumpCmd`: how it ends, and the arguments it
sent with `CheckpointRunc`, if it got that far. -/
def runcDumpCmd (env : CliEnv) : Outcome (Option String) × Option RuncDumpArgs :=
  match env.newCLIErr with
  | some err => (Outcome.returned (some err), none)
  | none =>
    let root := probeRuncRoot env
    let criuOpts : TaskCriuOpts :=
      { ImagesDirectory := env.runcPath, WorkDirectory := env.workPath, LeaveRunning := true,
        TcpEstablished := env.tcpEstablished }
    let dumpArgs : RuncDumpArgs :=
      { Root := root, CheckpointPath := env.checkpointPath, ContainerId := env.containerId,
        CriuOpts := criuOpts }
    match env.checkpointRunc dumpArgs with
    | (none, _) => (Outcome.panicked, some dumpArgs)
    | (some _, _) => (Outcome.returned none, some dumpArgs)

/-- The fields of the `State` record of `state.json` that the runc path reads. -/
structure State where
  InitProcessPid : Int := 0
  InitProcessStartTime : Nat := 0
  Config : Config := {}
  CgroupPaths : List (String × String) := []
  ExternalDescriptors : List String := []
  IntelRdtPath : String := ""
  deriving DecidableEq, Repr

/-- What the runc path finds around it. -/
structure RuncEnv where
  /-- Result of `GetCriuVersion`; `none` is an error. -/
  criuVersion : Option Int := none
  /-- Result of `os.Open` and of reading the file: its bytes, or `none` when
  it cannot be opened. -/
  files : String → Option (List Nat) := fun _ => none
  /-- Result of the JSON decoder; `none` is an error. -/
  decodeState : List Nat → Option State := fun _ => none
  /-- Result of `manager.NewWithPaths`: the `Path` method of the manager, or
  `none` for an error. -/
  newWithPaths : State → Option (String → String) := fun _ => some (fun _ => "")

/-- The library function `securejoin.SecureJoin` where no component of the
unsafe path is a symbolic link: the unsafe path is cleaned as a path below
the root and appended to the root, and the whole is cleaned. -/
def secureJoin (root unsafePath : String) : String :=
  filepathClean (root ++ filepathClean ("/" ++ unsafePath))

/-- The function `loadState`: the state or no state, and the path it opened. -/
def loadState (env : RuncEnv) (root : String) : Option State × String :=
  let stateFilePath := secureJoin root "state.json"
  match env.files stateFilePath with
  | none => (none, stateFilePath)
  | some bytes =>
    match env.decodeState bytes with
    | none => (none, stateFilePath)
    | some state => (some state, stateFilePath)

/-- The descriptor of the runc path with the adopted init process. -/
structure RuncDescriptor where
  container : RuncContainer
  initProcess : nonChildProcess

/-- The function `getContainerFromRunc`: how it ends, and the paths it
opened. -/
def getContainerFromRunc (env : RuncEnv) (containerID : String) :
    Outcome RuncDescriptor × List String :=
  let root := "/run/docker/runtime-runc/moby"
  match env.criuVersion with
  | none => (fatal, [])
  | some criuVersion =>
    let root1 := root ++ "/" ++ containerID
    match loadState env root1 with
    | (none, opened) => (fatal, [opened])
    | (some state, opened) =>
      let r : nonChildProcess :=
        { processPid := state.InitProcessPid
          processStartTime := state.InitProcessStartTime
          fds := state.ExternalDescriptors }
      match env.newWithPaths state with
      | none => (fatal, [opened])
      | some cgroupManager =>
        (Outcome.returned
          { container :=
              { initProcessStartTime := state.InitProcessStartTime
                id := containerID
                root := root1
                criuVersion := criuVersion
                cgroupManager := cgroupManager
                config := state.Config
                pid := state.InitProcessPid }
            initProcess := r },
         [opened])

/-- The pid of the descriptor a call built, if it built one. -/
def builtPid (o : Outcome RuncDescriptor) : Option Int :=
  match o with
  | Outcome.returned d => some d.container.pid
  | _ => none

/-- A host on which a state file lies at `/run/docker/runtime-runc/etc`,
next to the runtime root and not in it. -/
def escapeEnv : RuncEnv :=
  { criuVersion := some 31600
    files := fun p => if p = "/run/docker/runtime-runc/etc/state.json" then some [123, 125] else none
    decodeState := fun _ => some { InitProcessPid := 777 } }

/-! ## The daemon start: `pullGPUBinary` -/

/-- The part of the configuration that `pullGPUBinary` reads. -/
structure ConnectionConfig where
  CedanaUrl : String := ""
  CedanaAuthToken : String := ""
  deriving DecidableEq, Repr

/-- A GET request as `pullGPUBinary` builds it. -/
structure HttpRequest where
  Method : String
  Url : String
  Authorization : String
  deriving DecidableEq, Repr

/-- The answer of the server, as far as it is looked at. -/
structure HttpResponse where
  StatusCode : Nat
  Body : List Nat := []
  deriving DecidableEq, Repr

/-- The errors `pullGPUBinary` returns, each passed on unchanged. -/
inductive PullError where
  /-- The error of `utils.InitConfig`. -/
  | config
  /-- The error of `http.NewRequest`. -/
  | request
  /-- The error of `httpClient.Do`. -/
  | transport (msg : String)
  /-- An error of a system call. -/
  | os (e : Errno)
  deriving DecidableEq, Repr

/-- What `pullGPUBinary` finds around it. -/
structure GpuEnv where
  /-- Result of `utils.InitConfig`; `none` is an error. -/
  initConfig : Option ConnectionConfig := some {}
  /-- Whether `http.NewRequest` rejects the address. -/
  newRequestFails : String → Bool := fun _ => false
  /-- Result of `httpClient.Do`: the response, or the transport error. -/
  httpDo : HttpRequest → Except String HttpResponse := fun _ => Except.error "no route to host"
  /-- Failure of `os.OpenFile`. -/
  openFileFault : String → Option Errno := fun _ => none
  /-- Failure of `os.Chmod`. -/
  chmodFault : String → Option Errno := fun _ => none
  /-- Failure of `io.Copy`. -/
  copyFault : Option Errno := none

/-- What a call of `pullGPUBinary` leaves: the error it returns, the file
system, and the requests it sent to the server. -/
structure Pulled where
  err : Option PullError
  fs : FileSys
  sent : List HttpRequest

/-- The function `pullGPUBinary`.  `os.Stat` succeeds when the path names
something.  The file is opened with `O_CREATE|O_WRONLY`, which makes it when
it is missing; what `io.Copy` wrote before an error is not modelled. -/
def pullGPUBinary (env : GpuEnv) (fs : FileSys) (binary filePath : String) : Pulled :=
  match fs.node filePath with
  | some _ => { err := none, fs, sent := [] }
  | none =>
    match env.initConfig with
    | none => { err := some PullError.config, fs, sent := [] }
    | some cfg =>
      let url := "https://" ++ cfg.CedanaUrl ++ "/checkpoint/gpu/" ++ binary
      if env.newRequestFails url then { err := some PullError.request, fs, sent := [] }
      else
        let req : HttpRequest :=
          { Method := "GET", Url := url, Authorization := "Bearer " ++ cfg.CedanaAuthToken }
        match env.httpDo req with
        | Except.error msg => { err := some (PullError.transport msg), fs, sent := [req] }
        | Except.ok resp =>
          if resp.StatusCode ≠ 200 then { err := none, fs, sent := [req] }
          else
            match env.openFileFault filePath with
            | some e => { err := some (PullError.os e), fs, sent := [req] }
            | none =>
              let fs1 := fs.set filePath (some (Node.file []))
              match env.chmodFault filePath with
              | some e => { err := some (PullError.os e), fs := fs1, sent := [req] }
              | none =>
                match env.copyFault with
                | some e => { err := some (PullError.os e), fs := fs1, sent := [req] }
                | none =>
                  { err := none, fs := fs.set filePath (some (Node.file resp.Body)),
                    sent := [req] }

/-- A server that answers every request with status 404. -/
def notFoundEnv : GpuEnv :=
  { initConfig := some { CedanaUrl := "cedana.example", CedanaAuthToken := "t0ken" }
    httpDo := fun _ => Except.ok { StatusCode := 404 } }

/-- A file system where the controller binary is already installed. -/
def installedFs : FileSys :=
  { node := fun p => if p = "/usr/local/bin/gpu-controller" then some (Node.file [127, 69]) else none }

/-! ## Lemmas and theorems -/

theorem World.sameMachine_refl (w : World) : w.sameMachine w := by
  simp [World.sameMachine]

theorem World.sameMachine_trans {a b c : World} (h1 : a.sameMachine b) (h2 : b.sameMachine c) :
    a.sameMachine c := by
  obtain ⟨p1, p2, p3, p4, p5, p6, p7, p8⟩ := h1
  obtain ⟨q1, q2, q3, q4, q5, q6, q7, q8⟩ := h2
  exact ⟨q1.trans p1, q2.trans p2, q3.trans p3, q4.trans p4, q5.trans p5, q6.trans p6,
    q7.trans p7, q8.trans p8⟩

theorem closeStatusFd_sameMachine (w : World) (req : criurpc.CriuReq) :
    w.sameMachine (closeStatusFd w req).2 := by
  unfold closeStatusFd
  split
  · exact World.sameMachine_refl w
  · split
    · exact World.sameMachine_refl w
    · simp [World.sameMachine]

theorem closeStatusFd_counts (w : World) (req : criurpc.CriuReq) :
    (closeStatusFd w req).2.unmarshalCount = w.unmarshalCount ∧
    (closeStatusFd w req).2.readCount = w.readCount ∧
    (closeStatusFd w req).2.started = w.started ∧
    (closeStatusFd w req).2.criuFeatures = w.criuFeatures := by
  unfold closeStatusFd
  split
  · simp
  · split <;> simp

theorem closeStatusFd_type (w : World) (req : criurpc.CriuReq) :
    (closeStatusFd w req).1.Type_ = req.Type_ := by
  unfold closeStatusFd
  split
  · rfl
  · split <;> rfl

/-- A request without a status descriptor passes through unchanged. -/
theorem closeStatusFd_req_of_none (w : World) (req : criurpc.CriuReq)
    (h : ∀ o, req.Opts = some o → o.StatusFd = none) : (closeStatusFd w req).1 = req := by
  unfold closeStatusFd
  split
  · rfl
  · rename_i o ho
    have := h o ho
    simp [this]

theorem dispatch_sameMachine (w : World) (resp : criurpc.CriuResp) :
    w.sameMachine (dispatch w resp).2 := by
  unfold dispatch
  split <;> simp [World.sameMachine]

theorem dispatch_counts (w : World) (resp : criurpc.CriuResp) :
    (dispatch w resp).2.unmarshalCount = w.unmarshalCount ∧
    (dispatch w resp).2.readCount = w.readCount ∧
    (dispatch w resp).2.started = w.started := by
  unfold dispatch
  split <;> simp

/-- The `switch` fails exactly on the types it has no case for. -/
theorem dispatch_err (w : World) (resp : criurpc.CriuResp) :
    (dispatch w resp).1 =
      if resp.Type_ ∈ acceptedRespTypes then none else some (Error.unableToParse resp) := by
  unfold dispatch criurpc.CriuResp.GetType acceptedRespTypes
  cases resp.Type_ <;> simp

theorem handleFrame_sameMachine (logPath : String) (w : World) (req : criurpc.CriuReq)
    (d : Option criurpc.CriuResp) : w.sameMachine (handleFrame logPath w req d).2.2 := by
  have h0 : w.sameMachine { w with unmarshalCount := w.unmarshalCount + 1 } := by
    simp [World.sameMachine]
  unfold handleFrame
  simp only []
  split
  · exact h0
  · split
    · exact h0
    · rename_i resp _
      have hd := dispatch_sameMachine { w with unmarshalCount := w.unmarshalCount + 1 } resp
      split
      · rename_i h
        rw [h] at hd
        exact World.sameMachine_trans h0 hd
      · rename_i h
        rw [h] at hd
        exact World.sameMachine_trans h0 hd

theorem handleFrame_counts (logPath : String) (w : World) (req : criurpc.CriuReq)
    (d : Option criurpc.CriuResp) :
    (handleFrame logPath w req d).2.2.unmarshalCount = w.unmarshalCount + 1 ∧
    (handleFrame logPath w req d).2.2.readCount = w.readCount ∧
    (handleFrame logPath w req d).2.2.started = w.started ∧
    (handleFrame logPath w req d).2.1 = req := by
  unfold handleFrame
  simp only []
  split
  · simp
  · split
    · simp
    · rename_i resp _
      have hd := dispatch_counts { w with unmarshalCount := w.unmarshalCount + 1 } resp
      split
      · rename_i h
        rw [h] at hd
        simpa using hd
      · rename_i h
        rw [h] at hd
        simpa using hd

theorem handleFrame_ne_next (logPath : String) (w : World) (req : criurpc.CriuReq)
    (d : Option criurpc.CriuResp) : (handleFrame logPath w req d).1 ≠ LoopCtl.next := by
  unfold handleFrame
  simp only []
  split
  · simp
  · split
    · simp
    · split <;> simp

theorem checkRead_ne_next (logPath : String) (w : World) (req : criurpc.CriuReq) (n : Nat)
    (err : Option Error) (d : Option criurpc.CriuResp) :
    (checkRead logPath w req n err d).1 ≠ LoopCtl.next := by
  unfold checkRead
  split
  · simp
  · split
    · simp
    · split
      · simp
      · exact handleFrame_ne_next _ _ _ _

theorem checkRead_sameMachine (logPath : String) (w : World) (req : criurpc.CriuReq) (n : Nat)
    (err : Option Error) (d : Option criurpc.CriuResp) :
    w.sameMachine (checkRead logPath w req n err d).2.2 := by
  have h0 : w.sameMachine w := by simp [World.sameMachine]
  unfold checkRead
  split
  · exact h0
  · split
    · exact h0
    · split
      · exact h0
      · exact handleFrame_sameMachine _ _ _ _

/-- The pair a read hands back is free of error exactly when the system call
met no error and delivered at least one byte. -/
theorem ReadMsg.result_ok_iff (m : ReadMsg) :
    m.result.2 = none ↔ m.err = none ∧ m.n ≠ 0 := by
  unfold ReadMsg.result
  cases he : m.err with
  | some e => simp
  | none =>
    by_cases h0 : m.n = 0
    · simp [h0]
    · simp [h0]

theorem ReadMsg.result_of_ok (m : ReadMsg) (he : m.err = none) (h0 : m.n ≠ 0) :
    m.result = (m.n, none) := by
  unfold ReadMsg.result
  simp [he, h0]

theorem ReadMsg.result_of_zero (m : ReadMsg) (he : m.err = none) (h0 : m.n = 0) :
    m.result = (0, some Error.eof) := by
  unfold ReadMsg.result
  simp [he, h0]

theorem respIter_ne_next (logPath : String) (w : World) (req : criurpc.CriuReq) (m : ReadMsg) :
    (respIter logPath w req m).1 ≠ LoopCtl.next := by
  unfold respIter
  split
  exact checkRead_ne_next _ _ _ _ _ _

theorem respIter_sameMachine (logPath : String) (w : World) (req : criurpc.CriuReq)
    (m : ReadMsg) : w.sameMachine (respIter logPath w req m).2.2 := by
  have h0 : w.sameMachine (closeStatusFd { w with readCount := w.readCount + 1 } req).2 :=
    World.sameMachine_trans (by simp [World.sameMachine]) (closeStatusFd_sameMachine _ req)
  unfold respIter
  split
  rename_i req1 w1 hc
  rw [hc] at h0
  exact World.sameMachine_trans h0 (checkRead_sameMachine _ _ _ _ _ _)

/-- Every pass through the loop body reads one datagram, and unmarshals it
only when its length is strictly between zero and the buffer size. -/
theorem respIter_counts (logPath : String) (w : World) (req : criurpc.CriuReq) (m : ReadMsg) :
    (respIter logPath w req m).2.2.readCount = w.readCount + 1 ∧
    (respIter logPath w req m).2.2.started = w.started ∧
    (respIter logPath w req m).2.2.unmarshalCount =
      (if m.err = none ∧ m.n ≠ 0 ∧ m.n ≠ bufSize then w.unmarshalCount + 1
       else w.unmarshalCount) ∧
    (respIter logPath w req m).2.1 = (closeStatusFd w req).1 := by
  have hc := closeStatusFd_counts { w with readCount := w.readCount + 1 } req
  have hreq : (closeStatusFd { w with readCount := w.readCount + 1 } req).1 =
      (closeStatusFd w req).1 := by
    unfold closeStatusFd
    split
    · rfl
    · split <;> rfl
  unfold respIter
  split
  rename_i req1 w1 h
  rw [h] at hc hreq
  simp only at hc hreq
  obtain ⟨hc1, hc2, hc3, _⟩ := hc
  subst hreq
  cases he : m.err with
  | some e => simp [checkRead, ReadMsg.result, he, hc1, hc2, hc3]
  | none =>
    by_cases h0 : m.n = 0
    · simp [checkRead, ReadMsg.result, he, h0, hc1, hc2, hc3]
    · by_cases hb : m.n = bufSize
      · have hb0 : bufSize ≠ 0 := by decide
        simp [checkRead, ReadMsg.result, he, hb, hb0, hc1, hc2, hc3]
      · obtain ⟨f1, f2, f3, f4⟩ := handleFrame_counts logPath w1 (closeStatusFd w req).1 m.resp
        simp [checkRead, ReadMsg.result, he, h0, hb, f1, f2, f3, f4, hc1, hc2, hc3]

/-- The loop reads one datagram: every pass through its body returns or breaks. -/
theorem respLoop_eq (logPath : String) (reads : List ReadMsg) (w : World)
    (req : criurpc.CriuReq) :
    respLoop logPath reads w req =
      match respIter logPath w req (reads.headD eofMsg) with
      | (LoopCtl.ret e, req1, w1) => (some e, req1, w1)
      | (LoopCtl.brk, req1, w1) => (none, req1, w1)
      | (LoopCtl.next, req1, w1) => (some Error.eof, req1, w1) := by
  cases reads with
  | nil =>
    unfold respLoop
    rfl
  | cons m rest =>
    have hne := respIter_ne_next logPath w req m
    simp only [respLoop, List.headD_cons]
    rcases h : respIter logPath w req m with ⟨ctl, r1, w1⟩
    rw [h] at hne
    cases ctl with
    | ret e => rfl
    | brk => rfl
    | next => exact absurd rfl hne

/-- A session that reaches the response loop is decided by one pass through
the loop body, followed, after a `break`, by the wait for the child. -/
theorem criuSwrk_reached (w : World) (req : criurpc.CriuReq) (opts : Option CriuOpts)
    (h : w.session.reachesLoop) :
    criuSwrk w req opts =
      match respIter (swrkLogPath req opts) (loopStart w req) req w.session.firstRead with
      | (LoopCtl.ret e, req1, w1) => (some e, req1, w1)
      | (LoopCtl.brk, req1, w1) => (waitChild w.session (swrkLogPath req opts) req1, req1, w1)
      | (LoopCtl.next, req1, w1) => (some Error.eof, req1, w1) := by
  obtain ⟨h1, h2, h3, h4, h5, h6⟩ := h
  simp only [World.session] at h1 h2 h3 h4 h5 h6
  simp only [criuSwrk, h1, h2, h3, h4, h5, h6, respLoop_eq, CriuSession.firstRead, loopStart,
    World.session]
  rcases respIter (swrkLogPath req opts) _ req ((w.criu w.calls.length).reads.headD eofMsg)
    with ⟨ctl, r1, w1⟩
  cases ctl <;> simp

/-- The pass through the loop body on a frame of admissible length. -/
theorem respIter_frame (logPath : String) (w : World) (req : criurpc.CriuReq) (m : ReadMsg)
    (he : m.err = none) (h0 : m.n ≠ 0) (hb : m.n ≠ bufSize) :
    respIter logPath w req m =
      handleFrame logPath (closeStatusFd { w with readCount := w.readCount + 1 } req).2
        (closeStatusFd { w with readCount := w.readCount + 1 } req).1 m.resp := by
  unfold respIter
  simp [checkRead, ReadMsg.result, he, h0, hb]

/-- A read of zero bytes leaves the loop body with `io.EOF`, the error of the
read (line 642). -/
theorem respIter_zero (logPath : String) (w : World) (req : criurpc.CriuReq) (m : ReadMsg)
    (he : m.err = none) (h0 : m.n = 0) :
    (respIter logPath w req m).1 = LoopCtl.ret Error.eof := by
  unfold respIter
  simp [checkRead, ReadMsg.result, he, h0]

theorem respIter_full (logPath : String) (w : World) (req : criurpc.CriuReq) (m : ReadMsg)
    (he : m.err = none) (hb : m.n = bufSize) :
    (respIter logPath w req m).1 = LoopCtl.ret Error.bufferTooSmall := by
  unfold respIter
  have : bufSize ≠ 0 := by decide
  simp [checkRead, ReadMsg.result, he, hb, this]

theorem waitChild_congr (s : CriuSession) (logPath : String) (r1 r2 : criurpc.CriuReq)
    (h : r1.Type_ = r2.Type_) : waitChild s logPath r1 = waitChild s logPath r2 := by
  unfold waitChild
  rw [h]

theorem criuSwrk_world (w : World) (req : criurpc.CriuReq) (opts : Option CriuOpts)
    (h : w.session.reachesLoop) :
    (criuSwrk w req opts).2.2 =
      (respIter (swrkLogPath req opts) (loopStart w req) req w.session.firstRead).2.2 ∧
    (criuSwrk w req opts).2.1 =
      (respIter (swrkLogPath req opts) (loopStart w req) req w.session.firstRead).2.1 := by
  rw [criuSwrk_reached w req opts h]
  rcases respIter (swrkLogPath req opts) (loopStart w req) req w.session.firstRead
    with ⟨ctl, r1, w1⟩
  cases ctl <;> simp

/-- The error of a session whose first datagram is a decodable frame of
admissible length. -/
theorem criuSwrk_err_frame (w : World) (req : criurpc.CriuReq) (opts : Option CriuOpts)
    (resp : criurpc.CriuResp) (hs : w.session.reachesLoop)
    (he : w.session.firstRead.err = none) (h0 : w.session.firstRead.n ≠ 0)
    (hb : w.session.firstRead.n ≠ bufSize) (hr : w.session.firstRead.resp = some resp) :
    (criuSwrk w req opts).1 =
      if resp.Success = false then
        some (Error.criuFailed req.Type_ resp.GetCrErrno (swrkLogPath req opts))
      else if resp.Type_ ∈ acceptedRespTypes then
        waitChild w.session (swrkLogPath req opts) req
      else some (Error.unableToParse resp) := by
  rw [criuSwrk_reached w req opts hs, respIter_frame _ _ _ _ he h0 hb, hr]
  have ht := closeStatusFd_type
    { loopStart w req with readCount := (loopStart w req).readCount + 1 } req
  generalize closeStatusFd
    { loopStart w req with readCount := (loopStart w req).readCount + 1 } req = cr at ht
  obtain ⟨req1, w1⟩ := cr
  simp only at ht
  unfold handleFrame
  simp only [criurpc.CriuResp.GetSuccess, criurpc.CriuReq.GetType]
  cases hsucc : resp.Success with
  | false => simp [ht]
  | true =>
    have hd := dispatch_err { w1 with unmarshalCount := w1.unmarshalCount + 1 } resp
    rcases hdd : dispatch { w1 with unmarshalCount := w1.unmarshalCount + 1 } resp with ⟨e, w2⟩
    rw [hdd] at hd
    simp only at hd
    by_cases hacc : resp.Type_ ∈ acceptedRespTypes
    · simp only [hacc, if_true] at hd
      subst hd
      simp [hacc, waitChild_congr _ _ req1 req ht]
    · simp only [hacc, if_false] at hd
      subst hd
      simp [hacc]

/-- C3: the checks of the loop body on a pair (n, nil) handed back by
ReadMsgUnix are as the claim says: n = 0 returns the unexpected-EOF error and
n = 40960 the buffer-too-small error, both without a call of Unmarshal, and for
n up to the buffer size Unmarshal is called exactly when 0 < n < 40960.  In a
session that reaches the response loop, a read handed back without error has
0 < n ≤ 40960; with n = 40960 criuSwrk returns the buffer-too-small error
without a call of Unmarshal, and Unmarshal is called exactly when
0 < n < 40960.  The pair (0, nil) is never handed back on this socket: a read
of zero bytes comes back as io.EOF, which criuSwrk returns from the error
check before the length checks, again without a call of Unmarshal. -/
theorem criuSwrk_frame_length (w : World) (req : criurpc.CriuReq) (opts : Option CriuOpts)
    (hs : w.session.reachesLoop) :
    (∀ (logPath : String) (w1 : World) (req1 : criurpc.CriuReq) (d : Option criurpc.CriuResp),
      checkRead logPath w1 req1 0 none d = (LoopCtl.ret Error.unexpectedEOF, req1, w1) ∧
      checkRead logPath w1 req1 40960 none d = (LoopCtl.ret Error.bufferTooSmall, req1, w1) ∧
      (∀ n, n ≤ 40960 →
        ((0 < n ∧ n < 40960) ↔
          (checkRead logPath w1 req1 n none d).2.2.unmarshalCount = w1.unmarshalCount + 1))) ∧
    (w.session.firstRead.result.2 = none →
      0 < w.session.firstRead.result.1 ∧ w.session.firstRead.result.1 ≤ 40960 ∧
      (w.session.firstRead.result.1 = 40960 →
        (criuSwrk w req opts).1 = some Error.bufferTooSmall ∧
        (criuSwrk w req opts).2.2.unmarshalCount = w.unmarshalCount) ∧
      ((0 < w.session.firstRead.result.1 ∧ w.session.firstRead.result.1 < 40960) ↔
        (criuSwrk w req opts).2.2.unmarshalCount = w.unmarshalCount + 1)) ∧
    (w.session.firstRead.err = none → w.session.firstRead.n = 0 →
      w.session.firstRead.result = (0, some Error.eof) ∧
      (criuSwrk w req opts).1 = some Error.eof ∧
      (criuSwrk w req opts).2.2.unmarshalCount = w.unmarshalCount) := by
  have hbuf : bufSize = 40960 := by decide
  have hle : w.session.firstRead.n ≤ 40960 := by
    unfold ReadMsg.n
    rw [hbuf]
    exact Nat.min_le_right _ _
  have hw := (criuSwrk_world w req opts hs).1
  have hc := (respIter_counts (swrkLogPath req opts) (loopStart w req) req
    w.session.firstRead).2.2.1
  have hls : (loopStart w req).unmarshalCount = w.unmarshalCount := rfl
  rw [← hw, hls, hbuf] at hc
  have herr := criuSwrk_reached w req opts hs
  refine ⟨?_, ?_, ?_⟩
  · intro logPath w1 req1 d
    refine ⟨by simp [checkRead], by simp [checkRead, hbuf], ?_⟩
    intro n hn
    have hf := (handleFrame_counts logPath w1 req1 d).1
    by_cases h0 : n = 0
    · subst h0
      simp [checkRead]
    · by_cases hb : n = 40960
      · subst hb
        simp [checkRead, hbuf]
      · have h1 : 0 < n ∧ n < 40960 := by omega
        simp [checkRead, hbuf, h0, hb, hf, h1]
  · intro hok
    obtain ⟨he, h0⟩ := (ReadMsg.result_ok_iff _).1 hok
    have hr := ReadMsg.result_of_ok _ he h0
    rw [hr]
    simp only
    refine ⟨by omega, hle, ?_, ?_⟩
    · intro h4
      refine ⟨?_, ?_⟩
      · have hz := respIter_full (swrkLogPath req opts) (loopStart w req) req _ he
          (h4.trans hbuf.symm)
        rw [herr]
        rcases hh : respIter (swrkLogPath req opts) (loopStart w req) req w.session.firstRead
          with ⟨ctl, r1, w1⟩
        rw [hh] at hz
        simp only at hz
        subst hz
        rfl
      · rw [hc]
        simp [h4]
    · rw [hc]
      constructor
      · rintro ⟨h1, h2⟩
        have : w.session.firstRead.n ≠ 40960 := by omega
        simp [he, *]
      · intro h
        by_cases hcond : w.session.firstRead.err = none ∧ w.session.firstRead.n ≠ 0 ∧
            w.session.firstRead.n ≠ 40960
        · obtain ⟨_, h1, h2⟩ := hcond
          omega
        · rw [if_neg hcond] at h
          omega
  · intro he h0
    refine ⟨ReadMsg.result_of_zero _ he h0, ?_, ?_⟩
    · have hz := respIter_zero (swrkLogPath req opts) (loopStart w req) req _ he h0
      rw [herr]
      rcases hh : respIter (swrkLogPath req opts) (loopStart w req) req w.session.firstRead
        with ⟨ctl, r1, w1⟩
      rw [hh] at hz
      simp only at hz
      subst hz
      rfl
    · rw [hc]
      simp [h0]

theorem criuSwrk_frame_length_witness :
    (worldOf { reads := [{ size := 50000 }] }).session.reachesLoop ∧
    (checkRead "" {} dumpReq 0 none none).1 = LoopCtl.ret Error.unexpectedEOF ∧
    (criuSwrk (worldOf { reads := [{ size := 50000 }] }) dumpReq none).1 =
      some Error.bufferTooSmall ∧
    (criuSwrk (worldOf { reads := [] }) dumpReq none).1 = some Error.eof ∧
    (criuSwrk (worldOf { reads := [{ size := 12, resp := some (okResp CriuReqType.DUMP) }] })
      dumpReq none).2.2.unmarshalCount = 1 :=
  ⟨by decide,
   congrArg Prod.fst ((criuSwrk_frame_length (worldOf { reads := [{ size := 50000 }] })
      dumpReq none (by decide)).1 "" {} dumpReq none).1,
   (((criuSwrk_frame_length (worldOf { reads := [{ size := 50000 }] }) dumpReq none
      (by decide)).2.1 (by decide)).2.2.1 (by decide)).1,
   ((criuSwrk_frame_length (worldOf { reads := [] }) dumpReq none
      (by decide)).2.2 (by decide) (by decide)).2.1,
   ((criuSwrk_frame_length
      (worldOf { reads := [{ size := 12, resp := some (okResp CriuReqType.DUMP) }] })
      dumpReq none (by decide)).2.1 (by decide)).2.2.2.1 ⟨by decide, by decide⟩⟩

/-- C4: when the first datagram of a session decodes to a response with
success = false, of whatever type, criuSwrk returns the criu-failed error
carrying the type of the request, the cr_errno of the response and the log
path filepath.Join(opts.WorkDirectory, request log_file). -/
theorem criuSwrk_negative_response (w : World) (req : criurpc.CriuReq) (o : CriuOpts)
    (resp : criurpc.CriuResp) (hs : w.session.reachesLoop)
    (he : w.session.firstRead.err = none) (h0 : 0 < w.session.firstRead.n)
    (hb : w.session.firstRead.n < 40960) (hr : w.session.firstRead.resp = some resp)
    (hf : resp.Success = false) :
    (criuSwrk w req (some o)).1 =
      some (Error.criuFailed req.Type_ resp.GetCrErrno
        (filepathJoin o.WorkDirectory req.GetLogFile)) := by
  have hbuf : bufSize = 40960 := by decide
  have h0' : w.session.firstRead.n ≠ 0 := by omega
  have hb' : w.session.firstRead.n ≠ bufSize := by omega
  rw [criuSwrk_err_frame w req (some o) resp hs he h0' hb' hr]
  simp [hf, swrkLogPath]

theorem criuSwrk_negative_response_witness :
    (criuSwrk (worldOf { reads := [{ size := 16, resp := some (failResp CriuReqType.RESTORE 22) }] })
      dumpReq (some { WorkDirectory := "/work" })).1 =
      some (Error.criuFailed CriuReqType.DUMP 22 "/work/dump.log") :=
  criuSwrk_negative_response
    (worldOf { reads := [{ size := 16, resp := some (failResp CriuReqType.RESTORE 22) }] })
    dumpReq { WorkDirectory := "/work" } (failResp CriuReqType.RESTORE 22)
    (by decide) (by decide) (by decide) (by decide) (by decide) (by decide)

/-- C5: when the first datagram of a session decodes to a response with
success = true, criuSwrk returns the unable-to-parse error if and only if the
type of the response is none of FEATURE_CHECK, NOTIFY, DUMP, RESTORE,
PRE_DUMP. -/
theorem criuSwrk_unexpected_type_iff (w : World) (req : criurpc.CriuReq)
    (opts : Option CriuOpts) (resp : criurpc.CriuResp) (hs : w.session.reachesLoop)
    (he : w.session.firstRead.err = none) (h0 : 0 < w.session.firstRead.n)
    (hb : w.session.firstRead.n < 40960) (hr : w.session.firstRead.resp = some resp)
    (hsucc : resp.Success = true) :
    (∃ r, (criuSwrk w req opts).1 = some (Error.unableToParse r)) ↔
      resp.Type_ ∉ [CriuReqType.FEATURE_CHECK, CriuReqType.NOTIFY, CriuReqType.DUMP,
        CriuReqType.RESTORE, CriuReqType.PRE_DUMP] := by
  have hbuf : bufSize = 40960 := by decide
  have h0' : w.session.firstRead.n ≠ 0 := by omega
  have hb' : w.session.firstRead.n ≠ bufSize := by omega
  rw [criuSwrk_err_frame w req opts resp hs he h0' hb' hr]
  simp only [hsucc, Bool.true_eq_false, if_false]
  by_cases hacc : resp.Type_ ∈ acceptedRespTypes
  · have hacc' := hacc
    unfold acceptedRespTypes at hacc'
    simp only [hacc, if_true, hacc', not_true_eq_false, iff_false, not_exists]
    intro r
    unfold waitChild
    split
    · simp
    · split <;> simp
  · have hacc' := hacc
    unfold acceptedRespTypes at hacc'
    simp only [hacc, if_false, hacc', not_false_eq_true, iff_true]
    exact ⟨resp, rfl⟩

theorem criuSwrk_unexpected_type_iff_witness :
    (∃ r, (criuSwrk (worldOf { reads := [{ size := 16, resp := some (okResp CriuReqType.VERSION) }] })
      dumpReq none).1 = some (Error.unableToParse r)) :=
  (criuSwrk_unexpected_type_iff
    (worldOf { reads := [{ size := 16, resp := some (okResp CriuReqType.VERSION) }] })
    dumpReq none (okResp CriuReqType.VERSION)
    (by decide) (by decide) (by decide) (by decide) (by decide) (by decide)).2 (by decide)

/-- C6, as stated, fails: with a positive NOTIFY followed by a second
datagram, criuSwrk reads one datagram only and returns success; the second
datagram (here a negative response, which would have been an error) is never
read. -/
theorem criuSwrk_notify_ends_loop :
    notifyThenFail.reads.length = 2 ∧
    (criuSwrk (worldOf notifyThenFail) dumpReq (some {})).1 = none ∧
    (criuSwrk (worldOf notifyThenFail) dumpReq (some {})).2.2.readCount = 1 := by
  decide

/-- C6, amended: every session that reaches the response loop reads exactly
one datagram; a positive NOTIFY response raises no error in the dispatch and
ends the loop like the other accepted types, so that the result of criuSwrk
is that of the wait for the child. -/
theorem criuSwrk_notify_single_read (w : World) (req : criurpc.CriuReq)
    (opts : Option CriuOpts) (hs : w.session.reachesLoop) :
    (criuSwrk w req opts).2.2.readCount = w.readCount + 1 ∧
    (∀ resp, w.session.firstRead.err = none → 0 < w.session.firstRead.n →
      w.session.firstRead.n < 40960 → w.session.firstRead.resp = some resp →
      resp.Success = true → resp.Type_ = CriuReqType.NOTIFY →
      (criuSwrk w req opts).1 = waitChild w.session (swrkLogPath req opts) req) := by
  refine ⟨?_, ?_⟩
  · rw [(criuSwrk_world w req opts hs).1]
    exact (respIter_counts _ _ _ _).1
  · intro resp he h0 hb hr hsucc ht
    have hbuf : bufSize = 40960 := by decide
    have h0' : w.session.firstRead.n ≠ 0 := by omega
    have hb' : w.session.firstRead.n ≠ bufSize := by omega
    rw [criuSwrk_err_frame w req opts resp hs he h0' hb' hr]
    simp [hsucc, ht, acceptedRespTypes]

theorem criuSwrk_notify_single_read_witness :
    (criuSwrk (worldOf notifyThenFail) dumpReq none).2.2.readCount = 0 + 1 ∧
    (criuSwrk (worldOf notifyThenFail) dumpReq none).1 =
      waitChild (worldOf notifyThenFail).session (swrkLogPath dumpReq none) dumpReq :=
  ⟨(criuSwrk_notify_single_read (worldOf notifyThenFail) dumpReq none (by decide)).1,
   (criuSwrk_notify_single_read (worldOf notifyThenFail) dumpReq none (by decide)).2
     (okResp CriuReqType.NOTIFY) (by decide) (by decide) (by decide) (by decide) (by decide)
     (by decide)⟩

/-- C7: when the response loop ends normally (the first datagram decodes to a
positive response of an accepted type) and the wait for the child returns its
state, criuSwrk returns an error if and only if the child did not exit
successfully and the request is not a PRE_DUMP; for a PRE_DUMP request the
result is success whatever the exit status. -/
theorem criuSwrk_exit_status (w : World) (req : criurpc.CriuReq) (opts : Option CriuOpts)
    (resp : criurpc.CriuResp) (hs : w.session.reachesLoop)
    (he : w.session.firstRead.err = none) (h0 : 0 < w.session.firstRead.n)
    (hb : w.session.firstRead.n < 40960) (hr : w.session.firstRead.resp = some resp)
    (hsucc : resp.Success = true)
    (hacc : resp.Type_ ∈ [CriuReqType.FEATURE_CHECK, CriuReqType.NOTIFY, CriuReqType.DUMP,
        CriuReqType.RESTORE, CriuReqType.PRE_DUMP])
    (hw : w.session.waitErr = none) :
    ((criuSwrk w req opts).1 ≠ none ↔
      (w.session.exitSuccess = false ∧ req.Type_ ≠ CriuReqType.PRE_DUMP)) ∧
    (req.Type_ = CriuReqType.PRE_DUMP → (criuSwrk w req opts).1 = none) := by
  have hbuf : bufSize = 40960 := by decide
  have h0' : w.session.firstRead.n ≠ 0 := by omega
  have hb' : w.session.firstRead.n ≠ bufSize := by omega
  have hacc' : resp.Type_ ∈ acceptedRespTypes := hacc
  rw [criuSwrk_err_frame w req opts resp hs he h0' hb' hr]
  simp only [hsucc, Bool.true_eq_false, if_false, hacc', if_true]
  unfold waitChild
  simp only [hw]
  cases hx : w.session.exitSuccess <;> by_cases ht : req.Type_ = CriuReqType.PRE_DUMP <;>
    simp [ht]

theorem criuSwrk_exit_status_witness :
    (criuSwrk (worldOf killedAfterPreDump)
      { Type_ := CriuReqType.PRE_DUMP } none).1 = none :=
  (criuSwrk_exit_status
    (worldOf killedAfterPreDump)
    { Type_ := CriuReqType.PRE_DUMP } none (okResp CriuReqType.PRE_DUMP)
    (by decide) (by decide) (by decide) (by decide) (by decide) (by decide) (by decide)
    (by decide)).2 rfl

theorem World.fsGrows_refl (w : World) : w.fsGrows w := by
  simp [World.fsGrows]

theorem World.fsGrows_trans {a b c : World} (h1 : a.fsGrows b) (h2 : b.fsGrows c) :
    a.fsGrows c := by
  obtain ⟨p1, p2, p3, p4, p5, p6, p7, p8⟩ := h1
  obtain ⟨q1, q2, q3, q4, q5, q6, q7, q8⟩ := h2
  exact ⟨q1.trans p1, q2.trans p2, q3.trans p3, q4.trans p4, q5.trans p5, q6.trans p6,
    q7.trans p7, fun x hx => q8 (p8 hx)⟩

theorem osMkdir_fsGrows (w : World) (p : String) : w.fsGrows (osMkdir w p).2 := by
  unfold osMkdir
  split
  · exact World.fsGrows_refl w
  · split
    · exact World.fsGrows_refl w
    · simp [World.fsGrows]

theorem mkdirUnlessExists_fsGrows (w : World) (p : String) :
    w.fsGrows (mkdirUnlessExists w p).2 := by
  have h := osMkdir_fsGrows w p
  unfold mkdirUnlessExists
  split
  · rename_i w1 hm
    rw [hm] at h
    exact h
  · rename_i e w1 hm
    rw [hm] at h
    split <;> exact h

theorem osOpen_fsGrows (w : World) (p : String) : w.fsGrows (osOpen w p).2 := by
  unfold osOpen
  split
  · split
    · exact World.fsGrows_refl w
    · simp [World.fsGrows]
  · exact World.fsGrows_refl w

theorem openWorkDir_fsGrows (w : World) (o : CriuOpts) (ro : criurpc.CriuOpts) :
    w.fsGrows (openWorkDir w o ro).2.2 ∧
    ∃ wd, (openWorkDir w o ro).2.1 = { ro with WorkDirFd := wd } := by
  unfold openWorkDir
  split
  · have h1 := mkdirUnlessExists_fsGrows w o.WorkDirectory
    split
    · rename_i err w1 hm
      rw [hm] at h1
      exact ⟨h1, ro.WorkDirFd, rfl⟩
    · rename_i w1 hm
      rw [hm] at h1
      have h2 := osOpen_fsGrows w1 o.WorkDirectory
      split
      · rename_i e w2 ho
        rw [ho] at h2
        exact ⟨World.fsGrows_trans h1 h2, ro.WorkDirFd, rfl⟩
      · rename_i fd w2 ho
        rw [ho] at h2
        exact ⟨World.fsGrows_trans h1 h2, some (toInt32 fd), rfl⟩
  · exact ⟨World.fsGrows_refl w, ro.WorkDirFd, rfl⟩

theorem freezerOpts_congr (w w1 : World) (c : RuncContainer) (ro : criurpc.CriuOpts)
    (h : w1.cgroup2Unified = w.cgroup2Unified) : freezerOpts w1 c ro = freezerOpts w c ro := by
  unfold freezerOpts
  rw [h]

/-- Either `RuncCheckpoint` fails before it chooses a request type, having
called CRIU not at all, or it runs its last part on the composed options. -/
theorem RuncCheckpoint_reach (w : World) (c : RuncContainer) (o : CriuOpts) (pid : Int) :
    ((RuncCheckpoint w c o pid).1 ≠ none ∧ w.fsGrows (RuncCheckpoint w c o pid).2) ∨
    ∃ w3 fd wd, w.fsGrows w3 ∧
      RuncCheckpoint w c o pid = dumpTail w3 o (composedOpts w c o pid fd wd) := by
  unfold RuncCheckpoint
  split
  · exact Or.inl ⟨by simp, World.fsGrows_refl w⟩
  · split
    · exact Or.inl ⟨by simp, World.fsGrows_refl w⟩
    · have h1 := mkdirUnlessExists_fsGrows w o.ImagesDirectory
      split
      · rename_i err w1 hm
        rw [hm] at h1
        exact Or.inl ⟨by simp, h1⟩
      · rename_i w1 hm
        rw [hm] at h1
        have h2 := osOpen_fsGrows w1 o.ImagesDirectory
        split
        · rename_i e w2 ho
          rw [ho] at h2
          exact Or.inl ⟨by simp, World.fsGrows_trans h1 h2⟩
        · rename_i fd w2 ho
          rw [ho] at h2
          have h3 := openWorkDir_fsGrows w2 o (dumpRpcOpts c o pid fd)
          simp only []
          split
          · rename_i err ro1 w3 hw
            rw [hw] at h3
            exact Or.inl ⟨by simp, World.fsGrows_trans h1 (World.fsGrows_trans h2 h3.1)⟩
          · rename_i ro1 w3 hw
            rw [hw] at h3
            obtain ⟨h3a, wd, h3b⟩ := h3
            simp only at h3a h3b
            have hg := World.fsGrows_trans h1 (World.fsGrows_trans h2 h3a)
            refine Or.inr ⟨w3, fd, wd, hg, ?_⟩
            unfold dumpTail composedOpts
            rw [freezerOpts_congr w w3 c _ hg.2.2.1, h3b]

theorem respLoop_sameMachine (logPath : String) (reads : List ReadMsg) (w : World)
    (req : criurpc.CriuReq) :
    w.sameMachine (respLoop logPath reads w req).2.2 ∧
    (respLoop logPath reads w req).2.1 = (closeStatusFd w req).1 := by
  have h := respIter_sameMachine logPath w req (reads.headD eofMsg)
  have hq := (respIter_counts logPath w req (reads.headD eofMsg)).2.2.2
  rw [respLoop_eq]
  rcases hh : respIter logPath w req (reads.headD eofMsg) with ⟨ctl, r1, w1⟩
  rw [hh] at h hq
  cases ctl <;> exact ⟨h, hq⟩

/-- The engine records the request it was called with and touches nothing of
the file system; a request without a status descriptor comes back unchanged. -/
theorem criuSwrk_frame (w : World) (req : criurpc.CriuReq) (opts : Option CriuOpts) :
    World.sameMachine { w with calls := w.calls ++ [req] } (criuSwrk w req opts).2.2 ∧
    ((∀ o, req.Opts = some o → o.StatusFd = none) → (criuSwrk w req opts).2.1 = req) := by
  have hrefl : World.sameMachine { w with calls := w.calls ++ [req] }
      { w with calls := w.calls ++ [req] } := World.sameMachine_refl _
  have hst : World.sameMachine { w with calls := w.calls ++ [req] }
      { w with calls := w.calls ++ [req], started := w.started + 1 } := by
    simp [World.sameMachine]
  unfold criuSwrk
  simp only []
  split
  · exact ⟨hrefl, fun _ => rfl⟩
  · split
    · exact ⟨hrefl, fun _ => rfl⟩
    · split
      · exact ⟨hrefl, fun _ => rfl⟩
      · split
        · exact ⟨hst, fun _ => rfl⟩
        · split
          · exact ⟨hst, fun _ => rfl⟩
          · split
            · exact ⟨hst, fun _ => rfl⟩
            · have hl := respLoop_sameMachine (swrkLogPath req opts)
                (w.criu w.calls.length).reads
                { w with calls := w.calls ++ [req], started := w.started + 1 } req
              split
              · rename_i e r1 w2 hh
                rw [hh] at hl
                refine ⟨World.sameMachine_trans hst hl.1, fun hn => ?_⟩
                rw [closeStatusFd_req_of_none _ req hn] at hl
                exact hl.2
              · rename_i r1 w2 hh
                rw [hh] at hl
                refine ⟨World.sameMachine_trans hst hl.1, fun hn => ?_⟩
                rw [closeStatusFd_req_of_none _ req hn] at hl
                exact hl.2

theorem cgroupsModeOpts_fields (o : CriuOpts) (ro : criurpc.CriuOpts) :
    payloadFields (cgroupsModeOpts o ro) = payloadFields ro ∧
    (cgroupsModeOpts o ro).FreezeCgroup = ro.FreezeCgroup := by
  unfold cgroupsModeOpts
  split <;> exact ⟨rfl, rfl⟩

theorem parentImageOpts_fields (o : CriuOpts) (ro : criurpc.CriuOpts) :
    payloadFields (parentImageOpts o ro) = payloadFields ro ∧
    (parentImageOpts o ro).FreezeCgroup = ro.FreezeCgroup := by
  unfold parentImageOpts
  split <;> exact ⟨rfl, rfl⟩

theorem freezerOpts_fields (w : World) (c : RuncContainer) (ro : criurpc.CriuOpts) :
    payloadFields (freezerOpts w c ro) = payloadFields ro := by
  unfold freezerOpts
  split
  · simp only []
    split <;> rfl
  · rfl

theorem composedOpts_fields (w : World) (c : RuncContainer) (o : CriuOpts) (pid : Int)
    (fd : Nat) (wd : Option Int) :
    payloadFields (composedOpts w c o pid fd wd) =
      (some 4, some "dump.log", some c.config.Rootfs, some true, some false,
       some (toInt32 pid), some true, some o.ShellJob, some o.LeaveRunning,
       some o.TcpEstablished, some o.ExternalUnixConnections, some o.FileLocks,
       some o.EmptyNs, some o.AutoDedup, some o.LazyPages, none) := by
  unfold composedOpts
  rw [(cgroupsModeOpts_fields _ _).1, (parentImageOpts_fields _ _).1, freezerOpts_fields]
  rfl

theorem composedOpts_statusFd (w : World) (c : RuncContainer) (o : CriuOpts) (pid : Int)
    (fd : Nat) (wd : Option Int) : (composedOpts w c o pid fd wd).StatusFd = none := by
  have h := composedOpts_fields w c o pid fd wd
  simp only [payloadFields, Prod.mk.injEq] at h
  exact h.2.2.2.2.2.2.2.2.2.2.2.2.2.2.2

/-- The freezer block sets `freeze_cgroup` exactly under its two conditions. -/
theorem composedOpts_freezeCgroup (w : World) (c : RuncContainer) (o : CriuOpts) (pid : Int)
    (fd : Nat) (wd : Option Int) :
    (composedOpts w c o pid fd wd).FreezeCgroup =
      if (w.cgroup2Unified = false ∨ 31400 ≤ c.criuVersion) ∧ c.cgroupManager "freezer" ≠ ""
      then some (c.cgroupManager "freezer") else none := by
  unfold composedOpts
  rw [(cgroupsModeOpts_fields _ _).2, (parentImageOpts_fields _ _).2]
  unfold freezerOpts checkCriuVersion
  by_cases hu : w.cgroup2Unified = false <;> by_cases hv : (31400 : Int) ≤ c.criuVersion <;>
    by_cases hp : c.cgroupManager "freezer" = "" <;> simp [hu, hv, hp, dumpRpcOpts]

/-- The feature check records one FEATURE_CHECK request and hands back the
options it was given. -/
theorem checkCriuFeatures_frame (w : World) (o : CriuOpts) (ro : criurpc.CriuOpts)
    (hro : ro.StatusFd = none) :
    World.sameMachine { w with calls := w.calls ++ [featureCheckReq ro] }
      (checkCriuFeatures w o ro { MemTrack := some true }).2.2 ∧
    (checkCriuFeatures w o ro { MemTrack := some true }).2.1 = ro := by
  have hf := criuSwrk_frame w (featureCheckReq ro) (some o)
  have hq := hf.2 (by
    intro o1 ho1
    simp only [featureCheckReq, Option.some.injEq] at ho1
    rw [← ho1]
    exact hro)
  have hw := hf.1
  unfold checkCriuFeatures
  simp only []
  change World.sameMachine _ (match criuSwrk w (featureCheckReq ro) (some o) with
    | (some e, req1, w1) => (some e, req1.Opts.getD ro, w1)
    | (none, req1, w1) => _).2.2 ∧ (match criuSwrk w (featureCheckReq ro) (some o) with
    | (some e, req1, w1) => (some e, req1.Opts.getD ro, w1)
    | (none, req1, w1) => _).2.1 = ro
  rcases hh : criuSwrk w (featureCheckReq ro) (some o) with ⟨e, r1, w1⟩
  rw [hh] at hq hw
  simp only at hq hw
  subst hq
  cases e with
  | some e => exact ⟨hw, rfl⟩
  | none =>
    simp only []
    split <;> exact ⟨hw, rfl⟩

/-- The requests the last part of `RuncCheckpoint` hands to CRIU, and what it
leaves of the file system. -/
theorem dumpTail_calls (w : World) (o : CriuOpts) (ro : criurpc.CriuOpts)
    (hro : ro.StatusFd = none) :
    (dumpTail w o ro).2.paths = w.paths ∧ (dumpTail w o ro).2.mkdirFault = w.mkdirFault ∧
    (dumpTail w o ro).2.created = w.created ∧
    (o.PreDump = false →
      (dumpTail w o ro).2.calls = w.calls ++ [{ Type_ := CriuReqType.DUMP, Opts := some ro }]) ∧
    (o.PreDump = true →
      ((checkCriuFeatures w o ro { MemTrack := some true }).1 ≠ none →
        (dumpTail w o ro).1 = (checkCriuFeatures w o ro { MemTrack := some true }).1 ∧
        (dumpTail w o ro).2.calls = w.calls ++ [featureCheckReq ro]) ∧
      ((checkCriuFeatures w o ro { MemTrack := some true }).1 = none →
        (dumpTail w o ro).2.calls =
          w.calls ++ [featureCheckReq ro, { Type_ := CriuReqType.PRE_DUMP, Opts := some ro }])) := by
  cases hp : o.PreDump with
  | false =>
    have hf := (criuSwrk_frame w { Type_ := CriuReqType.DUMP, Opts := some ro } (some o)).1
    have hd : dumpTail w o ro =
        match criuSwrk w { Type_ := CriuReqType.DUMP, Opts := some ro } (some o) with
        | (some err, _, w5) => (some err, w5)
        | (none, _, w5) => (none, w5) := by
      simp only [dumpTail, chooseReqType, hp]
      rfl
    rw [hd]
    rcases hh : criuSwrk w { Type_ := CriuReqType.DUMP, Opts := some ro } (some o)
      with ⟨e, r1, w5⟩
    rw [hh] at hf
    obtain ⟨f1, f2, _, _, _, _, f7, f8⟩ := hf
    simp only at f1 f2 f7 f8
    cases e <;> simp [f1, f2, f7, f8]
  | true =>
    obtain ⟨hc1, hc2⟩ := checkCriuFeatures_frame w o ro hro
    have hd : dumpTail w o ro =
        match checkCriuFeatures w o ro { MemTrack := some true } with
        | (some err, _, w1) => (some err, w1)
        | (none, ro1, w1) =>
          match criuSwrk w1 { Type_ := CriuReqType.PRE_DUMP, Opts := some ro1 } (some o) with
          | (some err, _, w5) => (some err, w5)
          | (none, _, w5) => (none, w5) := by
      simp only [dumpTail, chooseReqType, hp, if_true]
      rcases checkCriuFeatures w o ro { MemTrack := some true } with ⟨e, ro1, w1⟩
      cases e <;> rfl
    rw [hd]
    rcases hh : checkCriuFeatures w o ro { MemTrack := some true } with ⟨e, ro1, w1⟩
    rw [hh] at hc1 hc2
    simp only at hc1 hc2
    subst hc2
    obtain ⟨f1, f2, _, _, _, _, f7, f8⟩ := hc1
    simp only at f1 f2 f7 f8
    cases e with
    | some e => simp [f1, f2, f7, f8]
    | none =>
      have hf := (criuSwrk_frame w1 { Type_ := CriuReqType.PRE_DUMP, Opts := some ro1 }
        (some o)).1
      rcases hh5 : criuSwrk w1 { Type_ := CriuReqType.PRE_DUMP, Opts := some ro1 } (some o)
        with ⟨e5, r5, w5⟩
      rw [hh5] at hf
      obtain ⟨g1, g2, _, _, _, _, g7, g8⟩ := hf
      simp only at g1 g2 g7 g8
      cases e5 <;> simp [hh5, f1, f2, f7, f8, g1, g2, g7, g8]

theorem toInt32_of_range (x : Int) (h1 : -2147483648 ≤ x) (h2 : x < 2147483648) :
    toInt32 x = x := by
  unfold toInt32
  omega

/-- Every request `RuncCheckpoint` hands to CRIU carries the composed
options. -/
theorem RuncCheckpoint_trace (w : World) (c : RuncContainer) (o : CriuOpts) (pid : Int) :
    ∃ new, (RuncCheckpoint w c o pid).2.calls = w.calls ++ new ∧
      ∀ req ∈ new, ∃ fd wd, req.Opts = some (composedOpts w c o pid fd wd) := by
  rcases RuncCheckpoint_reach w c o pid with ⟨_, hg⟩ | ⟨w3, fd, wd, hg, heq⟩
  · exact ⟨[], by simp [hg.2.2.2.2.1], by simp⟩
  · have hcalls : w3.calls = w.calls := hg.2.2.2.2.1
    obtain ⟨_, _, _, hd, hp⟩ := dumpTail_calls w3 o (composedOpts w c o pid fd wd)
      (composedOpts_statusFd w c o pid fd wd)
    rw [heq]
    cases hpre : o.PreDump with
    | false =>
      refine ⟨_, by rw [hd hpre, hcalls], ?_⟩
      intro req hreq
      simp only [List.mem_singleton] at hreq
      subst hreq
      exact ⟨fd, wd, rfl⟩
    | true =>
      obtain ⟨hp1, hp2⟩ := hp hpre
      by_cases hc : (checkCriuFeatures w3 o (composedOpts w c o pid fd wd)
          { MemTrack := some true }).1 = none
      · refine ⟨_, by rw [hp2 hc, hcalls], ?_⟩
        intro req hreq
        simp only [List.mem_cons, List.mem_singleton, List.not_mem_nil, or_false] at hreq
        rcases hreq with h | h <;> subst h <;> exact ⟨fd, wd, rfl⟩
      · refine ⟨_, by rw [(hp1 hc).2, hcalls], ?_⟩
        intro req hreq
        simp only [List.mem_singleton] at hreq
        subst hreq
        exact ⟨fd, wd, rfl⟩

/-- The paths of the file system only grow in a dump, and its faults stay. -/
theorem RuncCheckpoint_fs (w : World) (c : RuncContainer) (o : CriuOpts) (pid : Int) :
    w.paths ⊆ (RuncCheckpoint w c o pid).2.paths ∧
    (RuncCheckpoint w c o pid).2.mkdirFault = w.mkdirFault := by
  rcases RuncCheckpoint_reach w c o pid with ⟨_, hg⟩ | ⟨w3, fd, wd, hg, heq⟩
  · exact ⟨hg.2.2.2.2.2.2.2, hg.1⟩
  · obtain ⟨h1, h2, _⟩ := dumpTail_calls w3 o (composedOpts w c o pid fd wd)
      (composedOpts_statusFd w c o pid fd wd)
    rw [heq, h1, h2]
    exact ⟨hg.2.2.2.2.2.2.2, hg.1⟩

theorem criuSwrk_answered (w : World) (req : criurpc.CriuReq) (opts : Option CriuOpts)
    (resp : criurpc.CriuResp) (h : w.session.answersWith resp) :
    (criuSwrk w req opts).1 = none := by
  obtain ⟨hs, he, h0, hb, hr, hsucc, hacc, hwait, hexit⟩ := h
  have hbuf : bufSize = 40960 := by decide
  rw [criuSwrk_err_frame w req opts resp hs he (by omega) (by omega) hr]
  simp [hsucc, hacc, waitChild, hwait, hexit]

/-- A dump without work directory and without pre-dump into a directory that
exists and can be opened: nothing is created, the directory is opened, and the
rest is one DUMP session. -/
theorem RuncCheckpoint_existing (w : World) (c : RuncContainer) (o : CriuOpts) (pid : Int)
    (hv : 30000 ≤ c.criuVersion) (hd : o.ImagesDirectory ≠ "")
    (hin : o.ImagesDirectory ∈ w.paths) (hop : w.openFault o.ImagesDirectory = none)
    (hwd : o.WorkDirectory = "") (hpd : o.PreDump = false) :
    ∃ ro, (RuncCheckpoint w c o pid).1 =
        (criuSwrk { w with nextFd := w.nextFd + 1 } { Type_ := CriuReqType.DUMP, Opts := some ro }
          (some o)).1 ∧
      (RuncCheckpoint w c o pid).2 =
        (criuSwrk { w with nextFd := w.nextFd + 1 } { Type_ := CriuReqType.DUMP, Opts := some ro }
          (some o)).2.2 := by
  simp only [RuncCheckpoint, checkCriuVersion, hv, hd, mkdirUnlessExists, osMkdir, hin, osIsExist,
    osOpen, hop, openWorkDir, hwd, chooseReqType, hpd, if_true, if_false, ne_eq, not_true_eq_false,
    Bool.not_true, Bool.false_eq_true]
  refine ⟨cgroupsModeOpts o (parentImageOpts o (freezerOpts { w with nextFd := w.nextFd + 1 } c
    (dumpRpcOpts c o pid w.nextFd))), ?_⟩
  rcases criuSwrk _ _ _ with ⟨e, r, w5⟩
  cases e <;> exact ⟨rfl, rfl⟩

/-- A dump into a directory that does not exist yet and can be created goes on
as a dump in the world where the directory has just been created. -/
theorem RuncCheckpoint_fresh (w : World) (c : RuncContainer) (o : CriuOpts) (pid : Int)
    (hnin : o.ImagesDirectory ∉ w.paths) (hmf : w.mkdirFault o.ImagesDirectory = none) :
    RuncCheckpoint w c o pid =
      (if 30000 ≤ c.criuVersion ∧ o.ImagesDirectory ≠ "" then
        RuncCheckpoint (w.withDir o.ImagesDirectory) c o pid
       else RuncCheckpoint w c o pid) := by
  by_cases hv : 30000 ≤ c.criuVersion
  · by_cases hd : o.ImagesDirectory = ""
    · simp [hd]
    · simp only [hv, hd, ne_eq, not_false_eq_true, and_self, if_true]
      simp [RuncCheckpoint, checkCriuVersion, hv, hd, mkdirUnlessExists, osMkdir, hnin, hmf,
        osIsExist, World.withDir]
  · simp [hv]

theorem handleFrame_not_tooOld (logPath : String) (w : World) (req : criurpc.CriuReq)
    (d : Option criurpc.CriuResp) (e : Error)
    (h : (handleFrame logPath w req d).1 = LoopCtl.ret e) : e.isTooOld = false := by
  unfold handleFrame at h
  simp only [] at h
  split at h
  · simp only [LoopCtl.ret.injEq] at h
    subst h
    rfl
  · split at h
    · simp only [LoopCtl.ret.injEq] at h
      subst h
      rfl
    · rename_i resp _
      have hd := dispatch_err { w with unmarshalCount := w.unmarshalCount + 1 } resp
      split at h
      · rename_i e1 w2 hh
        rw [hh] at hd
        simp only [LoopCtl.ret.injEq] at h
        subst h
        simp only at hd
        split at hd
        · simp at hd
        · simp only [Option.some.injEq] at hd
          subst hd
          rfl
      · simp at h

theorem respIter_not_tooOld (logPath : String) (w : World) (req : criurpc.CriuReq)
    (m : ReadMsg) (e : Error) (h : (respIter logPath w req m).1 = LoopCtl.ret e) :
    e.isTooOld = false := by
  unfold respIter at h
  split at h
  rename_i req1 w1 _
  unfold checkRead at h
  split at h
  · rename_i e1 he
    simp only [LoopCtl.ret.injEq] at h
    subst h
    unfold ReadMsg.result at he
    split at he
    · simp only [Option.some.injEq] at he
      subst he
      rfl
    · split at he
      · simp only [Option.some.injEq] at he
        subst he
        rfl
      · simp at he
  · split at h
    · simp only [LoopCtl.ret.injEq] at h
      subst h
      rfl
    · split at h
      · simp only [LoopCtl.ret.injEq] at h
        subst h
        rfl
      · exact handleFrame_not_tooOld _ _ _ _ _ h

theorem waitChild_not_tooOld (s : CriuSession) (logPath : String) (req : criurpc.CriuReq)
    (e : Error) (h : waitChild s logPath req = some e) : e.isTooOld = false := by
  unfold waitChild at h
  split at h
  · simp only [Option.some.injEq] at h
    subst h
    rfl
  · split at h
    · simp only [Option.some.injEq] at h
      subst h
      rfl
    · simp at h

/-- The RPC engine never returns the error of the version gate. -/
theorem criuSwrk_not_tooOld (w : World) (req : criurpc.CriuReq) (opts : Option CriuOpts)
    (e : Error) (h : (criuSwrk w req opts).1 = some e) : e.isTooOld = false := by
  unfold criuSwrk at h
  simp only [] at h
  split at h
  · simp only [Option.some.injEq] at h
    subst h
    rfl
  · split at h
    · simp only [Option.some.injEq] at h
      subst h
      rfl
    · split at h
      · simp only [Option.some.injEq] at h
        subst h
        rfl
      · split at h
        · simp only [Option.some.injEq] at h
          subst h
          rfl
        · split at h
          · simp only [Option.some.injEq] at h
            subst h
            rfl
          · split at h
            · simp only [Option.some.injEq] at h
              subst h
              rfl
            · rw [respLoop_eq] at h
              rcases hh : respIter (swrkLogPath req opts)
                { w with calls := w.calls ++ [req], started := w.started + 1 } req
                ((w.criu w.calls.length).reads.headD eofMsg) with ⟨ctl, r1, w1⟩
              have hi := respIter_not_tooOld (swrkLogPath req opts)
                { w with calls := w.calls ++ [req], started := w.started + 1 } req
                ((w.criu w.calls.length).reads.headD eofMsg)
              have hn := respIter_ne_next (swrkLogPath req opts)
                { w with calls := w.calls ++ [req], started := w.started + 1 } req
                ((w.criu w.calls.length).reads.headD eofMsg)
              rw [hh] at h hi hn
              cases ctl with
              | ret e1 =>
                simp only [Option.some.injEq] at h
                subst h
                exact hi _ rfl
              | brk =>
                simp only at h
                exact waitChild_not_tooOld _ _ _ _ h
              | next => exact absurd rfl hn

theorem checkCriuFeatures_not_tooOld (w : World) (o : CriuOpts) (ro : criurpc.CriuOpts)
    (feat : criurpc.CriuFeatures) (e : Error)
    (h : (checkCriuFeatures w o ro feat).1 = some e) : e.isTooOld = false := by
  unfold checkCriuFeatures at h
  simp only [] at h
  split at h
  · rename_i e1 r1 w1 hh
    simp only [Option.some.injEq] at h
    subst h
    exact criuSwrk_not_tooOld _ _ _ _ (by rw [hh])
  · split at h
    · simp only [Option.some.injEq] at h
      subst h
      rfl
    · simp at h

theorem mkdirUnlessExists_not_tooOld (w : World) (dir : String) (e : Error)
    (h : (mkdirUnlessExists w dir).1 = some e) : e.isTooOld = false := by
  unfold mkdirUnlessExists at h
  split at h
  · simp at h
  · split at h
    · simp only [Option.some.injEq] at h
      subst h
      rfl
    · simp at h

theorem openWorkDir_not_tooOld (w : World) (o : CriuOpts) (ro : criurpc.CriuOpts) (e : Error)
    (h : (openWorkDir w o ro).1 = some e) : e.isTooOld = false := by
  unfold openWorkDir at h
  split at h
  · split at h
    · rename_i err w1 hm
      simp only [Option.some.injEq] at h
      subst h
      exact mkdirUnlessExists_not_tooOld _ _ _ (by rw [hm])
    · split at h
      · simp only [Option.some.injEq] at h
        subst h
        rfl
      · simp at h
  · simp at h

theorem dumpTail_not_tooOld (w : World) (o : CriuOpts) (ro : criurpc.CriuOpts) (e : Error)
    (h : (dumpTail w o ro).1 = some e) : e.isTooOld = false := by
  unfold dumpTail chooseReqType at h
  split at h
  · rename_i err x w4 hc
    simp only [Option.some.injEq] at h
    subst h
    split at hc
    · simp only [] at hc
      split at hc
      · rename_i err1 ro1 w1 hf
        simp only [Prod.mk.injEq, Except.error.injEq] at hc
        obtain ⟨hc1, _⟩ := hc
        subst hc1
        exact checkCriuFeatures_not_tooOld _ _ _ _ _ (by rw [hf])
      · simp at hc
    · simp at hc
  · rename_i t ro5 w4 hc
    split at h
    · rename_i err x w5 hs
      simp only [Option.some.injEq] at h
      subst h
      exact criuSwrk_not_tooOld _ _ _ _ (by rw [hs])
    · simp at h

/-- Past the version gate `RuncCheckpoint` never returns the error of the gate. -/
theorem RuncCheckpoint_not_tooOld (w : World) (c : RuncContainer) (o : CriuOpts) (pid : Int)
    (hv : 30000 ≤ c.criuVersion) (e : Error) (h : (RuncCheckpoint w c o pid).1 = some e) :
    e.isTooOld = false := by
  unfold RuncCheckpoint at h
  simp only [checkCriuVersion, hv, if_true] at h
  split at h
  · simp only [Option.some.injEq] at h
    subst h
    rfl
  · split at h
    · rename_i err w1 hm
      simp only [Option.some.injEq] at h
      subst h
      exact mkdirUnlessExists_not_tooOld _ _ _ (by rw [hm])
    · split at h
      · simp only [Option.some.injEq] at h
        subst h
        rfl
      · split at h
        · rename_i err x w3 hw
          simp only [Option.some.injEq] at h
          subst h
          exact openWorkDir_not_tooOld _ _ _ _ (by rw [hw])
        · rename_i ro1 w3 hw
          exact dumpTail_not_tooOld w3 o _ e (by
            unfold dumpTail
            exact h)

/-- A dump without work directory and without pre-dump into a directory that
exists and can be opened, with CRIU answering well: it returns no error and
neither creates nor removes anything. -/
theorem RuncCheckpoint_plain (w : World) (c : RuncContainer) (o : CriuOpts) (pid : Int)
    (resp : criurpc.CriuResp)
    (hv : 30000 ≤ c.criuVersion) (hd : o.ImagesDirectory ≠ "")
    (hin : o.ImagesDirectory ∈ w.paths) (hop : w.openFault o.ImagesDirectory = none)
    (hwd : o.WorkDirectory = "") (hpd : o.PreDump = false) (hs : w.session.answersWith resp) :
    (RuncCheckpoint w c o pid).1 = none ∧ (RuncCheckpoint w c o pid).2.created = w.created ∧
    (RuncCheckpoint w c o pid).2.paths = w.paths ∧
    (RuncCheckpoint w c o pid).2.openFault = w.openFault := by
  obtain ⟨ro, h1, h2⟩ := RuncCheckpoint_existing w c o pid hv hd hin hop hwd hpd
  rw [h1, h2]
  have hf := (criuSwrk_frame { w with nextFd := w.nextFd + 1 }
    { Type_ := CriuReqType.DUMP, Opts := some ro } (some o)).1
  obtain ⟨f1, _, f3, _, _, _, f7, _⟩ := hf
  exact ⟨criuSwrk_answered _ _ _ resp hs, f7, f1, f3⟩

/-- C1: RuncCheckpoint starts with the version gate, which lets through
exactly the versions from 30000 on.  A descriptor whose criuVersion is below
30000 makes it return the too-old error at once, the world untouched.  With a
criuVersion of at least 30000 RuncCheckpoint goes on: it never returns the
too-old error, with an empty ImagesDirectory it returns the invalid-directory
error of the check that follows the gate, and a plain dump (the directory
exists and opens, no work directory, no pre-dump, CRIU answers well) returns
no error. -/
theorem runcCheckpoint_version_gate (w : World) (c : RuncContainer) (o : CriuOpts)
    (pid : Int) :
    (c.criuVersion < 30000 →
      RuncCheckpoint w c o pid = (some (Error.criuTooOld c.criuVersion 30000), w)) ∧
    (30000 ≤ c.criuVersion →
      (∀ v m, (RuncCheckpoint w c o pid).1 ≠ some (Error.criuTooOld v m)) ∧
      (o.ImagesDirectory = "" → RuncCheckpoint w c o pid = (some Error.invalidDirectory, w)) ∧
      (∀ resp, o.ImagesDirectory ≠ "" → o.ImagesDirectory ∈ w.paths →
        w.openFault o.ImagesDirectory = none → o.WorkDirectory = "" → o.PreDump = false →
        w.session.answersWith resp → (RuncCheckpoint w c o pid).1 = none)) := by
  constructor
  · intro h
    have hn : ¬ (30000 : Int) ≤ c.criuVersion := by omega
    simp [RuncCheckpoint, checkCriuVersion, hn]
  · intro hv
    refine ⟨?_, ?_, ?_⟩
    · intro v m h
      have := RuncCheckpoint_not_tooOld w c o pid hv _ h
      simp [Error.isTooOld] at this
    · intro hd
      simp [RuncCheckpoint, checkCriuVersion, hv, hd]
    · intro resp hd hin hop hwd hpd hs
      exact (RuncCheckpoint_plain w c o pid resp hv hd hin hop hwd hpd hs).1

theorem runcCheckpoint_version_gate_witness :
    (RuncCheckpoint sampleWorld { sampleContainer with criuVersion := 29999 }
      { ImagesDirectory := "/img" } 42).1 = some (Error.criuTooOld 29999 30000) ∧
    (RuncCheckpoint sampleWorld { sampleContainer with criuVersion := 30000 }
      { ImagesDirectory := "/img" } 42).1 = none ∧
    (RuncCheckpoint sampleWorld { sampleContainer with criuVersion := 30000 }
      { ImagesDirectory := "" } 42).1 = some Error.invalidDirectory :=
  ⟨congrArg Prod.fst ((runcCheckpoint_version_gate sampleWorld
      { sampleContainer with criuVersion := 29999 } { ImagesDirectory := "/img" } 42).1
      (by decide)),
   ((runcCheckpoint_version_gate sampleWorld { sampleContainer with criuVersion := 30000 }
      { ImagesDirectory := "/img" } 42).2 (by decide)).2.2 (okResp CriuReqType.DUMP)
      (by decide) (by decide) (by decide) (by decide) (by decide) (by decide),
   congrArg Prod.fst (((runcCheckpoint_version_gate sampleWorld
      { sampleContainer with criuVersion := 30000 } { ImagesDirectory := "" } 42).2
      (by decide)).2.1 (by decide))⟩

/-- C2: every request that RuncCheckpoint, called with the pid of the
descriptor, hands to CRIU carries options with log_level 4, log_file
dump.log, root the rootfs of the descriptor, manage_cgroups true,
notify_scripts false, pid the pid of the descriptor (a pid being a signed
32-bit number), orphan_pts_master true, and shell_job, leave_running,
tcp_established, ext_unix_sk, file_locks, empty_ns, auto_dedup, lazy_pages
equal to the user options; and Dump calls RuncCheckpoint with the pid of the
descriptor. -/
theorem runcCheckpoint_payload (w : World) (c : RuncContainer) (o : CriuOpts)
    (hlo : -2147483648 ≤ c.pid) (hhi : c.pid < 2147483648) :
    (∃ new, (RuncCheckpoint w c o c.pid).2.calls = w.calls ++ new ∧
      ∀ req ∈ new, ∃ ro, req.Opts = some ro ∧
        ro.LogLevel = some 4 ∧ ro.LogFile = some "dump.log" ∧
        ro.Root = some c.config.Rootfs ∧ ro.ManageCgroups = some true ∧
        ro.NotifyScripts = some false ∧ ro.Pid = some c.pid ∧
        ro.OrphanPtsMaster = some true ∧ ro.ShellJob = some o.ShellJob ∧
        ro.LeaveRunning = some o.LeaveRunning ∧ ro.TcpEstablished = some o.TcpEstablished ∧
        ro.ExtUnixSk = some o.ExternalUnixConnections ∧ ro.FileLocks = some o.FileLocks ∧
        ro.EmptyNs = some o.EmptyNs ∧ ro.AutoDedup = some o.AutoDedup ∧
        ro.LazyPages = some o.LazyPages) ∧
    ∀ dir, Dump w c dir =
      RuncCheckpoint w c { ImagesDirectory := dir, LeaveRunning := true } c.pid := by
  refine ⟨?_, fun _ => rfl⟩
  obtain ⟨new, hcalls, hnew⟩ := RuncCheckpoint_trace w c o c.pid
  refine ⟨new, hcalls, ?_⟩
  intro req hreq
  obtain ⟨fd, wd, hro⟩ := hnew req hreq
  refine ⟨_, hro, ?_⟩
  have hf := composedOpts_fields w c o c.pid fd wd
  rw [toInt32_of_range c.pid hlo hhi] at hf
  simp only [payloadFields, Prod.mk.injEq] at hf
  obtain ⟨f1, f2, f3, f4, f5, f6, f7, f8, f9, f10, f11, f12, f13, f14, f15, _⟩ := hf
  exact ⟨f1, f2, f3, f4, f5, f6, f7, f8, f9, f10, f11, f12, f13, f14, f15⟩

theorem runcCheckpoint_payload_witness :
    (RuncCheckpoint sampleWorld sampleContainer { ImagesDirectory := "/img" }
      sampleContainer.pid).2.calls.length = 1 ∧
    ∃ new, (RuncCheckpoint sampleWorld sampleContainer { ImagesDirectory := "/img" }
        sampleContainer.pid).2.calls = sampleWorld.calls ++ new ∧
      ∀ req ∈ new, ∃ ro, req.Opts = some ro ∧
        ro.LogLevel = some 4 ∧ ro.LogFile = some "dump.log" ∧
        ro.Root = some sampleContainer.config.Rootfs ∧ ro.ManageCgroups = some true ∧
        ro.NotifyScripts = some false ∧ ro.Pid = some sampleContainer.pid ∧
        ro.OrphanPtsMaster = some true ∧ ro.ShellJob = some false ∧
        ro.LeaveRunning = some false ∧ ro.TcpEstablished = some false ∧
        ro.ExtUnixSk = some false ∧ ro.FileLocks = some false ∧
        ro.EmptyNs = some 0 ∧ ro.AutoDedup = some false ∧
        ro.LazyPages = some false :=
  ⟨by decide,
   (runcCheckpoint_payload sampleWorld sampleContainer { ImagesDirectory := "/img" }
     (by decide) (by decide)).1⟩

/-- C9: every request RuncCheckpoint hands to CRIU has freeze_cgroup set to
the freezer path of the cgroup manager when (the kernel is not in cgroup-v2
unified mode or criuVersion is at least 31400) and that path is not empty,
and has it unset in every other case. -/
theorem runcCheckpoint_freeze_cgroup (w : World) (c : RuncContainer) (o : CriuOpts)
    (pid : Int) :
    ∃ new, (RuncCheckpoint w c o pid).2.calls = w.calls ++ new ∧
      ∀ req ∈ new, ∃ ro, req.Opts = some ro ∧
        ro.FreezeCgroup =
          if (w.cgroup2Unified = false ∨ 31400 ≤ c.criuVersion) ∧
              c.cgroupManager "freezer" ≠ ""
          then some (c.cgroupManager "freezer") else none := by
  obtain ⟨new, hcalls, hnew⟩ := RuncCheckpoint_trace w c o pid
  refine ⟨new, hcalls, ?_⟩
  intro req hreq
  obtain ⟨fd, wd, hro⟩ := hnew req hreq
  exact ⟨_, hro, composedOpts_freezeCgroup w c o pid fd wd⟩

theorem runcCheckpoint_freeze_cgroup_witness :
    (RuncCheckpoint sampleWorld sampleContainer { ImagesDirectory := "/img" } 42).2.calls.map
      (fun req => req.Opts.bind (fun ro => ro.FreezeCgroup)) =
      [some "/sys/fs/cgroup/freezer/c1"] ∧
    ∃ new, (RuncCheckpoint sampleWorld sampleContainer { ImagesDirectory := "/img" }
        42).2.calls = sampleWorld.calls ++ new ∧
      ∀ req ∈ new, ∃ ro, req.Opts = some ro ∧
        ro.FreezeCgroup =
          if (sampleWorld.cgroup2Unified = false ∨ 31400 ≤ sampleContainer.criuVersion) ∧
              sampleContainer.cgroupManager "freezer" ≠ ""
          then some (sampleContainer.cgroupManager "freezer") else none :=
  ⟨by decide,
   runcCheckpoint_freeze_cgroup sampleWorld sampleContainer { ImagesDirectory := "/img" } 42⟩

/-- C8: either RuncCheckpoint fails before it chooses a request type, with no
request issued, or it reaches the choice in some world with some composed
options, and then: without PreDump it issues one request, of type DUMP; with
PreDump it first issues a FEATURE_CHECK asking for memory tracking, and when
that check fails RuncCheckpoint returns the error of the check with no
further request issued, while after a passed check the next request is of
type PRE_DUMP. -/
theorem runcCheckpoint_request_type (w : World) (c : RuncContainer) (o : CriuOpts)
    (pid : Int) :
    ((RuncCheckpoint w c o pid).1 ≠ none ∧ (RuncCheckpoint w c o pid).2.calls = w.calls) ∨
    ∃ w3 ro, w3.calls = w.calls ∧ w3.criu = w.criu ∧ w3.criuFeatures = w.criuFeatures ∧
      (o.PreDump = false →
        (RuncCheckpoint w c o pid).2.calls =
          w.calls ++ [{ Type_ := CriuReqType.DUMP, Opts := some ro }]) ∧
      (o.PreDump = true →
        ((checkCriuFeatures w3 o ro { MemTrack := some true }).1 ≠ none →
          (RuncCheckpoint w c o pid).1 =
            (checkCriuFeatures w3 o ro { MemTrack := some true }).1 ∧
          (RuncCheckpoint w c o pid).2.calls =
            w.calls ++ [{ Type_ := CriuReqType.FEATURE_CHECK, Opts := some ro,
                          Features := some { MemTrack := some true } }]) ∧
        ((checkCriuFeatures w3 o ro { MemTrack := some true }).1 = none →
          (RuncCheckpoint w c o pid).2.calls =
            w.calls ++ [{ Type_ := CriuReqType.FEATURE_CHECK, Opts := some ro,
                          Features := some { MemTrack := some true } },
                        { Type_ := CriuReqType.PRE_DUMP, Opts := some ro }])) := by
  rcases RuncCheckpoint_reach w c o pid with ⟨he, hg⟩ | ⟨w3, fd, wd, hg, heq⟩
  · exact Or.inl ⟨he, hg.2.2.2.2.1⟩
  · right
    obtain ⟨_, _, _, hd, hp⟩ := dumpTail_calls w3 o (composedOpts w c o pid fd wd)
      (composedOpts_statusFd w c o pid fd wd)
    have hcalls : w3.calls = w.calls := hg.2.2.2.2.1
    rw [hcalls] at hd hp
    refine ⟨w3, composedOpts w c o pid fd wd, hcalls, hg.2.2.2.1, hg.2.2.2.2.2.1, ?_, ?_⟩
    · intro hpre
      rw [heq]
      exact hd hpre
    · intro hpre
      rw [heq]
      exact hp hpre

theorem runcCheckpoint_request_type_witness :
    (RuncCheckpoint noMemTrackWorld sampleContainer
      { ImagesDirectory := "/img", PreDump := true } 42).1 = some Error.missingMemTrack ∧
    (RuncCheckpoint noMemTrackWorld sampleContainer
      { ImagesDirectory := "/img", PreDump := true } 42).2.calls.map (fun r => r.Type_) =
      [CriuReqType.FEATURE_CHECK] ∧
    (RuncCheckpoint sampleWorld sampleContainer
      { ImagesDirectory := "/img" } 42).2.calls.map (fun r => r.Type_) = [CriuReqType.DUMP] ∧
    (((RuncCheckpoint sampleWorld sampleContainer { ImagesDirectory := "/img" } 42).1 ≠ none ∧
      (RuncCheckpoint sampleWorld sampleContainer { ImagesDirectory := "/img" } 42).2.calls =
        sampleWorld.calls) ∨
     ∃ w3 ro, w3.calls = sampleWorld.calls ∧ w3.criu = sampleWorld.criu ∧
      w3.criuFeatures = sampleWorld.criuFeatures ∧
      ((false : Bool) = false →
        (RuncCheckpoint sampleWorld sampleContainer { ImagesDirectory := "/img" } 42).2.calls =
          sampleWorld.calls ++ [{ Type_ := CriuReqType.DUMP, Opts := some ro }]) ∧
      ((false : Bool) = true →
        ((checkCriuFeatures w3 { ImagesDirectory := "/img" } ro { MemTrack := some true }).1 ≠
            none →
          (RuncCheckpoint sampleWorld sampleContainer { ImagesDirectory := "/img" } 42).1 =
            (checkCriuFeatures w3 { ImagesDirectory := "/img" } ro { MemTrack := some true }).1 ∧
          (RuncCheckpoint sampleWorld sampleContainer { ImagesDirectory := "/img" } 42).2.calls =
            sampleWorld.calls ++ [featureCheckReq ro]) ∧
        ((checkCriuFeatures w3 { ImagesDirectory := "/img" } ro { MemTrack := some true }).1 =
            none →
          (RuncCheckpoint sampleWorld sampleContainer { ImagesDirectory := "/img" } 42).2.calls =
            sampleWorld.calls ++ [featureCheckReq ro, { Type_ := CriuReqType.PRE_DUMP, Opts := some ro }]))) :=
  ⟨by decide, by decide, by decide,
   runcCheckpoint_request_type sampleWorld sampleContainer { ImagesDirectory := "/img" } 42⟩

/-- C10: with an empty ImagesDirectory RuncCheckpoint returns an error and
leaves the world as it was (no directory created, no CRIU started), the error
being the invalid-directory one once the version gate has passed.  A failure
of Mkdir that is not an already-exists failure is returned.  When the
directory exists already, creating it is no error and changes nothing:
RuncCheckpoint goes on to open it (an error of that open is what it returns,
the world untouched), the directory is there afterwards, and a plain dump (no
work directory, no pre-dump, CRIU answers well) returns no error and creates
nothing.  When the directory does not exist and can be created, the dump is
the dump in the world where it has been created, and the directory is there
afterwards.  So two plain dumps in a row to the same directory both return no
error, whether or not the directory existed before the first, and the second
creates nothing; and whenever the creation step passes in one dump it passes
again in the world that dump left. -/
theorem runcCheckpoint_images_dir (w : World) (c : RuncContainer) (o : CriuOpts)
    (pid : Int) :
    (o.ImagesDirectory = "" →
      (RuncCheckpoint w c o pid).1 ≠ none ∧ (RuncCheckpoint w c o pid).2 = w ∧
      (30000 ≤ c.criuVersion → (RuncCheckpoint w c o pid).1 = some Error.invalidDirectory)) ∧
    (∀ e, 30000 ≤ c.criuVersion → o.ImagesDirectory ≠ "" →
      (osMkdir w o.ImagesDirectory).1 = some e → osIsExist e = false →
      (RuncCheckpoint w c o pid).1 = some (Error.os e)) ∧
    (30000 ≤ c.criuVersion → o.ImagesDirectory ≠ "" → o.ImagesDirectory ∈ w.paths →
      o.ImagesDirectory ∈ (RuncCheckpoint w c o pid).2.paths ∧
      (∀ e, w.openFault o.ImagesDirectory = some e →
        RuncCheckpoint w c o pid = (some (Error.os e), w)) ∧
      (∀ resp, w.openFault o.ImagesDirectory = none → o.WorkDirectory = "" →
        o.PreDump = false → w.session.answersWith resp →
        (RuncCheckpoint w c o pid).1 = none ∧
        (RuncCheckpoint w c o pid).2.created = w.created)) ∧
    (30000 ≤ c.criuVersion → o.ImagesDirectory ≠ "" → o.ImagesDirectory ∉ w.paths →
      w.mkdirFault o.ImagesDirectory = none →
      RuncCheckpoint w c o pid = RuncCheckpoint (w.withDir o.ImagesDirectory) c o pid ∧
      o.ImagesDirectory ∈ (RuncCheckpoint w c o pid).2.paths) ∧
    (∀ resp resp2, 30000 ≤ c.criuVersion → o.ImagesDirectory ≠ "" →
      (o.ImagesDirectory ∈ w.paths ∨ w.mkdirFault o.ImagesDirectory = none) →
      w.openFault o.ImagesDirectory = none → o.WorkDirectory = "" → o.PreDump = false →
      w.session.answersWith resp →
      (RuncCheckpoint w c o pid).2.session.answersWith resp2 →
      (RuncCheckpoint w c o pid).1 = none ∧
      o.ImagesDirectory ∈ (RuncCheckpoint w c o pid).2.paths ∧
      (RuncCheckpoint (RuncCheckpoint w c o pid).2 c o pid).1 = none ∧
      (RuncCheckpoint (RuncCheckpoint w c o pid).2 c o pid).2.created =
        (RuncCheckpoint w c o pid).2.created) ∧
    ((mkdirUnlessExists w o.ImagesDirectory).1 = none →
      (mkdirUnlessExists (RuncCheckpoint w c o pid).2 o.ImagesDirectory).1 = none) := by
  have hfresh : 30000 ≤ c.criuVersion → o.ImagesDirectory ≠ "" → o.ImagesDirectory ∉ w.paths →
      w.mkdirFault o.ImagesDirectory = none →
      RuncCheckpoint w c o pid = RuncCheckpoint (w.withDir o.ImagesDirectory) c o pid := by
    intro hv hd hnin hmf
    have h := RuncCheckpoint_fresh w c o pid hnin hmf
    rw [if_pos ⟨hv, hd⟩] at h
    exact h
  refine ⟨?_, ?_, ?_, ?_, ?_, ?_⟩
  · intro hd
    by_cases hv : (30000 : Int) ≤ c.criuVersion
    · simp [RuncCheckpoint, checkCriuVersion, hv, hd]
    · simp [RuncCheckpoint, checkCriuVersion, hv]
  · intro e hv hd hm he
    rcases hmk : osMkdir w o.ImagesDirectory with ⟨e1, w1⟩
    rw [hmk] at hm
    simp only at hm
    subst hm
    simp [RuncCheckpoint, checkCriuVersion, hv, hd, mkdirUnlessExists, hmk, he]
  · intro hv hd hin
    refine ⟨(RuncCheckpoint_fs w c o pid).1 hin, ?_, ?_⟩
    · intro e hop
      simp [RuncCheckpoint, checkCriuVersion, hv, hd, mkdirUnlessExists, osMkdir, hin, osIsExist,
        osOpen, hop]
    · intro resp hop hwd hpd hs
      obtain ⟨h1, h2, _, _⟩ := RuncCheckpoint_plain w c o pid resp hv hd hin hop hwd hpd hs
      exact ⟨h1, h2⟩
  · intro hv hd hnin hmf
    refine ⟨hfresh hv hd hnin hmf, ?_⟩
    rw [hfresh hv hd hnin hmf]
    exact (RuncCheckpoint_fs (w.withDir o.ImagesDirectory) c o pid).1
      (by simp [World.withDir])
  · intro resp resp2 hv hd hcan hop hwd hpd hs hs2
    have hfirst : (RuncCheckpoint w c o pid).1 = none ∧
        o.ImagesDirectory ∈ (RuncCheckpoint w c o pid).2.paths ∧
        (RuncCheckpoint w c o pid).2.openFault = w.openFault := by
      by_cases hin : o.ImagesDirectory ∈ w.paths
      · obtain ⟨h1, _, h3, h4⟩ := RuncCheckpoint_plain w c o pid resp hv hd hin hop hwd hpd hs
        exact ⟨h1, by rw [h3]; exact hin, h4⟩
      · have hmf : w.mkdirFault o.ImagesDirectory = none := by
          rcases hcan with h | h
          · exact absurd h hin
          · exact h
        rw [hfresh hv hd hin hmf]
        obtain ⟨h1, _, h3, h4⟩ := RuncCheckpoint_plain (w.withDir o.ImagesDirectory) c o pid resp
          hv hd (by simp [World.withDir]) hop hwd hpd hs
        exact ⟨h1, by rw [h3]; simp [World.withDir], h4⟩
    obtain ⟨h1, h2, h3⟩ := hfirst
    obtain ⟨g1, g2, _, _⟩ := RuncCheckpoint_plain (RuncCheckpoint w c o pid).2 c o pid resp2
      hv hd h2 (by rw [h3]; exact hop) hwd hpd hs2
    exact ⟨h1, h2, g1, g2⟩
  · intro h1
    obtain ⟨hsub, hfault⟩ := RuncCheckpoint_fs w c o pid
    generalize (RuncCheckpoint w c o pid).2 = w2 at hsub hfault
    by_cases hin : o.ImagesDirectory ∈ w2.paths
    · simp [mkdirUnlessExists, osMkdir, hin, osIsExist]
    · have hnot : o.ImagesDirectory ∉ w.paths := fun h => hin (hsub h)
      simp only [mkdirUnlessExists, osMkdir, hnot, if_false] at h1
      simp only [mkdirUnlessExists, osMkdir, hin, if_false, hfault]
      cases hf : w.mkdirFault o.ImagesDirectory with
      | none => simp
      | some e =>
        rw [hf] at h1
        simp only at h1
        cases hx : osIsExist e with
        | true => simp [hx]
        | false => simp [hx] at h1

theorem runcCheckpoint_images_dir_witness :
    (RuncCheckpoint sampleWorld sampleContainer { ImagesDirectory := "" } 42).1 =
      some Error.invalidDirectory ∧
    ((RuncCheckpoint emptyWorld sampleContainer { ImagesDirectory := "/img" } 42).1 = none ∧
     "/img" ∈ (RuncCheckpoint emptyWorld sampleContainer { ImagesDirectory := "/img" } 42).2.paths ∧
     (RuncCheckpoint (RuncCheckpoint emptyWorld sampleContainer { ImagesDirectory := "/img" } 42).2
       sampleContainer { ImagesDirectory := "/img" } 42).1 = none ∧
     (RuncCheckpoint (RuncCheckpoint emptyWorld sampleContainer { ImagesDirectory := "/img" } 42).2
       sampleContainer { ImagesDirectory := "/img" } 42).2.created =
       (RuncCheckpoint emptyWorld sampleContainer { ImagesDirectory := "/img" } 42).2.created) ∧
    (RuncCheckpoint emptyWorld sampleContainer { ImagesDirectory := "/img" } 42).2.created =
      ["/img"] ∧
    (RuncCheckpoint { sampleWorld with openFault := fun _ => some Errno.EACCES } sampleContainer
      { ImagesDirectory := "/img" } 42).1 = some (Error.os Errno.EACCES) :=
  ⟨((runcCheckpoint_images_dir sampleWorld sampleContainer { ImagesDirectory := "" } 42).1
      rfl).2.2 (by decide),
   (runcCheckpoint_images_dir emptyWorld sampleContainer { ImagesDirectory := "/img" }
      42).2.2.2.2.1 (okResp CriuReqType.DUMP) (okResp CriuReqType.DUMP) (by decide) (by decide)
      (Or.inr (by decide)) (by decide) (by decide) (by decide) (by decide) (by decide),
   by decide,
   congrArg Prod.fst (((runcCheckpoint_images_dir
      { sampleWorld with openFault := fun _ => some Errno.EACCES } sampleContainer
      { ImagesDirectory := "/img" } 42).2.2.1 (by decide) (by decide) (by decide)).2.1
      Errno.EACCES rfl)⟩

/-! ## Lemmas on the string functions -/

theorem hasPrefixChars_iff (s p : List Char) : hasPrefixChars s p = true ↔ p <+: s := by
  induction s generalizing p with
  | nil =>
    cases p with
    | nil => simp [hasPrefixChars]
    | cons a p => simp [hasPrefixChars]
  | cons c cs ih =>
    cases p with
    | nil => simp [hasPrefixChars]
    | cons a p =>
      simp only [hasPrefixChars, Bool.and_eq_true, decide_eq_true_eq, ih, List.cons_prefix_cons]
      constructor
      · rintro ⟨h1, h2⟩
        exact ⟨h1.symm, h2⟩
      · rintro ⟨h1, h2⟩
        exact ⟨h1.symm, h2⟩

/-- The substring test holds exactly when the second list is an infix of the
first. -/
theorem containsChars_iff (s sub : List Char) : containsChars s sub = true ↔ sub <:+: s := by
  induction s with
  | nil =>
    simp only [containsChars, hasPrefixChars_iff, List.prefix_nil, List.infix_nil]
  | cons c cs ih =>
    simp only [containsChars, Bool.or_eq_true, hasPrefixChars_iff, ih, List.infix_cons_iff]

theorem splitSlash_ne_nil (l : List Char) : splitSlash l ≠ [] := by
  cases l with
  | nil => simp [splitSlash]
  | cons c cs =>
    unfold splitSlash
    split
    · simp
    · split <;> simp

/-- A list without separator is one segment. -/
theorem splitSlash_of_not_mem (a : List Char) (h : '/' ∉ a) : splitSlash a = [a] := by
  induction a with
  | nil => rfl
  | cons c cs ih =>
    have hc : c ≠ '/' := fun hh => h (by simp [hh])
    have hcs : '/' ∉ cs := fun hh => h (List.mem_cons_of_mem _ hh)
    simp [splitSlash, ih hcs, hc]

/-- Splitting at the first separator. -/
theorem splitSlash_append (a b : List Char) (h : '/' ∉ a) :
    splitSlash (a ++ '/' :: b) = a :: splitSlash b := by
  induction a with
  | nil =>
    simp only [List.nil_append, splitSlash]
    rcases hb : splitSlash b with _ | ⟨seg, rest⟩
    · exact absurd hb (splitSlash_ne_nil b)
    · simp
  | cons c cs ih =>
    have hc : c ≠ '/' := fun hh => h (by simp [hh])
    have hcs : '/' ∉ cs := fun hh => h (List.mem_cons_of_mem _ hh)
    simp [splitSlash, ih hcs, hc]

/-- The segments of a path of the form `/parent/name` followed by nothing or
by further segments. -/
theorem splitSlash_parent_name (parent name rest : List Char) (hp : '/' ∉ parent)
    (hn : '/' ∉ name) (hr : rest = [] ∨ rest.head? = some '/') :
    ∃ tail, splitSlash ('/' :: (parent ++ '/' :: (name ++ rest))) =
      [] :: parent :: name :: tail := by
  have h0 : splitSlash ('/' :: (parent ++ '/' :: (name ++ rest))) =
      [] :: splitSlash (parent ++ '/' :: (name ++ rest)) :=
    splitSlash_append [] _ (by simp)
  rw [h0, splitSlash_append parent _ hp]
  rcases hr with hr | hr
  · subst hr
    rw [List.append_nil, splitSlash_of_not_mem name hn]
    exact ⟨[], rfl⟩
  · cases rest with
    | nil => simp at hr
    | cons c r =>
      simp only [List.head?_cons, Option.some.injEq] at hr
      subst hr
      rw [splitSlash_append name _ hn]
      exact ⟨_, rfl⟩

/-! ## The adopted init process -/

/-- C20: for every nonChildProcess value, start, terminate and wait each
return an error and leave the stored pid, start time and external descriptors
as they were, while pid, startTime and externalDescriptors return the stored
values, startTime without error. -/
theorem nonChildProcess_read_only (p : nonChildProcess) :
    (p.start.1 ≠ none ∧ p.start.2 = p) ∧
    (p.terminate.1 ≠ none ∧ p.terminate.2 = p) ∧
    (p.wait.1 = none ∧ p.wait.2.1 ≠ none ∧ p.wait.2.2 = p) ∧
    p.pid = p.processPid ∧
    p.startTime = (p.processStartTime, none) ∧
    p.externalDescriptors = p.fds := by
  refine ⟨⟨?_, rfl⟩, ⟨?_, rfl⟩, ⟨rfl, ?_, rfl⟩, rfl, rfl, rfl⟩ <;>
    simp [nonChildProcess.start, nonChildProcess.terminate, nonChildProcess.wait]

/-! ## The Docker path -/

/-- The Docker path up to the synthesis of the cgroup configuration. -/
theorem getContainerFromDocker_reach (env : DockerEnv) (id : String) (info : DockerInspect)
    (v : Int) (paths : List (String × String)) (hc : env.clientFails = false)
    (hi : env.inspect id = some info) (hv : env.criuVersion = some v) (hpid : info.Pid ≠ 0)
    (hfile : env.cgroupFile info.Pid = some paths) :
    getContainerFromDocker env id =
      match dockerCgroup (mapGet paths "") with
      | Outcome.returned conf => dockerFinish env id info v (some conf)
      | Outcome.exited code => Outcome.exited code
      | Outcome.panicked => Outcome.panicked := by
  simp [getContainerFromDocker, hc, hi, hv, hpid, hfile]

theorem dockerCgroup_of_segments (path : String) (h : 3 ≤ (stringsSplitSlash path).length) :
    dockerCgroup path = Outcome.returned
      { Parent := (stringsSplitSlash path).getD 1 ""
        Name := (stringsSplitSlash path).getD 2 ""
        Path := "/" ++ (stringsSplitSlash path).getD 1 "" ++ "/" ++
          (stringsSplitSlash path).getD 2 ""
        Systemd := stringsContains path ".slice" } := by
  have hn : ¬ (stringsSplitSlash path).length < 3 := by omega
  unfold dockerCgroup
  simp only [hn, if_false]
  cases stringsContains path ".slice" <;> rfl

/-- C16: for a unified path of the form /parent/name, alone or followed by
further segments, the cgroup configuration the Docker path synthesizes has
Parent = parent, Name = name and Path = /parent/name, and it is this
configuration that the Docker path hands to manager.New, so that every
descriptor it returns carries it; for a path with fewer than 3 segments no
configuration is synthesized: the process ends with status 1 and no descriptor
is produced. -/
theorem getContainerFromDocker_cgroup (env : DockerEnv) (id : String) (info : DockerInspect)
    (v : Int) (paths : List (String × String)) (hc : env.clientFails = false)
    (hi : env.inspect id = some info) (hv : env.criuVersion = some v) (hpid : info.Pid ≠ 0)
    (hfile : env.cgroupFile info.Pid = some paths) :
    (∀ parent name rest : String, '/' ∉ parent.data → '/' ∉ name.data →
      (rest = "" ∨ rest.data.head? = some '/') →
      mapGet paths "" = "/" ++ parent ++ "/" ++ name ++ rest →
      ∃ c, dockerCgroup (mapGet paths "") = Outcome.returned c ∧
        c.Parent = parent ∧ c.Name = name ∧ c.Path = "/" ++ parent ++ "/" ++ name ∧
        getContainerFromDocker env id = dockerFinish env id info v (some c) ∧
        ∀ d, getContainerFromDocker env id = Outcome.returned d → d.cgroupsConf = some c) ∧
    ((stringsSplitSlash (mapGet paths "")).length < 3 →
      dockerCgroup (mapGet paths "") = Outcome.exited 1 ∧
      getContainerFromDocker env id = Outcome.exited 1) := by
  rw [getContainerFromDocker_reach env id info v paths hc hi hv hpid hfile]
  constructor
  · intro parent name rest hp hn hr hpath
    have hr' : rest.data = [] ∨ rest.data.head? = some '/' := by
      rcases hr with h | h
      · left
        rw [h]
      · exact Or.inr h
    obtain ⟨tail, ht⟩ := splitSlash_parent_name parent.data name.data rest.data hp hn hr'
    have hsplit : stringsSplitSlash (mapGet paths "") =
        "" :: parent :: name :: tail.map String.mk := by
      unfold stringsSplitSlash
      rw [hpath]
      have hd : ("/" ++ parent ++ "/" ++ name ++ rest).data =
          '/' :: (parent.data ++ '/' :: (name.data ++ rest.data)) := by
        simp [String.data_append]
      rw [hd, ht]
      rfl
    have hlen : 3 ≤ (stringsSplitSlash (mapGet paths "")).length := by
      rw [hsplit]
      simp
    rw [dockerCgroup_of_segments _ hlen]
    refine ⟨_, rfl, by simp [hsplit], by simp [hsplit], by simp [hsplit], rfl, ?_⟩
    intro d hd
    simp only [dockerFinish] at hd
    split at hd
    · simp [fatal] at hd
    · simp only [Outcome.returned.injEq] at hd
      subst hd
      rfl
  · intro hlt
    unfold dockerCgroup
    simp [hlt, fatal]

theorem getContainerFromDocker_cgroup_witness :
    (∃ c, dockerCgroup "/docker/abc123/extra" = Outcome.returned c ∧
        c.Parent = "docker" ∧ c.Name = "abc123" ∧ c.Path = "/" ++ "docker" ++ "/" ++ "abc123" ∧
        getContainerFromDocker (dockerEnvWith "/docker/abc123/extra") "c1" =
          dockerFinish (dockerEnvWith "/docker/abc123/extra") "c1"
            { Pid := 4242, MergedDir := "/merged" } 31600 (some c) ∧
        ∀ d, getContainerFromDocker (dockerEnvWith "/docker/abc123/extra") "c1" =
          Outcome.returned d → d.cgroupsConf = some c) ∧
    (dockerCgroup "/docker" = Outcome.exited 1 ∧
      getContainerFromDocker (dockerEnvWith "/docker") "c1" = Outcome.exited 1) ∧
    producedCgroup (getContainerFromDocker (dockerEnvWith "/system.slice/docker-abc123.scope")
      "c1") = some { Parent := "system.slice", Name := "docker-abc123.scope",
                     Path := "/system.slice/docker-abc123.scope", Systemd := true } :=
  ⟨(getContainerFromDocker_cgroup (dockerEnvWith "/docker/abc123/extra") "c1"
      { Pid := 4242, MergedDir := "/merged" } 31600 [("", "/docker/abc123/extra")]
      rfl rfl rfl (by decide) rfl).1 "docker" "abc123" "/extra"
      (by decide) (by decide) (Or.inr (by decide)) (by decide),
   (getContainerFromDocker_cgroup (dockerEnvWith "/docker") "c1"
      { Pid := 4242, MergedDir := "/merged" } 31600 [("", "/docker")]
      rfl rfl rfl (by decide) rfl).2 (by decide),
   by decide⟩

/-- C17, as stated, fails: the path /a.slice.d/b has no segment that ends in
.slice, and the configuration the Docker path synthesizes from it is still
marked as systemd. -/
theorem docker_systemd_without_slice_suffix :
    dockerCgroup "/a.slice.d/b" = Outcome.returned
      { Parent := "a.slice.d", Name := "b", Path := "/a.slice.d/b", Systemd := true } ∧
    ∀ seg ∈ stringsSplitSlash "/a.slice.d/b", stringsHasSuffix seg ".slice" = false := by
  decide

/-- C17, amended: for every unified cgroup path with at least 3 segments the
configuration the Docker path synthesizes has Systemd = true if and only if
the path contains the text .slice anywhere; and this is the configuration of
every descriptor the Docker path returns for a running container with that
path. -/
theorem dockerCgroup_systemd_iff (path : String) (h : 3 ≤ (stringsSplitSlash path).length) :
    ∃ c, dockerCgroup path = Outcome.returned c ∧
      (c.Systemd = true ↔ ".slice".data <:+: path.data) ∧
      ∀ (env : DockerEnv) (id : String) (info : DockerInspect) (v : Int)
        (paths : List (String × String)) (d : DockerDescriptor),
        env.clientFails = false → env.inspect id = some info → env.criuVersion = some v →
        info.Pid ≠ 0 → env.cgroupFile info.Pid = some paths → mapGet paths "" = path →
        getContainerFromDocker env id = Outcome.returned d → d.cgroupsConf = some c := by
  refine ⟨_, dockerCgroup_of_segments path h, ?_, ?_⟩
  · simp only [stringsContains, containsChars_iff]
  · intro env id info v paths d hc hi hv hpid hfile hpath hd
    rw [getContainerFromDocker_reach env id info v paths hc hi hv hpid hfile, hpath,
      dockerCgroup_of_segments path h] at hd
    simp only [dockerFinish] at hd
    split at hd
    · simp [fatal] at hd
    · simp only [Outcome.returned.injEq] at hd
      subst hd
      rfl

theorem dockerCgroup_systemd_iff_witness :
    (3 ≤ (stringsSplitSlash "/system.slice/docker-1.scope").length) ∧
    ∃ c, dockerCgroup "/system.slice/docker-1.scope" = Outcome.returned c ∧
      (c.Systemd = true ↔ ".slice".data <:+: "/system.slice/docker-1.scope".data) ∧
      ∀ (env : DockerEnv) (id : String) (info : DockerInspect) (v : Int)
        (paths : List (String × String)) (d : DockerDescriptor),
        env.clientFails = false → env.inspect id = some info → env.criuVersion = some v →
        info.Pid ≠ 0 → env.cgroupFile info.Pid = some paths →
        mapGet paths "" = "/system.slice/docker-1.scope" →
        getContainerFromDocker env id = Outcome.returned d → d.cgroupsConf = some c :=
  ⟨by decide, dockerCgroup_systemd_iff "/system.slice/docker-1.scope" (by decide)⟩

/-! ## The restore side: shell jobs, manifests, clean-up -/

/-- The scan of the open files answers true exactly when some path contains
`pts`. -/
theorem scanShellJob_iff (fds : List OpenFd) :
    scanShellJob fds = true ↔ ∃ f ∈ fds, "pts".data <:+: f.Path.data := by
  induction fds with
  | nil => simp [scanShellJob]
  | cons f rest ih =>
    have hf : stringsContains f.Path "pts" = true ↔ "pts".data <:+: f.Path.data := by
      simp only [stringsContains, containsChars_iff]
    unfold scanShellJob
    split
    · rename_i h
      exact iff_of_true rfl ⟨f, List.mem_cons_self _ _, hf.1 h⟩
    · rename_i h
      rw [ih]
      constructor
      · rintro ⟨g, hg, hs⟩
        exact ⟨g, List.mem_cons_of_mem _ hg, hs⟩
      · rintro ⟨g, hg, hs⟩
        rcases List.mem_cons.1 hg with hg | hg
        · subst hg
          exact absurd (hf.2 hs) h
        · exact ⟨g, hg, hs⟩

theorem prepareManagedRestore_shellJob (env : RestoreEnv) (fs : FileSys)
    (opts : criurpc.CriuOpts) (cmd : ServerCommand) :
    ∃ p, prepareManagedRestore env fs opts cmd = Outcome.returned p ∧
      p.opts.ShellJob =
        some (scanShellJob cmd.CedanaCheckpoint.ClientState.ProcessInfo.OpenFds) := by
  unfold prepareManagedRestore
  simp only []
  split
  · exact ⟨_, rfl, rfl⟩
  · split
    · exact ⟨_, rfl, rfl⟩
    · split <;> exact ⟨_, rfl, rfl⟩

theorem prepareRestore_shellJob (env : RestoreEnv) (fs : FileSys) (opts : criurpc.CriuOpts)
    (path : String) (p : Prepared) (h : prepareRestore env fs opts path = Outcome.returned p)
    (hn : p.err = none) :
    ∃ fs1 data cc, mkdirOne fs tmpdir = Except.ok fs1 ∧
      osReadFile env (env.unzip path tmpdir fs1) (filepathJoin tmpdir "checkpoint_state.json") =
        Except.ok data ∧
      env.unmarshal data = some cc ∧
      p.opts.ShellJob = some (scanShellJob cc.ClientState.ProcessInfo.OpenFds) := by
  unfold prepareRestore at h
  split at h
  · simp only [Outcome.returned.injEq] at h
    subst h
    simp at hn
  · rename_i fs1 hm
    simp only [] at h
    split at h
    · simp [fatal] at h
    · split at h
      · simp [fatal] at h
      · rename_i data hr
        split at h
        · simp [fatal] at h
        · rename_i cc hu
          split at h
          · simp only [Outcome.returned.injEq] at h
            subst h
            exact ⟨fs1, data, cc, hm, hr, hu, rfl⟩
          · simp at h
          · simp at h

/-- C11, as stated, fails: a manifest whose only open file is
/tmp/excerpts.txt has no path that contains pts/ (with the slash), and both
prepareRestore and prepareManagedRestore still compose shell_job = true. -/
theorem shellJob_without_pts_slash :
    (∀ f ∈ excerptsManifest.ClientState.ProcessInfo.OpenFds,
      stringsContains f.Path "pts/" = false) ∧
    preparedShellJob (prepareRestore (restoreEnvWith excerptsManifest []) rootOnly {}
      "/tmp/a.tar") = some true ∧
    preparedShellJob (prepareManagedRestore (restoreEnvWith excerptsManifest []) rootOnly {}
      { CedanaCheckpoint := excerptsManifest }) = some true := by
  decide

/-- C11, amended: on restore the composed shell_job is true if and only if
some entry of open_fds has a path that contains pts (no slash is asked for),
and false otherwise; this holds for prepareManagedRestore, which always
returns, and for prepareRestore whenever it returns a directory, where the
manifest is the one read and parsed from checkpoint_state.json. -/
theorem restore_shellJob_iff_pts (env : RestoreEnv) (fs : FileSys) (opts : criurpc.CriuOpts) :
    (∀ cmd, ∃ p b, prepareManagedRestore env fs opts cmd = Outcome.returned p ∧
      p.opts.ShellJob = some b ∧
      (b = true ↔ ∃ f ∈ cmd.CedanaCheckpoint.ClientState.ProcessInfo.OpenFds,
        "pts".data <:+: f.Path.data)) ∧
    (∀ path p, prepareRestore env fs opts path = Outcome.returned p → p.err = none →
      ∃ fs1 data cc b, mkdirOne fs tmpdir = Except.ok fs1 ∧
        osReadFile env (env.unzip path tmpdir fs1)
          (filepathJoin tmpdir "checkpoint_state.json") = Except.ok data ∧
        env.unmarshal data = some cc ∧ p.opts.ShellJob = some b ∧
        (b = true ↔ ∃ f ∈ cc.ClientState.ProcessInfo.OpenFds,
          "pts".data <:+: f.Path.data)) := by
  constructor
  · intro cmd
    obtain ⟨p, hp, hs⟩ := prepareManagedRestore_shellJob env fs opts cmd
    exact ⟨p, _, hp, hs, scanShellJob_iff _⟩
  · intro path p h hn
    obtain ⟨fs1, data, cc, h1, h2, h3, h4⟩ := prepareRestore_shellJob env fs opts path p h hn
    exact ⟨fs1, data, cc, _, h1, h2, h3, h4, scanShellJob_iff _⟩

theorem restore_shellJob_iff_pts_witness :
    preparedShellJob (prepareRestore (restoreEnvWith appLogManifest appLogWalk) rootOnly {}
      "/tmp/a.tar") = some true ∧
    ∃ p b, prepareManagedRestore (restoreEnvWith appLogManifest appLogWalk) rootOnly {}
        { CedanaCheckpoint := appLogManifest } = Outcome.returned p ∧
      p.opts.ShellJob = some b ∧
      (b = true ↔ ∃ f ∈ appLogManifest.ClientState.ProcessInfo.OpenFds,
        "pts".data <:+: f.Path.data) :=
  ⟨by decide,
   (restore_shellJob_iff_pts (restoreEnvWith appLogManifest appLogWalk) rootOnly {}).1
     { CedanaCheckpoint := appLogManifest }⟩

/-- C13, on the code: with a manifest that lists /var/log/app.log and an
archive that holds openFds/app.log, the ad-hoc restore puts the file back at
/var/log/app.log, and the managed restore of the same checkpoint returns
without error and leaves nothing at that path. -/
theorem managed_restore_skips_files :
    restoredNode (restore (restoreEnvWith appLogManifest appLogWalk) rootOnly none
      (some "/tmp/a.tar")) "/var/log/app.log" = some (Node.file [104, 105, 10]) ∧
    restoredErr (restore (restoreEnvWith appLogManifest appLogWalk) rootOnly
      (some { CedanaCheckpoint := appLogManifest }) none) = none ∧
    restoredNode (restore (restoreEnvWith appLogManifest appLogWalk) rootOnly
      (some { CedanaCheckpoint := appLogManifest }) none) "/var/log/app.log" = none := by
  decide

/-- C14, on the code: with an archive that holds no checkpoint_state.json,
and with one whose manifest does not parse, prepareRestore ends the process
with exit status 1 and returns nothing to its caller. -/
theorem prepareRestore_exits_on_bad_manifest :
    prepareRestore {} rootOnly {} "/tmp/a.tar" = Outcome.exited 1 ∧
    prepareRestore { restoreEnvWith appLogManifest appLogWalk with unmarshal := fun _ => none }
      rootOnly {} "/tmp/a.tar" = Outcome.exited 1 := by
  constructor <;> rfl

/-- Once the temporary directory is made, prepareRestore ends the process
with exit status 1, through the fatal level of the logger, whenever
checkpoint_state.json is absent from the decompressed archive, cannot be
read, or does not parse as a manifest. -/
theorem prepareRestore_fatal_on_manifest (env : RestoreEnv) (fs fs1 : FileSys)
    (opts : criurpc.CriuOpts) (path : String) (hm : mkdirOne fs tmpdir = Except.ok fs1) :
    ((env.unzip path tmpdir fs1).node (filepathJoin tmpdir "checkpoint_state.json") = none →
      prepareRestore env fs opts path = Outcome.exited 1) ∧
    (∀ e, osReadFile env (env.unzip path tmpdir fs1)
        (filepathJoin tmpdir "checkpoint_state.json") = Except.error e →
      prepareRestore env fs opts path = Outcome.exited 1) ∧
    (∀ data, osReadFile env (env.unzip path tmpdir fs1)
        (filepathJoin tmpdir "checkpoint_state.json") = Except.ok data →
      env.unmarshal data = none → prepareRestore env fs opts path = Outcome.exited 1) := by
  refine ⟨?_, ?_, ?_⟩
  · intro h
    simp [prepareRestore, hm, h, fatal]
  · intro e h
    unfold prepareRestore
    simp only [hm, h, fatal]
    split <;> rfl
  · intro data h hu
    unfold prepareRestore
    simp only [hm, h, hu, fatal]
    split
    · rfl
    · rfl

/-- C15: when the image directory can be opened, a CRIU restore error makes
criuRestore return that error with the file system as it was, the directory
and what it holds included; a CRIU restore without error is followed by the
removal of the directory and of everything beneath it; so that, of a
directory that existed, nothing is left exactly when the CRIU restore
succeeded. -/
theorem criuRestore_cleanup (env : RestoreEnv) (fs : FileSys) (opts : criurpc.CriuOpts)
    (dir : String) (hex : fs.node dir ≠ none) (hopen : env.openFault dir = none) :
    (∀ msg, env.criuRestoreErr = some msg →
      ∃ r, criuRestore env fs opts dir = Outcome.returned r ∧
        r.err = some (RestoreError.criu msg) ∧ r.fs = fs) ∧
    (env.criuRestoreErr = none → env.removeAllFault dir = none →
      ∃ r, criuRestore env fs opts dir = Outcome.returned r ∧ r.err = none ∧
        r.fs.node dir = none ∧ ∀ p, isBeneath dir p = true → r.fs.node p = none) ∧
    (∀ r, criuRestore env fs opts dir = Outcome.returned r →
      (r.fs.node dir = none ↔ env.criuRestoreErr = none)) := by
  rcases hnode : fs.node dir with _ | n
  · exact absurd hnode hex
  · refine ⟨?_, ?_, ?_⟩
    · intro msg hmsg
      refine ⟨{ err := some (RestoreError.criu msg), opts := { opts with ImagesDirFd := some 3 },
                fs := fs }, ?_, rfl, rfl⟩
      simp [criuRestore, hnode, hopen, hmsg]
    · intro hok hrm
      refine ⟨{ err := none, opts := { opts with ImagesDirFd := some 3 },
                fs := osRemoveAll fs dir }, ?_, rfl, ?_, ?_⟩
      · simp [criuRestore, hnode, hopen, hok, hrm]
      · simp [osRemoveAll]
      · intro p hp
        simp [osRemoveAll, hp]
    · intro r hr
      unfold criuRestore at hr
      simp only [hnode, hopen] at hr
      split at hr
      · rename_i msg hmsg
        simp only [Outcome.returned.injEq] at hr
        subst hr
        simp [hnode, hmsg]
      · rename_i hok
        split at hr
        · simp [fatal] at hr
        · simp only [Outcome.returned.injEq] at hr
          subst hr
          simp [osRemoveAll, hok]

theorem criuRestore_cleanup_witness :
    (∃ r, criuRestore { criuRestoreErr := some "criu failed" }
        ((rootOnly.set "cedana_restore" (some Node.dir)).set "cedana_restore/core-1.img"
          (some (Node.file [1]))) {} "cedana_restore" = Outcome.returned r ∧
      r.err = some (RestoreError.criu "criu failed") ∧
      r.fs = (rootOnly.set "cedana_restore" (some Node.dir)).set "cedana_restore/core-1.img"
          (some (Node.file [1]))) ∧
    (∃ r, criuRestore {}
        ((rootOnly.set "cedana_restore" (some Node.dir)).set "cedana_restore/core-1.img"
          (some (Node.file [1]))) {} "cedana_restore" = Outcome.returned r ∧ r.err = none ∧
      r.fs.node "cedana_restore" = none ∧
      ∀ p, isBeneath "cedana_restore" p = true → r.fs.node p = none) :=
  ⟨(criuRestore_cleanup { criuRestoreErr := some "criu failed" }
      ((rootOnly.set "cedana_restore" (some Node.dir)).set "cedana_restore/core-1.img"
        (some (Node.file [1]))) {} "cedana_restore" (by decide) rfl).1 "criu failed" rfl,
   (criuRestore_cleanup {}
      ((rootOnly.set "cedana_restore" (some Node.dir)).set "cedana_restore/core-1.img"
        (some (Node.file [1]))) {} "cedana_restore" (by decide) rfl).2.1 rfl rfl⟩

/-! ## The restore side: copying the files back -/

theorem FileSys.grows_refl (fs : FileSys) : fs.grows fs := fun _ => Or.inl rfl

theorem FileSys.grows_trans {a b c : FileSys} (h1 : a.grows b) (h2 : b.grows c) :
    a.grows c := by
  intro q
  rcases h1 q with h | ⟨h, h'⟩
  · rcases h2 q with g | ⟨g, g'⟩
    · exact Or.inl (g.trans h)
    · exact Or.inr ⟨h ▸ g, g'⟩
  · rcases h2 q with g | ⟨g, _⟩
    · exact Or.inr ⟨h, g.trans h'⟩
    · rw [h'] at g
      exact absurd g (by simp)

theorem mkdirOne_grows (fs fs1 : FileSys) (p : String) (h : mkdirOne fs p = Except.ok fs1) :
    fs.grows fs1 ∧ fs1.node p = some Node.dir := by
  unfold mkdirOne at h
  split at h
  · simp at h
  · rename_i hn
    split at h
    · simp at h
    · simp only [Except.ok.injEq] at h
      subst h
      refine ⟨?_, by simp [FileSys.set]⟩
      intro q
      by_cases hq : q = p
      · subst hq
        exact Or.inr ⟨hn, by simp [FileSys.set]⟩
      · exact Or.inl (by simp [FileSys.set, hq])

theorem mkdirAllChain_grows (chain : List String) (fs fs1 : FileSys)
    (h : mkdirAllChain fs chain = Except.ok fs1) :
    fs.grows fs1 ∧ ∀ p ups, chain = p :: ups → fs1.node p = some Node.dir := by
  induction chain generalizing fs fs1 with
  | nil =>
    simp only [mkdirAllChain, Except.ok.injEq] at h
    subst h
    exact ⟨FileSys.grows_refl fs, by simp⟩
  | cons p ups ih =>
    unfold mkdirAllChain at h
    split at h
    · rename_i hd
      simp only [Except.ok.injEq] at h
      subst h
      refine ⟨FileSys.grows_refl fs, ?_⟩
      intro p1 ups1 heq
      simp only [List.cons.injEq] at heq
      rw [← heq.1]
      exact hd
    · simp at h
    · split at h
      · simp at h
      · rename_i fs2 hup
        have hg := (ih fs fs2 hup).1
        split at h
        · rename_i fs3 hone
          simp only [Except.ok.injEq] at h
          subst h
          obtain ⟨hg3, hp3⟩ := mkdirOne_grows fs2 _ p hone
          refine ⟨FileSys.grows_trans hg hg3, ?_⟩
          intro p1 ups1 heq
          simp only [List.cons.injEq] at heq
          rw [← heq.1]
          exact hp3
        · split at h
          · rename_i hdir
            simp only [Except.ok.injEq] at h
            subst h
            refine ⟨hg, ?_⟩
            intro p1 ups1 heq
            simp only [List.cons.injEq] at heq
            rw [← heq.1]
            exact hdir
          · simp at h

theorem osMkdirAll_grows (fs fs1 : FileSys) (p : String) (h : osMkdirAll fs p = Except.ok fs1) :
    fs.grows fs1 ∧ fs1.node p = some Node.dir := by
  obtain ⟨hg, hp⟩ := mkdirAllChain_grows _ fs fs1 h
  exact ⟨hg, hp p _ rfl⟩

theorem resolveComps_of_no_dotdot (fs : FileSys) (rooted : Bool) (comps : List (List Char))
    (acc : List (List Char)) (h : ∀ c ∈ comps, c ≠ ['.', '.']) :
    resolveComps fs rooted acc comps = some (comps.foldl (cleanStep rooted) acc) := by
  induction comps generalizing acc with
  | nil => rfl
  | cons c rest ih =>
    have hc : c ≠ ['.', '.'] := h c (List.mem_cons_self _ _)
    simp only [resolveComps, hc, false_and, if_false, List.foldl_cons]
    exact ih _ (fun d hd => h d (List.mem_cons_of_mem _ hd))

/-- A file at a clean path is created at that path, provided its directory
exists. -/
theorem createTarget_clean (fs : FileSys) (f : String) (h : isCleanFilePath f = true) :
    createTarget fs f = if fs.node (filepathDir f) = some Node.dir then some f else none := by
  simp only [isCleanFilePath, Bool.and_eq_true, Bool.not_eq_true', decide_eq_true_eq] at h
  obtain ⟨hdd, hlex⟩ := h
  have hall : ∀ c ∈ splitSlash f.data, c ≠ ['.', '.'] := by
    intro c hc heq
    have : hasDotDot f = true := by
      simp only [hasDotDot, List.any_eq_true, decide_eq_true_eq]
      exact ⟨c, hc, heq⟩
    rw [hdd] at this
    exact absurd this (by simp)
  unfold lexicalTarget at hlex
  unfold createTarget
  rcases hdata : f.data with _ | ⟨c, cs⟩
  · rw [hdata] at hlex
    simp at hlex
  · rw [hdata] at hlex hall
    simp only at hlex ⊢
    split at hlex
    · simp at hlex
    · rename_i hlast
      simp only [Option.some.injEq, Prod.mk.injEq] at hlex
      obtain ⟨h1, h2⟩ := hlex
      rw [if_neg hlast, resolveComps_of_no_dotdot fs _ _ _
        (fun d hd => hall d (List.mem_of_mem_dropLast hd))]
      simp only [h1, h2]

theorem copyFile_dir (env : RestoreEnv) (fs : FileSys) (src : Option (List Nat)) (dst q : String)
    (h : fs.node q = some Node.dir) : (copyFile env fs src dst).node q = some Node.dir := by
  unfold copyFile
  split
  · exact h
  · split
    · exact h
    · split
      · exact h
      · rename_i p _
        split
        · exact h
        · rename_i hne
          by_cases hq : q = p
          · subst hq
            exact absurd h (hne)
          · simp [FileSys.set, hq, h]

theorem copyFile_other (env : RestoreEnv) (fs : FileSys) (src : Option (List Nat))
    (dst q : String) (hc : isCleanFilePath dst = true) (h : q ≠ dst) :
    (copyFile env fs src dst).node q = fs.node q := by
  unfold copyFile
  rw [createTarget_clean fs dst hc]
  split
  · rfl
  · split
    · rfl
    · split
      · rfl
      · rename_i p hp
        split at hp
        · simp only [Option.some.injEq] at hp
          subst hp
          split
          · rfl
          · simp [FileSys.set, h]
        · simp at hp

theorem copyFile_at (env : RestoreEnv) (fs : FileSys) (b : List Nat) (dst : String)
    (hc : isCleanFilePath dst = true) (hfault : env.copyFault dst = none)
    (hdir : fs.node (filepathDir dst) = some Node.dir) (h : fs.node dst ≠ some Node.dir) :
    (copyFile env fs (some b) dst).node dst = some (Node.file b) := by
  unfold copyFile
  rw [createTarget_clean fs dst hc]
  simp only [hfault, hdir, if_true]
  rcases hn : fs.node dst with _ | n
  · simp [FileSys.set]
  · cases n with
    | dir => exact absurd hn h
    | file c => simp [FileSys.set]

/-- A copy of the bytes a clean path holds already leaves them there, whether
or not the copy can be made. -/
theorem copyFile_same (env : RestoreEnv) (fs : FileSys) (b : List Nat) (dst : String)
    (hc : isCleanFilePath dst = true) (h : fs.node dst = some (Node.file b)) :
    (copyFile env fs (some b) dst).node dst = some (Node.file b) := by
  unfold copyFile
  rw [createTarget_clean fs dst hc]
  simp only []
  split
  · exact h
  · split
    · exact h
    · rename_i p hp
      split at hp
      · simp only [Option.some.injEq] at hp
        subst hp
        simp [h, FileSys.set]
      · simp at hp

theorem grows_dir {fs fs1 : FileSys} (hg : fs.grows fs1) (q : String)
    (h : fs.node q = some Node.dir) : fs1.node q = some Node.dir := by
  rcases hg q with g | ⟨g, _⟩
  · rw [g]
    exact h
  · rw [h] at g
    exact absurd g (by simp)

theorem grows_file {fs fs1 : FileSys} (hg : fs.grows fs1) (q : String) (b : List Nat)
    (h : fs.node q = some (Node.file b)) : fs1.node q = some (Node.file b) := by
  rcases hg q with g | ⟨g, _⟩
  · rw [g]
    exact h
  · rw [h] at g
    exact absurd g (by simp)

/-- Directories stay directories through the copies made for one entry. -/
theorem copyMatches_dir (env : RestoreEnv) (entry : WalkEntry) (paths : List String)
    (fs fs1 : FileSys) (h : copyMatches env fs entry paths = Except.ok fs1) (q : String)
    (hq : fs.node q = some Node.dir) : fs1.node q = some Node.dir := by
  induction paths generalizing fs with
  | nil =>
    simp only [copyMatches, Except.ok.injEq] at h
    subst h
    exact hq
  | cons g rest ih =>
    unfold copyMatches at h
    split at h
    · split at h
      · simp at h
      · rename_i fs2 hm
        exact ih _ h (copyFile_dir _ _ _ _ _ (grows_dir (osMkdirAll_grows _ _ _ hm).1 q hq))
    · exact ih _ h hq

/-- An entry that is no regular file named like `f` leaves `f` as it is, or
turns a missing `f` into a directory. -/
theorem copyMatches_other (env : RestoreEnv) (entry : WalkEntry) (paths : List String)
    (f : String) (hclean : ∀ g ∈ paths, isCleanFilePath g = true)
    (hne : entry.content = none ∨ entry.name ≠ filepathBase f) (fs fs1 : FileSys)
    (h : copyMatches env fs entry paths = Except.ok fs1) :
    fs1.node f = fs.node f ∨ (fs.node f = none ∧ fs1.node f = some Node.dir) := by
  induction paths generalizing fs with
  | nil =>
    simp only [copyMatches, Except.ok.injEq] at h
    subst h
    exact Or.inl rfl
  | cons g rest ih =>
    have hrest : ∀ g1 ∈ rest, isCleanFilePath g1 = true :=
      fun g1 h1 => hclean g1 (List.mem_cons_of_mem _ h1)
    unfold copyMatches at h
    split at h
    · rename_i hname
      split at h
      · simp at h
      · rename_i fs2 hm
        have hg := (osMkdirAll_grows _ _ _ hm).1
        have hcopy : (copyFile env fs2 entry.content g).node f = fs2.node f := by
          rcases hne with hc | hn
          · rw [hc]
            rfl
          · apply copyFile_other _ _ _ _ _ (hclean g (List.mem_cons_self _ _))
            intro hfg
            apply hn
            rw [hname, hfg]
        rcases ih hrest _ h with h1 | ⟨h1, h2⟩
        · rw [hcopy] at h1
          rcases hg f with g1 | ⟨g1, g2⟩
          · exact Or.inl (h1.trans g1)
          · exact Or.inr ⟨g1, h1.trans g2⟩
        · rw [hcopy] at h1
          rcases hg f with g1 | ⟨g1, g2⟩
          · exact Or.inr ⟨g1 ▸ h1, h2⟩
          · rw [g2] at h1
            exact absurd h1 (by simp)
    · exact ih hrest _ h

/-- Once `f` holds the bytes of the entry, the remaining copies for that entry
keep them. -/
theorem copyMatches_keeps (env : RestoreEnv) (entry : WalkEntry) (b : List Nat)
    (hc : entry.content = some b) (paths : List String)
    (hclean : ∀ g ∈ paths, isCleanFilePath g = true) (f : String) (fs fs1 : FileSys)
    (h : copyMatches env fs entry paths = Except.ok fs1) (hf : fs.node f = some (Node.file b)) :
    fs1.node f = some (Node.file b) := by
  induction paths generalizing fs with
  | nil =>
    simp only [copyMatches, Except.ok.injEq] at h
    subst h
    exact hf
  | cons g rest ih =>
    have hrest : ∀ g1 ∈ rest, isCleanFilePath g1 = true :=
      fun g1 h1 => hclean g1 (List.mem_cons_of_mem _ h1)
    have hgc := hclean g (List.mem_cons_self _ _)
    unfold copyMatches at h
    split at h
    · split at h
      · simp at h
      · rename_i fs2 hm
        have hf2 := grows_file (osMkdirAll_grows _ _ _ hm).1 f b hf
        apply ih hrest _ h
        by_cases hfg : f = g
        · subst hfg
          rw [hc]
          exact copyFile_same env fs2 b f hgc hf2
        · rw [copyFile_other _ _ _ _ _ hgc hfg]
          exact hf2
    · exact ih hrest _ h hf

/-- A regular file named like `f` is copied to `f`, after its directory has
been made, unless `f` names a directory or the copy fails. -/
theorem copyMatches_match (env : RestoreEnv) (entry : WalkEntry) (b : List Nat)
    (hc : entry.content = some b) (f : String) (hname : entry.name = filepathBase f)
    (hfault : env.copyFault f = none) (paths : List String) (hf : f ∈ paths)
    (hclean : ∀ g ∈ paths, isCleanFilePath g = true) (fs fs1 : FileSys)
    (h : copyMatches env fs entry paths = Except.ok fs1)
    (hnd : fs1.node f ≠ some Node.dir) :
    fs1.node f = some (Node.file b) ∧ fs1.node (filepathDir f) = some Node.dir := by
  induction paths generalizing fs with
  | nil => simp at hf
  | cons g rest ih =>
    have hrest : ∀ g1 ∈ rest, isCleanFilePath g1 = true :=
      fun g1 h1 => hclean g1 (List.mem_cons_of_mem _ h1)
    rcases List.mem_cons.1 hf with hfg | hfr
    · subst hfg
      have hfc := hclean f (List.mem_cons_self _ _)
      unfold copyMatches at h
      simp only [hname, if_true] at h
      split at h
      · simp at h
      · rename_i fs2 hm
        obtain ⟨_, hdir⟩ := osMkdirAll_grows _ _ _ hm
        have hf2 : fs2.node f ≠ some Node.dir := by
          intro hd
          exact hnd (copyMatches_dir _ _ _ _ _ h f (copyFile_dir _ _ _ _ _ hd))
        have hcopy : (copyFile env fs2 entry.content f).node f = some (Node.file b) := by
          rw [hc]
          exact copyFile_at env fs2 b f hfc hfault hdir hf2
        exact ⟨copyMatches_keeps env entry b hc rest hrest f _ _ h hcopy,
          copyMatches_dir _ _ _ _ _ h _ (copyFile_dir _ _ _ _ _ hdir)⟩
    · unfold copyMatches at h
      split at h
      · split at h
        · simp at h
        · exact ih hfr hrest _ h
      · exact ih hfr hrest _ h

theorem walkAll_dir (env : RestoreEnv) (cc : CedanaCheckpoint) (walk : List WalkEntry)
    (fs fs1 : FileSys) (h : walkAll env fs cc walk = Except.ok fs1) (q : String)
    (hq : fs.node q = some Node.dir) : fs1.node q = some Node.dir := by
  induction walk generalizing fs with
  | nil =>
    simp only [walkAll, Except.ok.injEq] at h
    subst h
    exact hq
  | cons e rest ih =>
    unfold walkAll at h
    split at h
    · simp at h
    · rename_i fs2 hw
      unfold walkFn at hw
      split at hw
      · simp at hw
      · exact ih _ h (copyMatches_dir _ _ _ _ _ hw q hq)

/-- After a walk that ran to its end over a manifest of clean paths, a listed
path that names no directory and to which the copy does not fail holds the
bytes of the last regular file of its base name that the walk met, in a
directory that exists; and it is as it was when the walk met no such file. -/
theorem walkAll_result (env : RestoreEnv) (cc : CedanaCheckpoint) (f : String)
    (hf : f ∈ cc.ClientState.ProcessInfo.OpenWriteOnlyFilePaths)
    (hclean : ∀ g ∈ cc.ClientState.ProcessInfo.OpenWriteOnlyFilePaths,
      isCleanFilePath g = true)
    (hfault : env.copyFault f = none) (walk : List WalkEntry)
    (fs fs1 : FileSys) (h : walkAll env fs cc walk = Except.ok fs1)
    (hnd : fs1.node f ≠ some Node.dir) :
    (∀ b, lastFileNamed walk (filepathBase f) = some b →
      fs1.node f = some (Node.file b) ∧ fs1.node (filepathDir f) = some Node.dir) ∧
    (lastFileNamed walk (filepathBase f) = none → fs1.node f = fs.node f) := by
  induction walk generalizing fs with
  | nil =>
    simp only [walkAll, Except.ok.injEq] at h
    subst h
    simp [lastFileNamed]
  | cons e rest ih =>
    unfold walkAll at h
    split at h
    · simp at h
    · rename_i fs2 hw
      obtain ⟨ih1, ih2⟩ := ih fs2 h
      unfold walkFn at hw
      split at hw
      · simp at hw
      · rcases hl : lastFileNamed rest (filepathBase f) with _ | b0
        · have hsame := ih2 hl
          have hnd2 : fs2.node f ≠ some Node.dir := by
            rw [← hsame]
            exact hnd
          by_cases hmatch : e.name = filepathBase f
          · rcases hcont : e.content with _ | b
            · have ho := copyMatches_other env e _ f hclean (Or.inl hcont) _ _ hw
              simp only [lastFileNamed, hl, hmatch, if_true, hcont]
              refine ⟨by simp, fun _ => ?_⟩
              rcases ho with ho | ⟨_, ho⟩
              · exact hsame.trans ho
              · exact absurd ho hnd2
            · obtain ⟨m1, m2⟩ :=
                copyMatches_match env e b hcont f hmatch hfault _ hf hclean _ _ hw hnd2
              simp only [lastFileNamed, hl, hmatch, if_true, hcont]
              refine ⟨?_, by simp⟩
              intro b1 hb1
              simp only [Option.some.injEq] at hb1
              subst hb1
              exact ⟨hsame.trans m1, walkAll_dir _ _ _ _ _ h _ m2⟩
          · have ho := copyMatches_other env e _ f hclean (Or.inr hmatch) _ _ hw
            simp only [lastFileNamed, hl, hmatch, if_false]
            refine ⟨by simp, fun _ => ?_⟩
            rcases ho with ho | ⟨_, ho⟩
            · exact hsame.trans ho
            · exact absurd ho hnd2
        · simp only [lastFileNamed, hl]
          refine ⟨?_, by simp⟩
          intro b1 hb1
          exact ih1 b1 (by rw [hl]; exact hb1)

theorem lastFileNamed_none (walk : List WalkEntry) (name : String)
    (h : ∀ e ∈ walk, e.name ≠ name) : lastFileNamed walk name = none := by
  induction walk with
  | nil => rfl
  | cons a rest ih =>
    unfold lastFileNamed
    rw [ih (fun e he => h e (List.mem_cons_of_mem _ he))]
    simp [h a (List.mem_cons_self _ _)]

/-- When one entry only has the given name, the last file of that name is
that entry. -/
theorem lastFileNamed_of_unique (walk : List WalkEntry) (name : String) (e : WalkEntry)
    (he : e ∈ walk) (hn : e.name = name)
    (hu : ∀ e1 ∈ walk, e1.name = name → e1 = e) : lastFileNamed walk name = e.content := by
  induction walk with
  | nil => simp at he
  | cons a rest ih =>
    unfold lastFileNamed
    by_cases her : e ∈ rest
    · have hrest := ih her (fun e1 h1 => hu e1 (List.mem_cons_of_mem _ h1))
      rw [hrest]
      rcases hc : e.content with _ | b
      · simp only []
        by_cases ha : a.name = name
        · rw [if_pos ha, hu a (List.mem_cons_self _ _) ha, hc]
        · rw [if_neg ha]
      · rfl
    · have hae : a = e := by
        rcases List.mem_cons.1 he with h | h
        · exact h.symm
        · exact absurd h her
      subst hae
      have hnone : lastFileNamed rest name = none := by
        apply lastFileNamed_none
        intro c hc hcn
        have hca := hu c (List.mem_cons_of_mem _ hc) hcn
        exact her (hca ▸ hc)
      rw [hnone]
      simp [hn]

/-- C12, as stated, fails: openFds holds a.log with the byte 1 and, in a
subdirectory, a second a.log with the byte 2; after restoreFiles the listed
path /var/log/a.log holds the byte 2, not the bytes of openFds/a.log. -/
theorem restoreFiles_nested_duplicate :
    ({ path := "cedana_restore/openFds/a.log", content := some [1] } : WalkEntry) ∈ nestedWalk ∧
    restoredFile (restoreFiles { walk := fun _ => nestedWalk } extractedFs aLogManifest
      "cedana_restore") "/var/log/a.log" = some (Node.file [2]) := by
  decide

/-- A listed path with a `..` that leads through a directory which does not
exist is not restored: its directory, as filepath.Dir reads it, is made, the
copy to the path fails, and restoreFiles returns all the same. -/
theorem restoreFiles_unresolved_path :
    isCleanFilePath "/mnt/a/b/../c/app.log" = false ∧
    restoredFile (restoreFiles { walk := fun _ => appLogWalk } extractedFs dotDotManifest
      "cedana_restore") "/mnt/a/c" = some Node.dir ∧
    restoredFile (restoreFiles { walk := fun _ => appLogWalk } extractedFs dotDotManifest
      "cedana_restore") "/mnt/a/c/app.log" = none ∧
    restoredFile (restoreFiles { walk := fun _ => appLogWalk } extractedFs dotDotManifest
      "cedana_restore") "/mnt/a/b/../c/app.log" = none := by
  decide

/-- C12, amended: take a manifest whose open_write_only_file_paths are clean
paths (no `..`, `.` or empty component, no separator at the end).  When
restoreFiles returns, every listed path f that names no directory, to which
the copy meets no failure, and whose base name is that of a regular file met
by the walk of dir/openFds is a regular file in an existing parent directory,
holding the bytes of the last such file the walk met; these are the bytes of
openFds/basename(f) whenever no other entry of the walk has that name. -/
theorem restoreFiles_restores (env : RestoreEnv) (fs fs1 : FileSys) (cc : CedanaCheckpoint)
    (dir f : String) (hret : restoreFiles env fs cc dir = Outcome.returned fs1)
    (hopen : fs.node (filepathJoin dir "openFds") ≠ none)
    (hf : f ∈ cc.ClientState.ProcessInfo.OpenWriteOnlyFilePaths)
    (hclean : ∀ g ∈ cc.ClientState.ProcessInfo.OpenWriteOnlyFilePaths,
      isCleanFilePath g = true)
    (hfault : env.copyFault f = none)
    (hnd : fs1.node f ≠ some Node.dir) :
    (∀ bytes, lastFileNamed (env.walk (filepathJoin dir "openFds")) (filepathBase f) =
        some bytes →
      fs1.node f = some (Node.file bytes) ∧ fs1.node (filepathDir f) = some Node.dir) ∧
    (∀ e bytes, e ∈ env.walk (filepathJoin dir "openFds") → e.name = filepathBase f →
      e.content = some bytes →
      (∀ e1 ∈ env.walk (filepathJoin dir "openFds"), e1.name = filepathBase f → e1 = e) →
      fs1.node f = some (Node.file bytes) ∧ fs1.node (filepathDir f) = some Node.dir) := by
  have hwalk : walkAll env fs cc (env.walk (filepathJoin dir "openFds")) = Except.ok fs1 := by
    unfold restoreFiles at hret
    split at hret
    · rename_i hnone
      exact absurd hnone hopen
    · split at hret
      · simp [fatal] at hret
      · rename_i fs2 hw
        simp only [Outcome.returned.injEq] at hret
        rw [← hret]
        exact hw
  have hres := (walkAll_result env cc f hf hclean hfault _ fs fs1 hwalk hnd).1
  refine ⟨hres, ?_⟩
  intro e bytes he hn hc hu
  apply hres
  rw [lastFileNamed_of_unique _ _ e he hn hu, hc]

theorem restoreFiles_restores_witness :
    (returnedFs (restoreFiles (restoreEnvWith appLogManifest appLogWalk) extractedFs
      appLogManifest "cedana_restore")).node "/var/log/app.log" =
        some (Node.file [104, 105, 10]) ∧
    (returnedFs (restoreFiles (restoreEnvWith appLogManifest appLogWalk) extractedFs
      appLogManifest "cedana_restore")).node (filepathDir "/var/log/app.log") =
        some Node.dir :=
  (restoreFiles_restores (restoreEnvWith appLogManifest appLogWalk) extractedFs
    (returnedFs (restoreFiles (restoreEnvWith appLogManifest appLogWalk) extractedFs
      appLogManifest "cedana_restore"))
    appLogManifest "cedana_restore" "/var/log/app.log" rfl (by decide) (by decide)
    (by decide) rfl (by decide)).1 [104, 105, 10] (by decide)

/-! ## The runc path -/

/-- C18, as stated, fails: when neither /var/run/runc nor
/host/run/containerd/runc/k8s.io exists, the dump command does not fail; it
sends its request with the second root and returns without error. -/
theorem runcDumpCmd_no_root_no_failure :
    (runcDumpCmd { statOk := fun _ => false, containerId := "c1" }).1 = Outcome.returned none ∧
    (runcDumpCmd { statOk := fun _ => false, containerId := "c1" }).2 =
      some { Root := "/host/run/containerd/runc/k8s.io", CheckpointPath := "",
             ContainerId := "c1", CriuOpts := { LeaveRunning := true } } := by
  decide

/-- C18, amended: once the client is set up, the dump command always sends
its request; the root in it is /var/run/runc when os.Stat succeeds on that
path and /host/run/containerd/runc/k8s.io otherwise, whether or not this
second directory exists. -/
theorem runcDumpCmd_root (env : CliEnv) (h : env.newCLIErr = none) :
    ∃ args, (runcDumpCmd env).2 = some args ∧
      (env.statOk "/var/run/runc" = true → args.Root = "/var/run/runc") ∧
      (env.statOk "/var/run/runc" = false → args.Root = "/host/run/containerd/runc/k8s.io") := by
  unfold runcDumpCmd
  simp only [h]
  split
  · refine ⟨_, rfl, ?_, ?_⟩ <;> intro hs <;> simp [probeRuncRoot, hs]
  · refine ⟨_, rfl, ?_, ?_⟩ <;> intro hs <;> simp [probeRuncRoot, hs]

theorem runcDumpCmd_root_witness :
    ∃ args, (runcDumpCmd { statOk := fun p => decide (p = "/host/run/containerd/runc/k8s.io") }).2 =
        some args ∧ args.Root = "/host/run/containerd/runc/k8s.io" :=
  match runcDumpCmd_root { statOk := fun p => decide (p = "/host/run/containerd/runc/k8s.io") }
      rfl with
  | ⟨args, h1, _, h3⟩ => ⟨args, h1, h3 (by decide)⟩

/-- C19, on the code: with the container id ../etc the runc path opens
/run/docker/runtime-runc/etc/state.json, which does not lie beneath the
runtime root /run/docker/runtime-runc/moby, and builds a descriptor from it. -/
theorem getContainerFromRunc_escapes_root :
    (getContainerFromRunc escapeEnv "../etc").2 = ["/run/docker/runtime-runc/etc/state.json"] ∧
    isBeneath "/run/docker/runtime-runc/moby" "/run/docker/runtime-runc/etc/state.json" = false ∧
    builtPid (getContainerFromRunc escapeEnv "../etc").1 = some 777 := by
  decide

/-! ## Behaviour the code has beyond the specification -/

/-- C21: criuSwrk does not compare the type of the response with the type of
the request.  Whenever the first datagram of a session decodes to a positive
response of any accepted type, the wait for the child returns its state and
the child exited successfully, criuSwrk returns no error, whatever the type
of the request; so a DUMP request answered by a positive RESTORE or
FEATURE_CHECK response succeeds. -/
theorem criuSwrk_ignores_type_mismatch (w : World) (req : criurpc.CriuReq)
    (opts : Option CriuOpts) (resp : criurpc.CriuResp) (hs : w.session.reachesLoop)
    (he : w.session.firstRead.err = none) (h0 : 0 < w.session.firstRead.n)
    (hb : w.session.firstRead.n < 40960) (hr : w.session.firstRead.resp = some resp)
    (hsucc : resp.Success = true)
    (hacc : resp.Type_ ∈ [CriuReqType.FEATURE_CHECK, CriuReqType.NOTIFY, CriuReqType.DUMP,
        CriuReqType.RESTORE, CriuReqType.PRE_DUMP])
    (hw : w.session.waitErr = none) (hx : w.session.exitSuccess = true) :
    (criuSwrk w req opts).1 = none := by
  have hbuf : bufSize = 40960 := by decide
  have h0' : w.session.firstRead.n ≠ 0 := by omega
  have hb' : w.session.firstRead.n ≠ bufSize := by omega
  have hacc' : resp.Type_ ∈ acceptedRespTypes := hacc
  rw [criuSwrk_err_frame w req opts resp hs he h0' hb' hr]
  simp [hsucc, hacc', waitChild, hw, hx]

theorem criuSwrk_ignores_type_mismatch_witness :
    dumpReq.Type_ = CriuReqType.DUMP ∧
    (criuSwrk (worldOf { reads := [{ size := 16, resp := some (okResp CriuReqType.RESTORE) }] })
      dumpReq (some {})).1 = none ∧
    (criuSwrk (worldOf { reads := [{ size := 16, resp := some (okResp CriuReqType.FEATURE_CHECK) }] })
      dumpReq (some {})).1 = none :=
  ⟨rfl,
   criuSwrk_ignores_type_mismatch
     (worldOf { reads := [{ size := 16, resp := some (okResp CriuReqType.RESTORE) }] })
     dumpReq (some {}) (okResp CriuReqType.RESTORE)
     (by decide) (by decide) (by decide) (by decide) (by decide) (by decide) (by decide)
     (by decide) (by decide),
   criuSwrk_ignores_type_mismatch
     (worldOf { reads := [{ size := 16, resp := some (okResp CriuReqType.FEATURE_CHECK) }] })
     dumpReq (some {}) (okResp CriuReqType.FEATURE_CHECK)
     (by decide) (by decide) (by decide) (by decide) (by decide) (by decide) (by decide)
     (by decide) (by decide)⟩

/-- C22: when the target file already exists, pullGPUBinary returns nil with
no request sent and the file system as it was; and when the file does not
exist, the configuration loads, the request can be built and the server
answers, without transport error, with a status other than 200, it returns
nil as well, having sent that one request and written nothing, so that the
file is still missing after a nil result. -/
theorem pullGPUBinary_nil_without_file (env : GpuEnv) (fs : FileSys) (binary filePath : String) :
    (fs.node filePath ≠ none →
      (pullGPUBinary env fs binary filePath).err = none ∧
      (pullGPUBinary env fs binary filePath).sent = [] ∧
      (pullGPUBinary env fs binary filePath).fs = fs) ∧
    (∀ cfg resp, fs.node filePath = none → env.initConfig = some cfg →
      env.newRequestFails ("https://" ++ cfg.CedanaUrl ++ "/checkpoint/gpu/" ++ binary) = false →
      env.httpDo { Method := "GET",
                   Url := "https://" ++ cfg.CedanaUrl ++ "/checkpoint/gpu/" ++ binary,
                   Authorization := "Bearer " ++ cfg.CedanaAuthToken } = Except.ok resp →
      resp.StatusCode ≠ 200 →
      (pullGPUBinary env fs binary filePath).err = none ∧
      (pullGPUBinary env fs binary filePath).sent =
        [{ Method := "GET",
           Url := "https://" ++ cfg.CedanaUrl ++ "/checkpoint/gpu/" ++ binary,
           Authorization := "Bearer " ++ cfg.CedanaAuthToken }] ∧
      (pullGPUBinary env fs binary filePath).fs = fs ∧
      (pullGPUBinary env fs binary filePath).fs.node filePath = none) := by
  constructor
  · intro h
    rcases hn : fs.node filePath with _ | n
    · exact absurd hn h
    · simp [pullGPUBinary, hn]
  · intro cfg resp hn hc hreq hdo hstatus
    simp [pullGPUBinary, hn, hc, hreq, hdo, hstatus]

theorem pullGPUBinary_nil_without_file_witness :
    ((pullGPUBinary notFoundEnv installedFs "gpucontroller"
        "/usr/local/bin/gpu-controller").err = none ∧
      (pullGPUBinary notFoundEnv installedFs "gpucontroller"
        "/usr/local/bin/gpu-controller").sent = [] ∧
      (pullGPUBinary notFoundEnv installedFs "gpucontroller"
        "/usr/local/bin/gpu-controller").fs = installedFs) ∧
    (pullGPUBinary notFoundEnv rootOnly "gpucontroller"
        "/usr/local/bin/gpu-controller").err = none ∧
    (pullGPUBinary notFoundEnv rootOnly "gpucontroller"
        "/usr/local/bin/gpu-controller").fs.node "/usr/local/bin/gpu-controller" = none :=
  ⟨(pullGPUBinary_nil_without_file notFoundEnv installedFs "gpucontroller"
      "/usr/local/bin/gpu-controller").1 (by decide),
   ((pullGPUBinary_nil_without_file notFoundEnv rootOnly "gpucontroller"
      "/usr/local/bin/gpu-controller").2
      { CedanaUrl := "cedana.example", CedanaAuthToken := "t0ken" } { StatusCode := 404 }
      rfl rfl rfl rfl (by decide)).1,
   ((pullGPUBinary_nil_without_file notFoundEnv rootOnly "gpucontroller"
      "/usr/local/bin/gpu-controller").2
      { CedanaUrl := "cedana.example", CedanaAuthToken := "t0ken" } { StatusCode := 404 }
      rfl rfl rfl rfl (by decide)).2.2.2⟩

end Cedana
